import Mathlib

/-!
# Lightning fire occurrence simulation

Shallow embedding of `lightning/simulation/simulate-new-allyears-DC.c`: the
holdover window, the subregions, the day loop of a cell, the trial totals and
their sort, the percentile ranks, the loader, the output lines of a query day
and the loop over the seasons; of the band lookup of the earlier version
`simulate-new-allyears-DC_old_v01.c`; and of the date functions and the day
grouping test of `lightning/binning/build-ltggrids-five-period.c`.

Conventions of the embedding
* C `int` values are `Int`; array cells are functions of their indices
  (`eco[i][j]` is `S.eco i j`), the day index `day-121` is kept as an `Int`.
  An access outside an array has no meaning in C; the arrays of the embedding
  are total functions and do not model it.
* C `float`/`double` values are rationals (`ℚ`). The percentile ranks of
  lines 96-97 are computed as the program computes them, in binary32: every
  operation is followed by the rounding `f32` to the nearest `float`, ties to
  even (IEEE 754, the arithmetic of the x86-64 build named in the source).
  Elsewhere the embedding computes the arithmetic the program writes down and
  leaves binary rounding aside. For the holdover window this loses nothing:
  `dc*3.0` and `(dc-200.0)*7.0` are exact in binary64 for every `int`, the
  quotient by 200 (300) is either a multiple of one half (then exactly
  representable) or at least 1/300 away from the next integer after the
  `+0.5`, far more than the rounding error.
* `rand()` is a sequence of integers `out 0, out 1, ...` in `[0, RAND_MAX]`
  together with the position of the next unread element.
* The input file is a list of items, each 18 well-formed fields or a token
  that is not a number; `fscanf` is a function on the read variables and the
  unread items.
* `for` loops with fixed bounds are folds over the list of their index values.
  The two `while` loops on the result of `fscanf`, which need not end, take a
  bound on the number of tests and return `none` when it is reached.
* `cells` (9999 in the source) and `sims` (1000 in the source) are parameters
  of the loops, so that every statement covers the values of the source.
-/

namespace FireOccurrence

/-! ## Numeric conversions -/

/-- Conversion of a floating value to `int` in C: truncation toward zero. -/
def cTrunc (q : ℚ) : Int := if 0 ≤ q then ⌊q⌋ else ⌈q⌉

/-- Round to nearest with halves rounded up, the rounding named by the
specification of the holdover window. -/
def roundHalfUp (x : ℚ) : Int := ⌊x + 1 / 2⌋

/-! ## Binary floating point (IEEE 754, round to nearest, ties to even) -/

/-- Rounding to the nearest integer, a tie to the even one. -/
def roundHalfEven (q : ℚ) : Int :=
  if 2 * (q - ⌊q⌋) < 1 then ⌊q⌋
  else if 1 < 2 * (q - ⌊q⌋) then ⌊q⌋ + 1
  else if ⌊q⌋ % 2 = 0 then ⌊q⌋ else ⌊q⌋ + 1

/-- Exponent of the unit in the last place of `q` in a binary format with
`prec` significant bits whose smallest positive value is `2 ^ emin`: `prec - 1`
below the exponent of `q`, and `emin` for the subnormal values. -/
def ulpExp (prec : Nat) (emin : Int) (q : ℚ) : Int :=
  max (Int.log 2 |q| - ((prec : Int) - 1)) emin

/-- The value of the format nearest to `q`, a tie to the one with the even
significand. Values beyond the largest finite value of the format are not
modelled: the exponent has no upper bound. -/
def roundBin (prec : Nat) (emin : Int) (q : ℚ) : ℚ :=
  (roundHalfEven (q / 2 ^ ulpExp prec emin q) : ℚ) * 2 ^ ulpExp prec emin q

/-- Rounding to binary32, the C type `float`: 24 significant bits, smallest
positive value `2 ^ (-149)`. -/
def f32 (q : ℚ) : ℚ := roundBin 24 (-149) q

/-- Rounding to binary64, the C type `double`: 53 significant bits, smallest
positive value `2 ^ (-1074)`. -/
def f64 (q : ℚ) : ℚ := roundBin 53 (-1074) q

/-- Line 93: `float confidence_interval = atof(argv[8])`, for the decimal
number `x` written in the argument: `atof` gives the nearest `double`, the
assignment rounds it to `float`. -/
def atofFloat (x : ℚ) : ℚ := f32 (f64 x)

/-! ## Holdover window (source lines 231-243) -/

/-- Lines 231-240: the lookback in days before the season-start clamp.
`holdover_time < 0` is automatic mode, driven by the drought code `dc`. -/
def holdoverRaw (holdover_time dc : Int) : Int :=
  if holdover_time < 0 then
    min (if dc < 200 then cTrunc ((dc : ℚ) * 3 / 200 + 4 + 1 / 2)
         else cTrunc (((dc : ℚ) - 200) * 7 / 300 + 7 + 1 / 2)) 14
  else holdover_time

/-- Line 243: `holdover=fmin(holdover, today-121)`. -/
def holdover (holdover_time dc today : Int) : Int :=
  min (holdoverRaw holdover_time dc) (today - 121)

/-! ## Subregion (source lines 218-229) -/

/-- Value stored in `subreg[i]`: 0 slopes, 2 east boreal, 1 west boreal. -/
def subreg (eco : Int) (longi : ℚ) : Nat :=
  if (eco ≥ 7 ∧ eco ≤ 11) ∨ eco = 18 ∨ eco = 14 then 0
  else if longi ≥ -114 then 2 else 1

/-! ## Percentile ranks (source lines 95-97) -/

/-- Line 96: `int ci_low = (0 + ((1 - (confidence_interval / 100)) / 2) * sims)`.
`confidence_interval` is the value of the `float` variable of line 93. The
`int` operands 100, 1, 2, `sims` and 0 are converted to `float` (only the
conversion of `sims` can round), each of the five operations is a `float`
operation, and the initialisation of the `int` truncates. -/
def ci_low (sims : Int) (confidence_interval : ℚ) : Int :=
  cTrunc (f32 (0 + f32 (f32 (f32 (1 - f32 (confidence_interval / 100)) / 2) * f32 (sims : ℚ))))

/-- Line 97: `int ci_high = (sims - ((1 - (confidence_interval / 100)) / 2) * sims)`,
in `float` arithmetic as line 96. -/
def ci_high (sims : Int) (confidence_interval : ℚ) : Int :=
  cTrunc (f32 (f32 (sims : ℚ)
    - f32 (f32 (f32 (1 - f32 (confidence_interval / 100)) / 2) * f32 (sims : ℚ))))

/-- Lines 76-102 of `main`: the only check made before the simulation is the
argument count. The result is `none` when the program prints the usage message
and returns 1, otherwise the ranks `(ci_low, ci_high)` with which the
simulation is entered. Nothing between line 95 and the simulation reads the
ranks except the three `printf` of lines 100-102. `confidence_interval` is the
value of the `float` variable of line 93. -/
def startup (argc : Int) (sims : Int) (confidence_interval : ℚ) : Option (Int × Int) :=
  if argc ≠ 9 then none
  else some (ci_low sims confidence_interval, ci_high sims confidence_interval)

/-! ## Season table and random numbers -/

/-- The arrays filled by the loader (lines 41-47), indexed by cell and by
day offset `jd-121`; `ltgp` has the period as third index. -/
structure Season where
  eco : Nat → Int → Int
  pign : Nat → Int → ℚ
  parr0 : Nat → Int → ℚ
  parr1 : Nat → Int → ℚ
  dmcgrid : Nat → Int → Int
  dcgrid : Nat → Int → Int
  ltg : Nat → Int → Int
  ltgp : Nat → Int → Nat → Int
  firegrid : Nat → Int → Int
  lati : Nat → ℚ
  longi : Nat → ℚ

/-- The C library generator: `RAND_MAX` and the successive results of `rand()`. -/
structure Rng where
  RAND_MAX : Nat
  out : Nat → Nat

/-- The expression `(float)(rand())/(float)(RAND_MAX)` for the call number `pos`. -/
def uniform (R : Rng) (pos : Nat) : ℚ := (R.out pos : ℚ) / (R.RAND_MAX : ℚ)

/-! ## One window day (source lines 249-288) -/

/-- Lines 253-256 and 262-265: `n` draws, one more count for each draw below `p`.
Arguments: draws left, running count, position in the `rand()` sequence. -/
def countBelow (R : Rng) (p : ℚ) : Nat → Int → Nat → Int × Nat
  | 0, c, pos => (c, pos)
  | n + 1, c, pos => countBelow R p n (if uniform R pos < p then c + 1 else c) (pos + 1)

/-- Line 268: `for(j=0,totpltg=0;j<5;j++) totpltg += ltgp[i][day-121][j]`. -/
def totpltg (S : Season) (i : Nat) (d : Int) : Int :=
  0 + S.ltgp i d 0 + S.ltgp i d 1 + S.ltgp i d 2 + S.ltgp i d 3 + S.ltgp i d 4

/-- Lines 277-281: the arrival probability `pa` chosen from the period draw `rand1`. -/
def pa (S : Season) (i : Nat) (d : Int) (rand1 : ℚ) : ℚ :=
  if rand1 < ((S.ltgp i d 0 : Int) : ℚ) then S.parr0 i d
  else if rand1 < ((S.ltgp i d 1 + S.ltgp i d 0 : Int) : ℚ) then S.parr0 i d
  else if rand1 < ((S.ltgp i d 2 + S.ltgp i d 1 + S.ltgp i d 0 : Int) : ℚ) then
    1 * S.parr0 i d
  else if rand1 < ((S.ltgp i d 3 + S.ltgp i d 2 + S.ltgp i d 1 + S.ltgp i d 0 : Int) : ℚ) then
    (8 / 10) * S.parr0 i d
  else (2 / 10) * S.parr0 i d

/-- Line 275: `rand1=(float)(rand())/(float)(RAND_MAX)*(float)(totpltg)`. -/
def rand1 (S : Season) (R : Rng) (i : Nat) (d : Int) (pos : Nat) : ℚ :=
  uniform R pos * ((totpltg S i d : Int) : ℚ)

/-- Lines 275-284, the body of the loop over the new ignitions: one period
draw, one arrival draw. Arguments and result: `narr2` and the position. -/
def arrivalStep (S : Season) (R : Rng) (i : Nat) (d : Int) (a : Int × Nat) : Int × Nat :=
  (if uniform R (a.2 + 1) < pa S i d (rand1 S R i d a.2) then a.1 + 1 else a.1, a.2 + 2)

/-- Lines 272-286: `for(fire=0;fire<nign;fire++)`. -/
def arrivals (S : Season) (R : Rng) (i : Nat) (d : Int) : Nat → Int × Nat → Int × Nat
  | 0, a => a
  | n + 1, a => arrivals S R i d n (arrivalStep S R i d a)

/-- The variables the day loop reads and writes: the globals `nhold`, `narr1`,
`nign`, `narr2`, and the number of `rand()` calls made so far. -/
structure Vars where
  nhold : Int
  narr1 : Int
  nign : Int
  narr2 : Int
  pos : Nat

/-- Lines 249-288: the body of the day loop for cell `i` on day `day`. -/
def dayStep (S : Season) (R : Rng) (i : Nat) (today holdover day : Int) (v : Vars) : Vars :=
  let d := day - 121
  let a1 : Int × Nat :=
    if day > today - holdover then countBelow R (S.parr1 i d) v.nhold.toNat 0 v.pos
    else (0, v.pos)
  let ig : Int × Nat := countBelow R (S.pign i d) (S.ltg i d).toNat 0 a1.2
  let a2 : Int × Nat := arrivals S R i d ig.1.toNat (0, ig.2)
  { nhold := v.nhold - a1.1 + ig.1 - a2.1
    narr1 := a1.1
    nign := ig.1
    narr2 := a2.1
    pos := a2.2 }

/-- The values of `day` visited by `for(day=today-holdover;day<=today;day++)`:
`today-holdover, ..., today`, none when `holdover < 0`. -/
def windowDays (today holdover : Int) : List Int :=
  (List.range (holdover + 1).toNat).map (fun (k : Nat) => today - holdover + (k : Int))

/-- Lines 245-289: the day loop. -/
def dayLoop (S : Season) (R : Rng) (i : Nat) (today holdover : Int) (v : Vars) : Vars :=
  (windowDays today holdover).foldl (fun w day => dayStep S R i today holdover day w) v

/-- The states after each day of the day loop, in order (the last one is the
result of `dayLoop`). -/
def dayTrace (S : Season) (R : Rng) (i : Nat) (today holdover : Int) (v : Vars) : List Vars :=
  ((windowDays today holdover).scanl (fun w day => dayStep S R i today holdover day w) v).tail

/-- The variables at the start of the window of a cell: line 216, `nhold=0`. -/
def cellStart (v : Vars) : Vars := { v with nhold := 0 }

/-- Lines 216 and 231-289 for cell `i`: reset of `nhold`, window, day loop. -/
def cellVars (S : Season) (R : Rng) (holdover_time today : Int) (i : Nat) (v : Vars) : Vars :=
  dayLoop S R i today (holdover holdover_time (S.dcgrid i (today - 121)) today)
    (cellStart v)

/-- The states after each window day of cell `i`, in order. -/
def cellTrace (S : Season) (R : Rng) (holdover_time today : Int) (i : Nat) (v : Vars) :
    List Vars :=
  dayTrace S R i today (holdover holdover_time (S.dcgrid i (today - 121)) today) (cellStart v)

/-- The state of the day loop of cell `i` when it enters the query day: the
body of the loop has been run for the days `today-holdover, ..., today-1`. -/
def beforeToday (S : Season) (R : Rng) (holdover_time today : Int) (i : Nat) (v : Vars) :
    Vars :=
  (windowDays (today - 1)
      (holdover holdover_time (S.dcgrid i (today - 121)) today - 1)).foldl
    (fun w day =>
      dayStep S R i today (holdover holdover_time (S.dcgrid i (today - 121)) today) day w)
    (cellStart v)

/-! ## Trial totals (source lines 198-318) -/

/-- The accumulators of one query day. -/
structure Acc where
  nigns : Nat → Nat → Int
  totarr : Nat → Nat → Int
  tothold : Nat → Nat → Int
  nignsPROV : Nat → Int
  totarrPROV : Nat → Int
  totholdPROV : Nat → Int
  narrtoday : Nat → ℚ
  nholdtoday : Nat → ℚ
  nigntoday : Nat → ℚ
  subreg : Nat → Nat
  ltgsum : Int
  totfire : Int

/-- Assignment `a[k][s] = x` on a two-index array. -/
def set2 (a : Nat → Nat → Int) (k s : Nat) (x : Int) : Nat → Nat → Int :=
  Function.update a k (Function.update (a k) s x)

/-- State of the simulation of one query day. -/
structure Sim where
  v : Vars
  a : Acc

/-- The state when the program starts: the variables and accumulators are
globals, hence 0, and no `rand()` call has been made. -/
def zeroSim : Sim where
  v := { nhold := 0, narr1 := 0, nign := 0, narr2 := 0, pos := 0 }
  a :=
    { nigns := fun _ _ => 0
      totarr := fun _ _ => 0
      tothold := fun _ _ => 0
      nignsPROV := fun _ => 0
      totarrPROV := fun _ => 0
      totholdPROV := fun _ => 0
      narrtoday := fun _ => 0
      nholdtoday := fun _ => 0
      nigntoday := fun _ => 0
      subreg := fun _ => 0
      ltgsum := 0
      totfire := 0 }

/-- Lines 206-213: the accumulators of trial `sim` are set to 0. -/
def resetTrial (sim : Nat) (a : Acc) : Acc :=
  { a with
    totarrPROV := Function.update a.totarrPROV sim 0
    totholdPROV := Function.update a.totholdPROV sim 0
    nignsPROV := Function.update a.nignsPROV sim 0
    totarr := set2 (set2 (set2 a.totarr 0 sim 0) 1 sim 0) 2 sim 0
    tothold := set2 (set2 (set2 a.tothold 0 sim 0) 1 sim 0) 2 sim 0
    nigns := set2 (set2 (set2 a.nigns 0 sim 0) 1 sim 0) 2 sim 0 }

/-- Lines 216-311: cell `i` of trial `sim`. -/
def cellStep (S : Season) (R : Rng) (holdover_time today : Int) (sims sim i : Nat)
    (st : Sim) : Sim :=
  let k := subreg (S.eco i (today - 121)) (S.longi i)
  let w := cellVars S R holdover_time today i st.v
  let a := st.a
  { v := w
    a :=
      { subreg := Function.update a.subreg i k
        narrtoday := Function.update a.narrtoday i
          (a.narrtoday i + ((w.narr1 + w.narr2 : Int) : ℚ) / (sims : ℚ))
        nholdtoday := Function.update a.nholdtoday i
          (a.nholdtoday i + ((w.nhold + w.narr1 + w.narr2 : Int) : ℚ) / (sims : ℚ))
        nigntoday := Function.update a.nigntoday i
          (a.nigntoday i + ((w.nign : Int) : ℚ) / (sims : ℚ))
        ltgsum := if sim = 1 then a.ltgsum + S.ltg i (today - 121) else a.ltgsum
        totfire := if sim = 1 then a.totfire + S.firegrid i (today - 121) else a.totfire
        nigns := set2 a.nigns k sim (a.nigns k sim + w.nign)
        totarr := set2 a.totarr k sim (a.totarr k sim + (w.narr1 + w.narr2))
        tothold := set2 a.tothold k sim (a.tothold k sim + (w.nhold + w.narr1 + w.narr2))
        nignsPROV := Function.update a.nignsPROV sim (a.nignsPROV sim + w.nign)
        totarrPROV := Function.update a.totarrPROV sim (a.totarrPROV sim + (w.narr1 + w.narr2))
        totholdPROV := Function.update a.totholdPROV sim
          (a.totholdPROV sim + (w.nhold + w.narr1 + w.narr2)) } }

/-- Lines 206-317: trial `sim`, the reset and then `for(i=1;i<=cells;i++)`. -/
def trial (S : Season) (R : Rng) (holdover_time today : Int) (cells sims sim : Nat)
    (st : Sim) : Sim :=
  (List.range' 1 cells).foldl (fun s i => cellStep S R holdover_time today sims sim i s)
    { st with a := resetTrial sim st.a }

/-- Lines 203-318: `for(sim=0;sim<sims;sim++)`. -/
def simLoop (S : Season) (R : Rng) (holdover_time today : Int) (cells sims : Nat)
    (st : Sim) : Sim :=
  (List.range sims).foldl (fun s sim => trial S R holdover_time today cells sims sim s) st

/-! ## Sort of the trial totals (source lines 324-334) -/

/-- The conditional exchange of lines 325-327 and 331-333 on one array:
`if(a[j]<a[i]){ temp=a[i];a[i]=a[j];a[j]=temp;}`. -/
def exchange (a : Nat → Int) (i j : Nat) : Nat → Int :=
  if a j < a i then Function.update (Function.update a i (a j)) j (a i) else a

/-- The loops `for(i=0;i<sims;i++) for(j=i;j<sims;j++)` around the conditional
exchange, on one array alone. -/
def exchangeSort (sims : Nat) (a : Nat → Int) : Nat → Int :=
  (List.range sims).foldl
    (fun b i => (List.range' i (sims - i)).foldl (fun c j => exchange c i j) b) a

/-- The conditional exchange on row `k` of a two-index array:
`if(a[k][j]<a[k][i]){ temp=a[k][i];a[k][i]=a[k][j];a[k][j]=temp;}`. -/
def exchange2 (a : Nat → Nat → Int) (k i j : Nat) : Nat → Nat → Int :=
  if a k j < a k i then set2 (set2 a k i (a k j)) k j (a k i) else a

/-- Lines 325-327: the three conditional exchanges of one pass of the inner
loop for subregion `k`. -/
def sortStepSub (a : Acc) (k i j : Nat) : Acc :=
  { a with
    totarr := exchange2 a.totarr k i j
    tothold := exchange2 a.tothold k i j
    nigns := exchange2 a.nigns k i j }

/-- Lines 324-328: `for(int k=0;k<3;k++) for(i=0;i<sims;i++) for(j=i;j<sims;j++)`. -/
def sortSub (sims : Nat) (a : Acc) : Acc :=
  (List.range 3).foldl
    (fun b k => (List.range sims).foldl
      (fun c i => (List.range' i (sims - i)).foldl (fun e j => sortStepSub e k i j) c) b) a

/-- Lines 331-333: the three conditional exchanges on the province arrays. -/
def sortStepPROV (a : Acc) (i j : Nat) : Acc :=
  { a with
    totarrPROV := exchange a.totarrPROV i j
    totholdPROV := exchange a.totholdPROV i j
    nignsPROV := exchange a.nignsPROV i j }

/-- Lines 330-334: `for(i=0;i<sims;i++) for(j=i;j<sims;j++)` on the province arrays. -/
def sortPROV (sims : Nat) (a : Acc) : Acc :=
  (List.range sims).foldl
    (fun c i => (List.range' i (sims - i)).foldl (fun e j => sortStepPROV e i j) c) a

/-- Lines 324-334: the sorting pass of a query day. -/
def sortPass (sims : Nat) (a : Acc) : Acc := sortPROV sims (sortSub sims a)

/-- The first `n` cells of an array, as a list. -/
def firstN (n : Nat) (a : Nat → Int) : List Int := (List.range n).map a

/-- Ascending order of the first `n` cells of an array. -/
def Ascending (n : Nat) (a : Nat → Int) : Prop :=
  ∀ p q, p ≤ q → q < n → a p ≤ a q

/-- Array `b` holds, in ascending order in its first `n` cells, a permutation of
the first `n` cells of `a`. -/
def SortedPermOf (n : Nat) (b a : Nat → Int) : Prop :=
  Ascending n b ∧ List.Perm (firstN n b) (firstN n a)

/-! ## The loader (source lines 138-190) -/

/-- One input row: the 18 fields read by the `fscanf` of lines 138 and 185, in
their order. The cell id is a `Nat`: a negative id would index before the
arrays. -/
structure Row where
  grid : Nat
  lat : ℚ
  lon : ℚ
  year : Int
  jd : Int
  probign : ℚ
  probarr0 : ℚ
  probarr1 : ℚ
  totltg : Int
  numfire : Int
  region : Int
  nltg0 : Int
  nltg1 : Int
  nltg2 : Int
  nltg3 : Int
  nltg4 : Int
  dmc : Int
  dc : Int

/-- What the input holds at the read position: 18 well-formed fields, or a
token that is not a number (the first conversion of the next `fscanf` fails on
it and the token stays in the input). -/
inductive Item where
  | row (r : Row)
  | junk

/-- The variables of the read loop: the last result of `fscanf`, the 18
variables it assigns, and the unread input. -/
structure Reader where
  err : Int
  cur : Row
  inp : List Item

/-- One call of the 18-field `fscanf`: at the end of the input it returns `EOF`
(-1) and assigns nothing; on a well-formed row it assigns the 18 variables and
returns 18; on a token that is not a number it assigns nothing, leaves the
token in the input and returns 0, the number of fields converted. -/
def fscanf (rd : Reader) : Reader :=
  match rd.inp with
  | [] => { rd with err := -1 }
  | Item.row r :: rest => { err := 18, cur := r, inp := rest }
  | Item.junk :: _ => { rd with err := 0 }

/-- Assignment `a[i][d] = x` on an array indexed by cell and day offset. -/
def setCell {α : Type} (a : Nat → Int → α) (i : Nat) (d : Int) (x : α) : Nat → Int → α :=
  Function.update a i (Function.update (a i) d x)

/-- Lines 148-163: the reset at the start of a season, `for(i=0;i<cells;i++)
for(j=0;j<154;j++)`. The arrays named in the loop are set to 0 at the cells
`i < cells` and day offsets `0 ≤ j < 154`; `firegrid` is not named in the loop. -/
def zeroOut (cells : Nat) (T : Season) : Season where
  eco := fun i j => if i < cells ∧ 0 ≤ j ∧ j < 154 then 0 else T.eco i j
  pign := fun i j => if i < cells ∧ 0 ≤ j ∧ j < 154 then 0 else T.pign i j
  parr0 := fun i j => if i < cells ∧ 0 ≤ j ∧ j < 154 then 0 else T.parr0 i j
  parr1 := fun i j => if i < cells ∧ 0 ≤ j ∧ j < 154 then 0 else T.parr1 i j
  dmcgrid := fun i j => if i < cells ∧ 0 ≤ j ∧ j < 154 then 0 else T.dmcgrid i j
  dcgrid := fun i j => if i < cells ∧ 0 ≤ j ∧ j < 154 then 0 else T.dcgrid i j
  lati := fun i => if i < cells then 0 else T.lati i
  longi := fun i => if i < cells then 0 else T.longi i
  ltg := fun i j => if i < cells ∧ 0 ≤ j ∧ j < 154 then 0 else T.ltg i j
  ltgp := fun i j p => if i < cells ∧ 0 ≤ j ∧ j < 154 ∧ p < 5 then 0 else T.ltgp i j p
  firegrid := T.firegrid

/-- Lines 170-183: the row held in the variables is stored at
`[grid][jd-121]` (`lati`, `longi` at `[grid]`). -/
def record (T : Season) (r : Row) : Season where
  eco := setCell T.eco r.grid (r.jd - 121) r.region
  pign := setCell T.pign r.grid (r.jd - 121) r.probign
  parr0 := setCell T.parr0 r.grid (r.jd - 121) r.probarr0
  parr1 := setCell T.parr1 r.grid (r.jd - 121) r.probarr1
  dmcgrid := setCell T.dmcgrid r.grid (r.jd - 121) r.dmc
  dcgrid := setCell T.dcgrid r.grid (r.jd - 121) r.dc
  lati := Function.update T.lati r.grid r.lat
  longi := Function.update T.longi r.grid r.lon
  ltg := setCell T.ltg r.grid (r.jd - 121) r.totltg
  firegrid := setCell T.firegrid r.grid (r.jd - 121) r.numfire
  ltgp := setCell T.ltgp r.grid (r.jd - 121)
    (Function.update (Function.update (Function.update (Function.update (Function.update
      (T.ltgp r.grid (r.jd - 121)) 0 r.nltg0) 1 r.nltg1) 2 r.nltg2) 3 r.nltg3) 4 r.nltg4)

/-- Line 169: `jd>120 && jd<274`. -/
def inSeason (r : Row) : Bool := decide (120 < r.jd ∧ r.jd < 274)

/-- Lines 169-184: the row is stored when its day is in the season. -/
def recordIf (T : Season) (r : Row) : Season := if inSeason r then record T r else T

/-- Lines 168-190: `while(err>=0 && oldyear==year)`, with a bound on the number
of tests of the loop condition; `none` when the bound is reached before the
loop has ended. -/
def loadLoop (oldyear : Int) : Nat → Season → Reader → Option (Season × Reader)
  | 0, _, _ => none
  | fuel + 1, T, rd =>
    if rd.err ≥ 0 ∧ oldyear = rd.cur.year then
      loadLoop oldyear fuel (recordIf T rd.cur) (fscanf rd)
    else some (T, rd)

/-- Lines 148-190: the load of one season, the reset and the read loop. -/
def seasonLoad (cells : Nat) (oldyear : Int) (fuel : Nat) (T : Season) (rd : Reader) :
    Option (Season × Reader) :=
  loadLoop oldyear fuel (zeroOut cells T) rd

/-- The table with every value 0: the arrays are globals, so this is the table
when the program starts, and 0 is the value the reset assigns. -/
def defaultSeason : Season where
  eco := fun _ _ => 0
  pign := fun _ _ => 0
  parr0 := fun _ _ => 0
  parr1 := fun _ _ => 0
  dmcgrid := fun _ _ => 0
  dcgrid := fun _ _ => 0
  ltg := fun _ _ => 0
  ltgp := fun _ _ _ => 0
  firegrid := fun _ _ => 0
  lati := fun _ => 0
  longi := fun _ => 0

/-- Line 383: `int month[13]={0,31,...,334}`; the thirteenth cell has no
initialiser and is 0. -/
def month : List Int := [0, 31, 59, 90, 120, 151, 181, 212, 243, 273, 304, 334, 0]

/-- Line 384: `int monthl[13]={0,31,...,335}`; the thirteenth cell is 0. -/
def monthl : List Int := [0, 31, 60, 91, 121, 152, 182, 213, 244, 274, 305, 335, 0]

/-- Lines 387 and 391: `while(jd>tbl[*mon])(*mon)++`, starting from the given
`mon`; `none` when the loop reads past the thirteen cells of the table. With
13 tests allowed the loop started at 1 has ended or has left the table. -/
def nailujLoop (tbl : List Int) (jd : Int) : Nat → Nat → Option Nat
  | 0, _ => none
  | fuel + 1, mon =>
    match tbl[mon]? with
    | none => none
    | some m => if jd > m then nailujLoop tbl jd fuel (mon + 1) else some mon

/-- Lines 381-394: `nailuj(&mon,&day,jd,leap)`, the pair `(mon, day)`. -/
def nailuj (jd leap : Int) : Option (Int × Int) :=
  match nailujLoop (if leap = 0 then month else monthl) jd 13 1 with
  | none => none
  | some mon =>
    match (if leap = 0 then month else monthl)[mon - 1]? with
    | none => none
    | some m => some ((mon : Int), jd - m)

/-! ## One query day and the whole run (source lines 144-370) -/

/-- Lines 199-201: `ltgsum=0; totfire=0;` and the reset of the means of the
cells `i < cells`. -/
def resetDay (cells : Nat) (a : Acc) : Acc :=
  { a with
    ltgsum := 0
    totfire := 0
    narrtoday := fun i => if i < cells then 0 else a.narrtoday i
    nholdtoday := fun i => if i < cells then 0 else a.nholdtoday i
    nigntoday := fun i => if i < cells then 0 else a.nigntoday i }

/-- Lines 199-334 for one query day: the resets, the trial loop, the sort. -/
def queryDay (S : Season) (R : Rng) (holdover_time today : Int) (cells sims : Nat)
    (st : Sim) : Sim :=
  { v := (simLoop S R holdover_time today cells sims
            { st with a := resetDay cells st.a }).v
    a := sortPass sims (simLoop S R holdover_time today cells sims
            { st with a := resetDay cells st.a }).a }

/-- Line 336: `for(i=0,avgnign=0.0;i<sims;i++) avgnign+=(float)(nignsPROV[i])/(float)(sims)`. -/
def avgnign (sims : Nat) (a : Acc) : ℚ :=
  (List.range sims).foldl (fun s i => s + ((a.nignsPROV i : Int) : ℚ) / (sims : ℚ)) 0

/-- The lookup `a[idx]` with an `int` index. An index below 0 is outside the
array in C; the model then reads cell 0. -/
def lookup (a : Nat → Int) (idx : Int) : Int := a idx.toNat

/-- One line of the summary file (line 343), without the three constant zeros
at its end: year, day of year, date, mean ignitions, `totfire`, `ltgsum`, and
the sixteen band values in the order of the `fprintf`. -/
structure Summary where
  year : Int
  today : Int
  date : Option (Int × Int)
  avgnign : ℚ
  totfire : Int
  ltgsum : Int
  bands : List Int

/-- Lines 343-350: the arguments of the `fprintf` of the summary line. -/
def summaryLine (oldyear today leap : Int) (sims : Nat) (ci_low ci_high : Int) (a : Acc) :
    Summary where
  year := oldyear
  today := today
  date := nailuj today leap
  avgnign := avgnign sims a
  totfire := a.totfire
  ltgsum := a.ltgsum
  bands :=
    [lookup a.totholdPROV (ci_low - 1), lookup a.totholdPROV (ci_high - 1),
     lookup a.totarrPROV (ci_low - 1), lookup a.totarrPROV (ci_high - 1),
     lookup (a.tothold 0) (ci_low - 1), lookup (a.tothold 0) (ci_high - 1),
     lookup (a.totarr 0) (ci_low - 1), lookup (a.totarr 0) (ci_high - 1),
     lookup (a.tothold 1) (ci_low - 1), lookup (a.tothold 1) (ci_high - 1),
     lookup (a.totarr 1) (ci_low - 1), lookup (a.totarr 1) (ci_high - 1),
     lookup (a.tothold 2) (ci_low - 1), lookup (a.tothold 2) (ci_high - 1),
     lookup (a.totarr 2) (ci_low - 1), lookup (a.totarr 2) (ci_high - 1)]

/-- One line of the per-cell file (line 361). -/
structure CellRecord where
  cell : Nat
  year : Int
  date : Option (Int × Int)
  lat : ℚ
  lon : ℚ
  narr : ℚ
  nhold : ℚ
  nign : ℚ

/-- Lines 359-364: `for(i=0;i<cells;i++) if(lati[i]>0) fprintf(out2, ...)`. -/
def cellLines (S : Season) (oldyear today leap : Int) (cells : Nat) (a : Acc) :
    List CellRecord :=
  ((List.range cells).filter (fun i => decide (S.lati i > 0))).map
    (fun i =>
      { cell := i
        year := oldyear
        date := nailuj today leap
        lat := S.lati i
        lon := S.longi i
        narr := a.narrtoday i
        nhold := a.nholdtoday i
        nign := a.nigntoday i })

/-- What one query day writes: the summary line and the lines of the cells. -/
structure DayOutput where
  summary : Summary
  cells : List CellRecord

/-- The values of `today` visited by `for(today=start_date;today<=end_date;today++)`. -/
def dayList (start_date end_date : Int) : List Int :=
  (List.range (end_date - start_date + 1).toNat).map
    (fun (k : Nat) => start_date + (k : Int))

/-- Lines 198-366: the loop over the query days of one season. The state of
the simulation is carried from day to day, the output is appended. -/
def seasonDays (S : Season) (R : Rng) (holdover_time : Int) (cells sims : Nat)
    (ci_low ci_high oldyear leap start_date end_date : Int) (st : Sim) :
    Sim × List DayOutput :=
  (dayList start_date end_date).foldl
    (fun (p : Sim × List DayOutput) today =>
      (queryDay S R holdover_time today cells sims p.1,
        p.2 ++ [{ summary := summaryLine oldyear today leap sims ci_low ci_high
                    (queryDay S R holdover_time today cells sims p.1).a
                  cells := cellLines S oldyear today leap cells
                    (queryDay S R holdover_time today cells sims p.1).a }]))
    (st, [])

/-- Lines 144-370: `while(err>=0)`, the loop over the seasons, with a bound on
the number of seasons and on the tests of each read loop; `none` when a bound
is reached. Line 164 sets `leap` from the year of the row held in the
variables, line 368 sets `oldyear` to the year of the row that ended the read
loop. -/
def seasonLoop (R : Rng) (holdover_time : Int) (cells sims : Nat)
    (ci_low ci_high start_date end_date : Int) (bound : Nat) :
    Nat → Season → Reader → Int → Sim → List DayOutput → Option (List DayOutput)
  | 0, _, _, _, _, _ => none
  | fuel + 1, T, rd, oldyear, st, out =>
    if rd.err ≥ 0 then
      match seasonLoad cells oldyear bound T rd with
      | none => none
      | some (T2, rd2) =>
        seasonLoop R holdover_time cells sims ci_low ci_high start_date end_date bound fuel
          T2 rd2 rd2.cur.year
          (seasonDays T2 R holdover_time cells sims ci_low ci_high oldyear
            (if rd.cur.year % 4 = 0 then 1 else 0) start_date end_date st).1
          (out ++ (seasonDays T2 R holdover_time cells sims ci_low ci_high oldyear
            (if rd.cur.year % 4 = 0 then 1 else 0) start_date end_date st).2)
    else some out

/-- The run of `main` with 9 arguments from line 88 on: the ranks, the first
read (line 138), `oldyear=year` (line 143) and the loop over the seasons. `R`
is the sequence `rand()` yields after `srand(SEED)`, `init` the values of the
18 variables before the first read, `confidence_interval` the value of the
`float` variable of line 93; the arrays and the simulation variables are
globals and start at 0. The result is what is written to the two output
files, `none` when `fuel` does not suffice. -/
def program (R : Rng) (init : Row) (input : List Item)
    (start_date end_date holdover_time : Int) (confidence_interval : ℚ)
    (cells sims fuel : Nat) : Option (List DayOutput) :=
  seasonLoop R holdover_time cells sims
    (ci_low (sims : Int) confidence_interval) (ci_high (sims : Int) confidence_interval)
    start_date end_date fuel fuel defaultSeason
    (fscanf { err := 0, cur := init, inp := input })
    (fscanf { err := 0, cur := init, inp := input }).cur.year
    zeroSim []

/-! ## The trial loop, cell by cell -/

/-- The province accumulators of trial `sim` are the sums of the three
subregion accumulators of that trial. -/
def SumInv (sim : Nat) (a : Acc) : Prop :=
  a.nignsPROV sim = a.nigns 0 sim + a.nigns 1 sim + a.nigns 2 sim ∧
  a.totarrPROV sim = a.totarr 0 sim + a.totarr 1 sim + a.totarr 2 sim ∧
  a.totholdPROV sim = a.tothold 0 sim + a.tothold 1 sim + a.tothold 2 sim

/-- The arrival totals of trial `sim` are not above its holdover totals, for
the province and for each of the three subregions. -/
def Dominates (sim : Nat) (a : Acc) : Prop :=
  a.totarrPROV sim ≤ a.totholdPROV sim ∧ ∀ k, k < 3 → a.totarr k sim ≤ a.tothold k sim

/-- What cell `i` of trial `sim` adds to the totals: the values `w` of the
query day (the body of the day loop run for `day = today`) are added as
`w.nign`, `w.narr1 + w.narr2` and `w.nhold + w.narr1 + w.narr2` to the province
totals, to the totals of the subregion of the cell and, divided by `sims`, to
the means of the cell. -/
def CellContribution (S : Season) (R : Rng) (holdover_time today : Int) (sims sim i : Nat)
    (st : Sim) : Prop :=
  (cellStep S R holdover_time today sims sim i st).v =
      dayStep S R i today (holdover holdover_time (S.dcgrid i (today - 121)) today) today
        (beforeToday S R holdover_time today i st.v)
    ∧ (cellStep S R holdover_time today sims sim i st).a.nignsPROV sim =
        st.a.nignsPROV sim + (cellStep S R holdover_time today sims sim i st).v.nign
    ∧ (cellStep S R holdover_time today sims sim i st).a.totarrPROV sim =
        st.a.totarrPROV sim +
          ((cellStep S R holdover_time today sims sim i st).v.narr1 +
            (cellStep S R holdover_time today sims sim i st).v.narr2)
    ∧ (cellStep S R holdover_time today sims sim i st).a.totholdPROV sim =
        st.a.totholdPROV sim +
          ((cellStep S R holdover_time today sims sim i st).v.nhold +
            (cellStep S R holdover_time today sims sim i st).v.narr1 +
            (cellStep S R holdover_time today sims sim i st).v.narr2)
    ∧ (cellStep S R holdover_time today sims sim i st).a.nigns
          (subreg (S.eco i (today - 121)) (S.longi i)) sim =
        st.a.nigns (subreg (S.eco i (today - 121)) (S.longi i)) sim +
          (cellStep S R holdover_time today sims sim i st).v.nign
    ∧ (cellStep S R holdover_time today sims sim i st).a.totarr
          (subreg (S.eco i (today - 121)) (S.longi i)) sim =
        st.a.totarr (subreg (S.eco i (today - 121)) (S.longi i)) sim +
          ((cellStep S R holdover_time today sims sim i st).v.narr1 +
            (cellStep S R holdover_time today sims sim i st).v.narr2)
    ∧ (cellStep S R holdover_time today sims sim i st).a.tothold
          (subreg (S.eco i (today - 121)) (S.longi i)) sim =
        st.a.tothold (subreg (S.eco i (today - 121)) (S.longi i)) sim +
          ((cellStep S R holdover_time today sims sim i st).v.nhold +
            (cellStep S R holdover_time today sims sim i st).v.narr1 +
            (cellStep S R holdover_time today sims sim i st).v.narr2)
    ∧ (cellStep S R holdover_time today sims sim i st).a.nigntoday i =
        st.a.nigntoday i +
          (((cellStep S R holdover_time today sims sim i st).v.nign : Int) : ℚ) / (sims : ℚ)
    ∧ (cellStep S R holdover_time today sims sim i st).a.narrtoday i =
        st.a.narrtoday i +
          (((cellStep S R holdover_time today sims sim i st).v.narr1 +
            (cellStep S R holdover_time today sims sim i st).v.narr2 : Int) : ℚ) / (sims : ℚ)
    ∧ (cellStep S R holdover_time today sims sim i st).a.nholdtoday i =
        st.a.nholdtoday i +
          (((cellStep S R holdover_time today sims sim i st).v.nhold +
            (cellStep S R holdover_time today sims sim i st).v.narr1 +
            (cellStep S R holdover_time today sims sim i st).v.narr2 : Int) : ℚ) / (sims : ℚ)

/-- Cumulative strike count of the periods `0..k` of a cell-day. -/
def cumLtg (S : Season) (i : Nat) (d : Int) (k : Nat) : Int :=
  ((List.range (k + 1)).map (fun j => S.ltgp i d j)).sum

/-- Weight of the arrival probability by period, as the specification lists it. -/
def periodWeight (k : Nat) : ℚ :=
  if k ≤ 2 then 1 else if k = 3 then 8 / 10 else 2 / 10

/-- The first period `k` in `0..4` whose cumulative strike count is above the draw. -/
def firstPeriod (S : Season) (i : Nat) (d : Int) (r : ℚ) : Option Nat :=
  (List.range 5).find? (fun k => decide (r < ((cumLtg S i d k : Int) : ℚ)))

/-! ## Concrete inputs used to evaluate the code -/

/-- A season with one populated cell, cell 1, with a record on day 121 only:
`strikes` lightning strikes, all in period 0, ignition probability `pi` and
same-day arrival probability `p0`; later-day arrival probability 0, `dc` 0. -/
def oneCellSeason (strikes : Int) (pi p0 : ℚ) : Season where
  eco := fun _ _ => 0
  pign := fun i d => if i = 1 ∧ d = 0 then pi else 0
  parr0 := fun i d => if i = 1 ∧ d = 0 then p0 else 0
  parr1 := fun _ _ => 0
  dmcgrid := fun _ _ => 0
  dcgrid := fun _ _ => 0
  ltg := fun i d => if i = 1 ∧ d = 0 then strikes else 0
  ltgp := fun i d j => if i = 1 ∧ d = 0 ∧ j = 0 then strikes else 0
  firegrid := fun _ _ => 0
  lati := fun i => if i = 1 then 55 else 0
  longi := fun i => if i = 1 then -115 else 0

/-- A generator with `RAND_MAX = 32767` whose `rand()` always returns 0. -/
def zeroRng : Rng where
  RAND_MAX := 32767
  out := fun _ => 0

/-- A generator with `RAND_MAX = 32767` whose fourth call of `rand()` returns
`RAND_MAX` and every other call 0. -/
def maxAtThreeRng : Rng where
  RAND_MAX := 32767
  out := fun k => if k = 3 then 32767 else 0


/-- A well-formed sample row: cell `grid`, year, day, latitude, ignition
probability, strike count (all in period 0) and observed fire count as given;
longitude -115, arrival probabilities 1/2 and 1/4, region 3, dmc 20, dc 100. -/
def sampleRow (grid : Nat) (year jd : Int) (lat probign : ℚ) (totltg numfire : Int) : Row where
  grid := grid
  lat := lat
  lon := -115
  year := year
  jd := jd
  probign := probign
  probarr0 := 1 / 2
  probarr1 := 1 / 4
  totltg := totltg
  numfire := numfire
  region := 3
  nltg0 := totltg
  nltg1 := 0
  nltg2 := 0
  nltg3 := 0
  nltg4 := 0
  dmc := 20
  dc := 100

/-- A row that breaks both data-quality rules: ignition probability 2, and 5
strikes in total while the five periods hold none. -/
def badRow : Row :=
  { sampleRow 5 2000 121 55 2 5 0 with nltg0 := 0 }

/-! ## The earlier version of the simulator (`simulate-new-allyears-DC_old_v01.c`) -/

/-- Line 76 of the earlier version: `sims=200`. -/
def sims_old_v01 : Nat := 200

/-- Line 267 of the earlier version: the four band values of its summary line,
`tothold[5-1],tothold[195-1],totarr[5-1],totarr[195-1]`, read from its two
sorted arrays of trial totals. -/
def bands_old_v01 (tothold totarr : Nat → Int) : List Int :=
  [lookup tothold (5 - 1), lookup tothold (195 - 1),
   lookup totarr (5 - 1), lookup totarr (195 - 1)]

/-! ## The lightning binning program (`build-ltggrids-five-period.c`) -/

/-- Line 22 of the binning program, the table of `julian`:
`int month[13]={0,31,59,90,120,151,181,212,242,273,304,334}`; the thirteenth
cell has no initialiser and is 0. -/
def julianMonth : List Int := [0, 31, 59, 90, 120, 151, 181, 212, 242, 273, 304, 334, 0]

/-- Lines 20-24 of the binning program: `julian(mon,day)` returns
`month[mon-1]+day`; `none` when the index is outside the table. -/
def julian (mon day : Int) : Option Int :=
  if mon - 1 < 0 then none
  else
    match julianMonth[(mon - 1).toNat]? with
    | none => none
    | some m => some (m + day)

/-- Line 94 of the binning program, the test that keeps a strike in the group
of the output day being built: `jd==oldjd && year==oyear && err>=0`. -/
def sameOutputDay (jd oldjd year oyear err : Int) : Bool :=
  decide (jd = oldjd ∧ year = oyear ∧ err ≥ 0)

/-- Lines 93 and 117-118 of the binning program for a strike of the date
`(year, mon, day)` read with `err >= 0`: the day of the year `julian` gives it
and the date `nailuj(&omon,&oday,oldjd,0)` reports for its group (lines 26-39
of the binning program are the same text as lines 381-394 of the simulator). -/
def reportedDate (mon day : Int) : Option (Int × Int) :=
  match julian mon day with
  | none => none
  | some jd => nailuj jd 0

/-! ## The calendar, for comparison with the code -/

/-- Leap years of the Gregorian calendar. -/
def isLeapYear (year : Int) : Bool :=
  decide (year % 4 = 0 ∧ (year % 100 ≠ 0 ∨ year % 400 = 0))

/-- Number of days of month `m` (1 for January to 12 for December). -/
def daysInMonth (leapYear : Bool) (m : Nat) : Int :=
  match m with
  | 1 => 31
  | 2 => if leapYear then 29 else 28
  | 3 => 31
  | 4 => 30
  | 5 => 31
  | 6 => 30
  | 7 => 31
  | 8 => 31
  | 9 => 30
  | 10 => 31
  | 11 => 30
  | 12 => 31
  | _ => 0

/-- Number of days of the months before month `m`. -/
def daysBefore (leapYear : Bool) (m : Nat) : Int :=
  ((List.range' 1 (m - 1)).map (daysInMonth leapYear)).sum

/-- The date `(mon, day)` is day `jd` of a year: `day` is a day of month `mon`
and `jd` counts the days of the earlier months and `day`. -/
@[reducible] def IsCalendarDate (leapYear : Bool) (jd mon day : Int) : Prop :=
  1 ≤ mon ∧ mon ≤ 12 ∧ 1 ≤ day ∧ day ≤ daysInMonth leapYear mon.toNat
    ∧ jd = daysBefore leapYear mon.toNat + day

/-- Lines 164-165 of the simulator: `if (year%4==0 )leap=1; else leap=0;`. -/
def leapFlag (year : Int) : Int := if year % 4 = 0 then 1 else 0

/-! ## More concrete inputs -/

/-- A generator with `RAND_MAX = 32767` whose second call of `rand()` returns
`RAND_MAX`, whose third call returns 16384, and every other call 0. -/
def maxAtOneRng : Rng where
  RAND_MAX := 32767
  out := fun k => if k = 1 then 32767 else if k = 2 then 16384 else 0

/-- A generator with `RAND_MAX = 32767` whose first call of `rand()` returns
`RAND_MAX` and every other call 0. -/
def maxAtZeroRng : Rng where
  RAND_MAX := 32767
  out := fun k => if k = 0 then 32767 else 0

/-- A generator with `RAND_MAX = 32767` whose third call of `rand()` returns
`RAND_MAX`, whose fourth and sixth calls return 16384, and every other call 0. -/
def maxAtTwoRng : Rng where
  RAND_MAX := 32767
  out := fun k => if k = 2 then 32767 else if k = 3 ∨ k = 5 then 16384 else 0

/-! ## Lemmas on the numeric conversions -/

theorem roundHalfUp_eq_iff (x : ℚ) (n : Int) :
    roundHalfUp x = n ↔ (n : ℚ) - 1 / 2 ≤ x ∧ x < (n : ℚ) + 1 / 2 := by
  unfold roundHalfUp
  rw [Int.floor_eq_iff]
  constructor <;> rintro ⟨h1, h2⟩ <;> constructor <;> linarith

theorem cTrunc_of_nonneg {q : ℚ} (h : 0 ≤ q) : cTrunc q = ⌊q⌋ := by
  simp [cTrunc, h]

theorem cTrunc_of_neg {q : ℚ} (h : q < 0) : cTrunc q = ⌈q⌉ := by
  simp [cTrunc, not_le.mpr h]

theorem cTrunc_div (n : Int) (d : Nat) (hd : 0 < d) :
    cTrunc ((n : ℚ) / (d : ℚ)) = if 0 ≤ n then n / (d : Int) else -((-n) / (d : Int)) := by
  have hd0 : (0 : ℚ) < (d : ℚ) := by exact_mod_cast hd
  by_cases h : 0 ≤ n
  · have hq : (0 : ℚ) ≤ (n : ℚ) / (d : ℚ) :=
      div_nonneg (by exact_mod_cast h) hd0.le
    rw [cTrunc_of_nonneg hq, if_pos h, Rat.floor_intCast_div_natCast]
  · have hq : (n : ℚ) / (d : ℚ) < 0 :=
      div_neg_of_neg_of_pos (by exact_mod_cast (not_le.mp h)) hd0
    have e : (n : ℚ) / (d : ℚ) = -(((-n : Int) : ℚ) / (d : ℚ)) := by
      push_cast; ring
    rw [cTrunc_of_neg hq, if_neg h, e, Int.ceil_neg, Rat.floor_intCast_div_natCast]

theorem cTrunc_low (dc : Int) :
    cTrunc ((dc : ℚ) * 3 / 200 + 4 + 1 / 2) =
      if 0 ≤ 3 * dc + 900 then (3 * dc + 900) / 200 else -((-(3 * dc + 900)) / 200) := by
  have e : (dc : ℚ) * 3 / 200 + 4 + 1 / 2
      = ((3 * dc + 900 : Int) : ℚ) / ((200 : ℕ) : ℚ) := by
    push_cast; ring
  rw [e, cTrunc_div _ 200 (by norm_num)]
  rfl

theorem cTrunc_high (dc : Int) :
    cTrunc (((dc : ℚ) - 200) * 7 / 300 + 7 + 1 / 2) =
      if 0 ≤ 7 * dc + 850 then (7 * dc + 850) / 300 else -((-(7 * dc + 850)) / 300) := by
  have e : ((dc : ℚ) - 200) * 7 / 300 + 7 + 1 / 2
      = ((7 * dc + 850 : Int) : ℚ) / ((300 : ℕ) : ℚ) := by
    push_cast; ring
  rw [e, cTrunc_div _ 300 (by norm_num)]
  rfl

/-- The window before the clamp, in integer arithmetic. -/
theorem holdoverRaw_int (ht dc : Int) :
    holdoverRaw ht dc =
      if ht < 0 then
        min (if dc < 200 then
               (if 0 ≤ 3 * dc + 900 then (3 * dc + 900) / 200 else -((-(3 * dc + 900)) / 200))
             else (7 * dc + 850) / 300) 14
      else ht := by
  unfold holdoverRaw
  rw [cTrunc_low, cTrunc_high]
  by_cases h : dc < 200
  · simp [h]
  · have : 0 ≤ 7 * dc + 850 := by omega
    simp [h, this]

/-! ## Holdover window -/

/-- C1: in automatic mode (`holdover_time < 0`) and for every `dc ≥ 0`, the
window before the season-start clamp is `min(14, round(dc*3/200 + 4))` below
200 and `min(14, round((dc-200)*7/300 + 7))` from 200 on, with halves rounded
up; `dc = 0` gives 4, `dc = 100` gives 6 and `dc = 350` gives 11. -/
theorem holdoverRaw_auto_round (holdover_time dc : Int) (hauto : holdover_time < 0)
    (hdc : 0 ≤ dc) :
    holdoverRaw holdover_time dc =
        (if dc < 200 then min 14 (roundHalfUp ((dc : ℚ) * 3 / 200 + 4))
         else min 14 (roundHalfUp (((dc : ℚ) - 200) * 7 / 300 + 7)))
      ∧ holdoverRaw holdover_time 0 = 4
      ∧ holdoverRaw holdover_time 100 = 6
      ∧ holdoverRaw holdover_time 350 = 11 := by
  refine ⟨?_, ?_, ?_, ?_⟩
  · have hq : (0 : ℚ) ≤ (dc : ℚ) := by exact_mod_cast hdc
    unfold holdoverRaw roundHalfUp
    rw [if_pos hauto]
    by_cases h : dc < 200
    · have h0 : (0 : ℚ) ≤ (dc : ℚ) * 3 / 200 + 4 + 1 / 2 := by positivity
      rw [if_pos h, if_pos h, cTrunc_of_nonneg h0, min_comm]
    · have h200 : (200 : ℚ) ≤ (dc : ℚ) := by exact_mod_cast (not_lt.mp h)
      have h0 : (0 : ℚ) ≤ ((dc : ℚ) - 200) * 7 / 300 + 7 + 1 / 2 := by
        have : (0 : ℚ) ≤ (dc : ℚ) - 200 := by linarith
        positivity
      rw [if_neg h, if_neg h, cTrunc_of_nonneg h0, min_comm]
  · rw [holdoverRaw_int, if_pos hauto]; decide
  · rw [holdoverRaw_int, if_pos hauto]; decide
  · rw [holdoverRaw_int, if_pos hauto]; decide

/-- The hypotheses of C1 hold in automatic mode at `dc = 100`. -/
theorem holdoverRaw_auto_round_witness :
    (-1 : Int) < 0 ∧ (0 : Int) ≤ 100 ∧
      (holdoverRaw (-1) 100 =
          (if (100 : Int) < 200 then min 14 (roundHalfUp (((100 : Int) : ℚ) * 3 / 200 + 4))
           else min 14 (roundHalfUp ((((100 : Int) : ℚ) - 200) * 7 / 300 + 7)))
        ∧ holdoverRaw (-1) 0 = 4
        ∧ holdoverRaw (-1) 100 = 6
        ∧ holdoverRaw (-1) 350 = 11) :=
  ⟨by decide, by decide, holdoverRaw_auto_round (-1) 100 (by decide) (by decide)⟩

/-- C2 as stated fails: with a configured lookback of 30 days and query day
221 (offset 100) the window is 30, above 14. -/
theorem holdover_override_exceeds_14 :
    (0 : Int) ≤ 221 - 121 ∧
      ¬ (holdover 30 0 221 ≤ 14 ∧ holdover 30 0 221 ≤ 221 - 121) := by
  have h : holdover 30 0 221 = 30 := by
    unfold holdover; rw [holdoverRaw_int]; decide
  rw [h]; decide

/-- C2, amended: the window never exceeds `today - 121`; in automatic mode it
is at most 14, and in override mode it is the configured lookback clamped to
`today - 121` (so it may exceed 14). -/
theorem holdover_le (holdover_time dc today : Int) :
    holdover holdover_time dc today ≤ today - 121 ∧
      (if holdover_time < 0 then holdover holdover_time dc today ≤ 14
       else holdover holdover_time dc today = min holdover_time (today - 121)) := by
  unfold holdover
  refine ⟨min_le_right _ _, ?_⟩
  by_cases h : holdover_time < 0
  · rw [if_pos h]
    refine le_trans (min_le_left _ _) ?_
    unfold holdoverRaw
    rw [if_pos h]
    exact min_le_right _ _
  · rw [if_neg h]
    unfold holdoverRaw
    rw [if_neg h]

/-- C3 as stated fails: in automatic mode with `dc = -367` the window on day
121 is -1, not 0, and the day loop then visits no day at all. -/
theorem holdover_day121_negative_dc :
    holdover (-1) (-367) 121 ≠ 0 ∧ windowDays 121 (holdover (-1) (-367) 121) = [] := by
  have h : holdover (-1) (-367) 121 = -1 := by
    unfold holdover; rw [holdoverRaw_int]; decide
  rw [h]
  exact ⟨by decide, by decide⟩

/-- The window on day 121 is 0 exactly in override mode or when `dc ≥ -366`. -/
theorem holdover_day121_eq_zero_iff (holdover_time dc : Int) :
    holdover holdover_time dc 121 = 0 ↔ (0 ≤ holdover_time ∨ -366 ≤ dc) := by
  unfold holdover
  rw [holdoverRaw_int]
  by_cases h : holdover_time < 0
  · rw [if_pos h]
    by_cases h2 : dc < 200
    · rw [if_pos h2]
      by_cases h3 : 0 ≤ 3 * dc + 900
      · rw [if_pos h3]; omega
      · rw [if_neg h3]; omega
    · rw [if_neg h2]; omega
  · rw [if_neg h]; omega

/-- C3, amended: on query day 121 (offset 0) the window is exactly 0 for every
configured lookback `≥ 0` and, in automatic mode, for every `dc ≥ -366` (so
for every `dc ≥ 0`); the day loop then visits day 121 alone. -/
theorem holdover_day121 (holdover_time dc : Int) (h : 0 ≤ holdover_time ∨ -366 ≤ dc) :
    holdover holdover_time dc 121 = 0 ∧
      windowDays 121 (holdover holdover_time dc 121) = [121] := by
  have h0 := (holdover_day121_eq_zero_iff holdover_time dc).mpr h
  rw [h0]
  exact ⟨rfl, by decide⟩

/-- The hypothesis of the amended C3 holds in automatic mode at `dc = 0`. -/
theorem holdover_day121_witness :
    ((0 : Int) ≤ -1 ∨ (-366 : Int) ≤ 0) ∧
      (holdover (-1) 0 121 = 0 ∧ windowDays 121 (holdover (-1) 0 121) = [121]) :=
  ⟨by decide, holdover_day121 (-1) 0 (by decide)⟩

/-! ## Subregion -/

/-- C4: the subregion is a function of the region code of the query day and
the longitude of the cell with exactly the three values 0 (slopes), 2 (east
boreal) and 1 (west boreal): slopes iff the region code is one of
7, 8, 9, 10, 11, 14, 18; otherwise east boreal iff the longitude is at least
-114; otherwise west boreal. Region 9 is slopes for every longitude,
(3, -110) is east boreal and (3, -120) is west boreal. -/
theorem subreg_classification (eco : Int) (longi : ℚ) :
    (subreg eco longi = 0 ↔
        (eco = 7 ∨ eco = 8 ∨ eco = 9 ∨ eco = 10 ∨ eco = 11 ∨ eco = 14 ∨ eco = 18))
      ∧ (subreg eco longi = 2 ↔
        (¬ (eco = 7 ∨ eco = 8 ∨ eco = 9 ∨ eco = 10 ∨ eco = 11 ∨ eco = 14 ∨ eco = 18)
          ∧ -114 ≤ longi))
      ∧ (subreg eco longi = 1 ↔
        (¬ (eco = 7 ∨ eco = 8 ∨ eco = 9 ∨ eco = 10 ∨ eco = 11 ∨ eco = 14 ∨ eco = 18)
          ∧ longi < -114))
      ∧ (subreg eco longi = 0 ∨ subreg eco longi = 1 ∨ subreg eco longi = 2)
      ∧ subreg 9 longi = 0
      ∧ subreg 3 (-110) = 2
      ∧ subreg 3 (-120) = 1 := by
  have hs : ((eco ≥ 7 ∧ eco ≤ 11) ∨ eco = 18 ∨ eco = 14) ↔
      (eco = 7 ∨ eco = 8 ∨ eco = 9 ∨ eco = 10 ∨ eco = 11 ∨ eco = 14 ∨ eco = 18) := by
    omega
  unfold subreg
  refine ⟨?_, ?_, ?_, ?_, ?_, ?_, ?_⟩
  · rw [← hs]
    by_cases h : (eco ≥ 7 ∧ eco ≤ 11) ∨ eco = 18 ∨ eco = 14
    · simp [h]
    · by_cases h2 : longi ≥ -114 <;> simp [h, h2]
  · rw [← hs]
    by_cases h : (eco ≥ 7 ∧ eco ≤ 11) ∨ eco = 18 ∨ eco = 14
    · simp [h]
    · by_cases h2 : longi ≥ -114
      · simp only [if_neg h, if_pos h2]; simp [h]; exact h2
      · simp only [if_neg h, if_neg h2]; simp [h]; exact not_le.mp h2
  · rw [← hs]
    by_cases h : (eco ≥ 7 ∧ eco ≤ 11) ∨ eco = 18 ∨ eco = 14
    · simp [h]
    · by_cases h2 : longi ≥ -114
      · simp only [if_neg h, if_pos h2]; simp [h]; exact h2
      · simp only [if_neg h, if_neg h2]; simp [h]; exact not_le.mp h2
  · by_cases h : (eco ≥ 7 ∧ eco ≤ 11) ∨ eco = 18 ∨ eco = 14
    · simp [h]
    · by_cases h2 : longi ≥ -114 <;> simp [h, h2]
  · simp
  · norm_num
  · norm_num

/-! ## Trial totals -/

theorem set2_apply (a : Nat → Nat → Int) (k s : Nat) (x : Int) (k2 s2 : Nat) :
    set2 a k s x k2 s2 = if k2 = k ∧ s2 = s then x else a k2 s2 := by
  unfold set2
  by_cases hk : k2 = k
  · subst hk
    by_cases hs : s2 = s
    · subst hs; simp
    · simp [Function.update_noteq hs, hs]
  · simp [Function.update_noteq hk, hk]

theorem subreg_lt_three (eco : Int) (longi : ℚ) :
    subreg eco longi = 0 ∨ subreg eco longi = 1 ∨ subreg eco longi = 2 := by
  unfold subreg
  by_cases h : (eco ≥ 7 ∧ eco ≤ 11) ∨ eco = 18 ∨ eco = 14
  · simp [h]
  · by_cases h2 : longi ≥ -114 <;> simp [h, h2]

theorem resetTrial_sumInv (sim : Nat) (a : Acc) : SumInv sim (resetTrial sim a) := by
  simp [SumInv, resetTrial, set2_apply]

theorem resetTrial_frame (sim t : Nat) (a : Acc) (h : t ≠ sim) (h0 : SumInv t a) :
    SumInv t (resetTrial sim a) := by
  obtain ⟨h1, h2, h3⟩ := h0
  simp [SumInv, resetTrial, set2_apply, h, Function.update_noteq h, h1, h2, h3]

theorem cellStep_sumInv (S : Season) (R : Rng) (ht today : Int) (sims sim i t : Nat)
    (st : Sim) (h0 : SumInv t st.a) :
    SumInv t (cellStep S R ht today sims sim i st).a := by
  obtain ⟨h1, h2, h3⟩ := h0
  by_cases h : t = sim
  · subst h
    rcases subreg_lt_three (S.eco i (today - 121)) (S.longi i) with hk | hk | hk <;>
      (simp only [SumInv, cellStep, hk, set2_apply, Function.update_same]
       simp
       refine ⟨?_, ?_, ?_⟩ <;> omega)
  · simp [SumInv, cellStep, set2_apply, h, Function.update_noteq h, h1, h2, h3]

theorem cells_foldl_sumInv (S : Season) (R : Rng) (ht today : Int) (sims sim t : Nat)
    (l : List Nat) (st : Sim) (h0 : SumInv t st.a) :
    SumInv t (l.foldl (fun s i => cellStep S R ht today sims sim i s) st).a := by
  induction l generalizing st with
  | nil => exact h0
  | cons i l ih => exact ih _ (cellStep_sumInv S R ht today sims sim i t st h0)

theorem trial_sumInv_self (S : Season) (R : Rng) (ht today : Int) (cells sims sim : Nat)
    (st : Sim) : SumInv sim (trial S R ht today cells sims sim st).a := by
  unfold trial
  exact cells_foldl_sumInv S R ht today sims sim sim _ _ (resetTrial_sumInv sim st.a)

theorem trial_sumInv_other (S : Season) (R : Rng) (ht today : Int) (cells sims sim t : Nat)
    (st : Sim) (h : t ≠ sim) (h0 : SumInv t st.a) :
    SumInv t (trial S R ht today cells sims sim st).a := by
  unfold trial
  exact cells_foldl_sumInv S R ht today sims sim t _ _ (resetTrial_frame sim t st.a h h0)

theorem trials_foldl_sumInv (S : Season) (R : Rng) (ht today : Int) (cells sims : Nat)
    (n t : Nat) (st : Sim) (h : t < n) :
    SumInv t ((List.range n).foldl
      (fun s sim => trial S R ht today cells sims sim s) st).a := by
  induction n with
  | zero => omega
  | succ n ih =>
    rw [List.range_succ, List.foldl_append]
    simp only [List.foldl_cons, List.foldl_nil]
    by_cases hn : t = n
    · subst hn
      exact trial_sumInv_self S R ht today cells sims t _
    · exact trial_sumInv_other S R ht today cells sims n t _ hn (ih (by omega))

theorem resetTrial_zero (sim : Nat) (a : Acc) :
    (resetTrial sim a).nignsPROV sim = 0 ∧ (resetTrial sim a).totarrPROV sim = 0
      ∧ (resetTrial sim a).totholdPROV sim = 0
      ∧ ∀ k, k < 3 → (resetTrial sim a).nigns k sim = 0
          ∧ (resetTrial sim a).totarr k sim = 0 ∧ (resetTrial sim a).tothold k sim = 0 := by
  refine ⟨by simp [resetTrial], by simp [resetTrial], by simp [resetTrial], ?_⟩
  intro k hk
  have hk3 : k = 0 ∨ k = 1 ∨ k = 2 := by omega
  rcases hk3 with h | h | h <;> subst h <;> simp [resetTrial, set2_apply]

theorem cellStep_other_bucket (S : Season) (R : Rng) (ht today : Int) (sims sim i k : Nat)
    (st : Sim) (hk : k ≠ subreg (S.eco i (today - 121)) (S.longi i)) :
    (cellStep S R ht today sims sim i st).a.nigns k sim = st.a.nigns k sim
      ∧ (cellStep S R ht today sims sim i st).a.totarr k sim = st.a.totarr k sim
      ∧ (cellStep S R ht today sims sim i st).a.tothold k sim = st.a.tothold k sim := by
  simp [cellStep, set2_apply, hk]

theorem cellStep_same_increment (S : Season) (R : Rng) (ht today : Int) (sims sim i : Nat)
    (st : Sim) :
    (cellStep S R ht today sims sim i st).a.nignsPROV sim - st.a.nignsPROV sim =
        (cellStep S R ht today sims sim i st).a.nigns
            (subreg (S.eco i (today - 121)) (S.longi i)) sim
          - st.a.nigns (subreg (S.eco i (today - 121)) (S.longi i)) sim
      ∧ (cellStep S R ht today sims sim i st).a.totarrPROV sim - st.a.totarrPROV sim =
        (cellStep S R ht today sims sim i st).a.totarr
            (subreg (S.eco i (today - 121)) (S.longi i)) sim
          - st.a.totarr (subreg (S.eco i (today - 121)) (S.longi i)) sim
      ∧ (cellStep S R ht today sims sim i st).a.totholdPROV sim - st.a.totholdPROV sim =
        (cellStep S R ht today sims sim i st).a.tothold
            (subreg (S.eco i (today - 121)) (S.longi i)) sim
          - st.a.tothold (subreg (S.eco i (today - 121)) (S.longi i)) sim := by
  simp [cellStep, set2_apply]

/-- C5: after the trial loop of a query day (before the sort), for every trial
`sim < sims` and each of the three metrics the province total of the trial is
the sum of the three subregion totals of the same trial. The accumulators of
the trial start at 0, and every cell adds the same value to the province
accumulator and to the accumulator of its own subregion, leaving the other
subregion accumulators as they are. -/
theorem province_total_eq_sum_subregions (S : Season) (R : Rng) (holdover_time today : Int)
    (cells sims : Nat) (st : Sim) (sim : Nat) (hsim : sim < sims) :
    ((simLoop S R holdover_time today cells sims st).a.nignsPROV sim =
        (simLoop S R holdover_time today cells sims st).a.nigns 0 sim +
        (simLoop S R holdover_time today cells sims st).a.nigns 1 sim +
        (simLoop S R holdover_time today cells sims st).a.nigns 2 sim
      ∧ (simLoop S R holdover_time today cells sims st).a.totarrPROV sim =
        (simLoop S R holdover_time today cells sims st).a.totarr 0 sim +
        (simLoop S R holdover_time today cells sims st).a.totarr 1 sim +
        (simLoop S R holdover_time today cells sims st).a.totarr 2 sim
      ∧ (simLoop S R holdover_time today cells sims st).a.totholdPROV sim =
        (simLoop S R holdover_time today cells sims st).a.tothold 0 sim +
        (simLoop S R holdover_time today cells sims st).a.tothold 1 sim +
        (simLoop S R holdover_time today cells sims st).a.tothold 2 sim)
      ∧ (∀ a : Acc,
          (resetTrial sim a).nignsPROV sim = 0 ∧ (resetTrial sim a).totarrPROV sim = 0
            ∧ (resetTrial sim a).totholdPROV sim = 0
            ∧ ∀ k, k < 3 → (resetTrial sim a).nigns k sim = 0
                ∧ (resetTrial sim a).totarr k sim = 0
                ∧ (resetTrial sim a).tothold k sim = 0)
      ∧ (∀ (s : Sim) (i : Nat),
          subreg (S.eco i (today - 121)) (S.longi i) < 3
            ∧ (cellStep S R holdover_time today sims sim i s).a.nignsPROV sim
                  - s.a.nignsPROV sim =
                (cellStep S R holdover_time today sims sim i s).a.nigns
                    (subreg (S.eco i (today - 121)) (S.longi i)) sim
                  - s.a.nigns (subreg (S.eco i (today - 121)) (S.longi i)) sim
            ∧ (cellStep S R holdover_time today sims sim i s).a.totarrPROV sim
                  - s.a.totarrPROV sim =
                (cellStep S R holdover_time today sims sim i s).a.totarr
                    (subreg (S.eco i (today - 121)) (S.longi i)) sim
                  - s.a.totarr (subreg (S.eco i (today - 121)) (S.longi i)) sim
            ∧ (cellStep S R holdover_time today sims sim i s).a.totholdPROV sim
                  - s.a.totholdPROV sim =
                (cellStep S R holdover_time today sims sim i s).a.tothold
                    (subreg (S.eco i (today - 121)) (S.longi i)) sim
                  - s.a.tothold (subreg (S.eco i (today - 121)) (S.longi i)) sim
            ∧ ∀ k, k ≠ subreg (S.eco i (today - 121)) (S.longi i) →
                (cellStep S R holdover_time today sims sim i s).a.nigns k sim
                    = s.a.nigns k sim
                  ∧ (cellStep S R holdover_time today sims sim i s).a.totarr k sim
                    = s.a.totarr k sim
                  ∧ (cellStep S R holdover_time today sims sim i s).a.tothold k sim
                    = s.a.tothold k sim) := by
  refine ⟨trials_foldl_sumInv S R holdover_time today cells sims sims sim st hsim,
    fun a => resetTrial_zero sim a, ?_⟩
  intro s i
  obtain ⟨h1, h2, h3⟩ := cellStep_same_increment S R holdover_time today sims sim i s
  refine ⟨?_, h1, h2, h3,
    fun k hk => cellStep_other_bucket S R holdover_time today sims sim i k s hk⟩
  rcases subreg_lt_three (S.eco i (today - 121)) (S.longi i) with h | h | h <;> omega

/-- The hypothesis of C5 holds for trial 0 of a one-trial day. -/
theorem province_total_eq_sum_subregions_witness :
    (0 : Nat) < 1 ∧
      SumInv 0 (simLoop (oneCellSeason 10 1 0) maxAtThreeRng (-1) 121 1 1 zeroSim).a :=
  ⟨by decide,
    (province_total_eq_sum_subregions (oneCellSeason 10 1 0) maxAtThreeRng (-1) 121 1 1
      zeroSim 0 (by decide)).1⟩

/-! ## The day loop -/

theorem scanl_eq_cons_tail {α β : Type} (f : β → α → β) (b : β) (l : List α) :
    l.scanl f b = b :: (l.scanl f b).tail := by
  cases l <;> simp [List.scanl]

theorem scanl_tail_cons {α β : Type} (f : β → α → β) (b : β) (x : α) (l : List α) :
    ((x :: l).scanl f b).tail = f b x :: (l.scanl f (f b x)).tail := by
  simp only [List.scanl, List.tail_cons]
  exact scanl_eq_cons_tail f (f b x) l

theorem foldl_eq_getLast_scanl {α β : Type} (f : β → α → β) (b : β) (l : List α) :
    l.foldl f b = ((l.scanl f b).tail.getLast?).getD b := by
  induction l generalizing b with
  | nil => simp [List.scanl]
  | cons x l ih =>
    rw [scanl_tail_cons, List.foldl_cons, ih (f b x)]
    cases h : (l.scanl f (f b x)).tail with
    | nil => simp
    | cons y t =>
      simp [List.getLast?_cons_cons, List.getLast?_eq_getLast _ (List.cons_ne_nil y t)]

theorem dayStep_nhold (S : Season) (R : Rng) (i : Nat) (today h day : Int) (v : Vars) :
    (dayStep S R i today h day v).nhold =
      v.nhold - (dayStep S R i today h day v).narr1 + (dayStep S R i today h day v).nign
        - (dayStep S R i today h day v).narr2 := rfl

theorem dayStep_first (S : Season) (R : Rng) (i : Nat) (today h : Int) (v : Vars) :
    (dayStep S R i today h (today - h) v).narr1 = 0 := by
  simp [dayStep]

theorem foldl_nhold_balance (S : Season) (R : Rng) (i : Nat) (today h : Int)
    (l : List Int) (v : Vars) :
    (l.foldl (fun w day => dayStep S R i today h day w) v).nhold =
      v.nhold
        + (((l.scanl (fun w day => dayStep S R i today h day w) v).tail).map
            (fun s => s.nign)).sum
        - (((l.scanl (fun w day => dayStep S R i today h day w) v).tail).map
            (fun s => s.narr1 + s.narr2)).sum := by
  induction l generalizing v with
  | nil => simp [List.scanl]
  | cons x l ih =>
    rw [scanl_tail_cons, List.foldl_cons, ih]
    simp only [List.map_cons, List.sum_cons]
    rw [dayStep_nhold]
    ring

theorem scanl_chain (S : Season) (R : Rng) (i : Nat) (today h : Int)
    (l : List Int) (v : Vars) :
    List.Chain (fun a b => b.nhold = a.nhold - b.narr1 + b.nign - b.narr2) v
      ((l.scanl (fun w day => dayStep S R i today h day w) v).tail) := by
  induction l generalizing v with
  | nil => simp [List.scanl]
  | cons x l ih =>
    rw [scanl_tail_cons]
    exact List.Chain.cons (dayStep_nhold S R i today h x v) (ih _)

theorem windowDays_head (today h : Int) (d : Int) (l : List Int)
    (e : windowDays today h = d :: l) : d = today - h := by
  unfold windowDays at e
  cases hn : (h + 1).toNat with
  | zero => rw [hn] at e; simp at e
  | succ n =>
    rw [hn, List.range_succ_eq_map] at e
    simp at e
    exact e.1.symm

/-- C6: for every cell, trial and random sequence, the holdover count is 0
when the window starts, the first window day has `narr1 = 0`, every window day
updates `nhold` to `nhold - narr1 + nign - narr2`, and after the last window
day the holdover count is the total of the new ignitions of the window minus
the total of its arrivals `narr1 + narr2`. -/
theorem holdover_count_balance (S : Season) (R : Rng) (holdover_time today : Int) (i : Nat)
    (v : Vars) :
    (cellStart v).nhold = 0
      ∧ (∀ s, (cellTrace S R holdover_time today i v).head? = some s → s.narr1 = 0)
      ∧ List.Chain (fun a b => b.nhold = a.nhold - b.narr1 + b.nign - b.narr2)
          (cellStart v) (cellTrace S R holdover_time today i v)
      ∧ cellVars S R holdover_time today i v =
          ((cellTrace S R holdover_time today i v).getLast?).getD (cellStart v)
      ∧ (cellVars S R holdover_time today i v).nhold =
          ((cellTrace S R holdover_time today i v).map (fun s => s.nign)).sum
            - ((cellTrace S R holdover_time today i v).map
                (fun s => s.narr1 + s.narr2)).sum := by
  refine ⟨rfl, ?_, ?_, ?_, ?_⟩
  · intro s hs
    unfold cellTrace dayTrace at hs
    cases hl : windowDays today (holdover holdover_time (S.dcgrid i (today - 121)) today) with
    | nil => rw [hl] at hs; simp [List.scanl] at hs
    | cons d l =>
      rw [hl, scanl_tail_cons] at hs
      simp only [List.head?_cons, Option.some.injEq] at hs
      rw [← hs, windowDays_head _ _ d l hl]
      exact dayStep_first S R i today _ _
  · exact scanl_chain S R i today _ _ _
  · exact foldl_eq_getLast_scanl _ _ _
  · have h := foldl_nhold_balance S R i today
      (holdover holdover_time (S.dcgrid i (today - 121)) today)
      (windowDays today (holdover holdover_time (S.dcgrid i (today - 121)) today))
      (cellStart v)
    have h0 : (cellStart v).nhold = 0 := rfl
    rw [h0, zero_add] at h
    exact h

/-! ## What a cell adds to the totals -/

theorem windowDays_snoc (today h : Int) (hh : 0 ≤ h) :
    windowDays today h = windowDays (today - 1) (h - 1) ++ [today] := by
  unfold windowDays
  have e : (h + 1).toNat = (h - 1 + 1).toNat + 1 := by omega
  rw [e, List.range_succ, List.map_append]
  congr 1
  · apply List.map_congr_left
    intro k _
    ring
  · simp only [List.map_cons, List.map_nil, List.cons.injEq, and_true]
    have : (((h - 1 + 1).toNat : Nat) : Int) = h := by omega
    rw [this]; ring

/-- With a non-negative window the result of the day loop is the body of the
loop run for `day = today` on the state left by the earlier days. -/
theorem dayLoop_last (S : Season) (R : Rng) (i : Nat) (today h : Int) (v : Vars)
    (hh : 0 ≤ h) :
    dayLoop S R i today h v =
      dayStep S R i today h today
        ((windowDays (today - 1) (h - 1)).foldl
          (fun w day => dayStep S R i today h day w) v) := by
  unfold dayLoop
  rw [windowDays_snoc today h hh, List.foldl_append]
  rfl

theorem holdover_auto_zero_121 : holdover (-1) 0 121 = 0 := by
  unfold holdover
  rw [holdoverRaw_int]
  decide

/-- Cell 1 of the one-cell season with one strike, ignition probability 1 and
same-day arrival probability 1, on day 121 with every `rand()` equal to 0. -/
theorem cellVars_oneStrike :
    cellVars (oneCellSeason 1 1 1) zeroRng (-1) 121 1 zeroSim.v =
      { nhold := 0, narr1 := 0, nign := 1, narr2 := 1, pos := 3 } := by
  have hd : windowDays 121 0 = [121] := by decide
  have e : cellVars (oneCellSeason 1 1 1) zeroRng (-1) 121 1 zeroSim.v =
      dayStep (oneCellSeason 1 1 1) zeroRng 1 121 0 121 (cellStart zeroSim.v) := by
    unfold cellVars dayLoop
    simp only [oneCellSeason, holdover_auto_zero_121, hd, List.foldl_cons, List.foldl_nil]
  rw [e]
  simp [oneCellSeason, dayStep, countBelow, zeroSim, zeroRng,
    uniform, arrivals, arrivalStep, pa, rand1, totpltg, cellStart]

/-- C7 as stated fails: one strike that ignites and arrives on the query day
leaves `nhold = 0` after the update of that day, yet the cell adds 1 to the
holdover total of the trial and to its mean holdovers (`sims = 1`). -/
theorem holdover_total_includes_arrivals :
    (cellStep (oneCellSeason 1 1 1) zeroRng (-1) 121 1 0 1 zeroSim).v.nhold = 0
      ∧ (cellStep (oneCellSeason 1 1 1) zeroRng (-1) 121 1 0 1 zeroSim).a.totholdPROV 0
          = zeroSim.a.totholdPROV 0 + 1
      ∧ (cellStep (oneCellSeason 1 1 1) zeroRng (-1) 121 1 0 1 zeroSim).a.nholdtoday 1
          = zeroSim.a.nholdtoday 1 + 1 := by
  have e := cellVars_oneStrike
  refine ⟨?_, ?_, ?_⟩
  · show (cellVars (oneCellSeason 1 1 1) zeroRng (-1) 121 1 zeroSim.v).nhold = 0
    rw [e]
  · simp only [cellStep, e, Function.update_same]
    simp [zeroSim]
  · simp only [cellStep, e, Function.update_same]
    simp [zeroSim]

/-- C7, amended: when the window of the cell is not negative, the values the
cell adds to the trial totals and to its means are those of the query day
(the last run of the body of the day loop, for `day = today`):
ignitions `nign`, arrivals `narr1 + narr2`, and holdovers
`nhold + narr1 + narr2` with `nhold` the count after the update of that day. -/
theorem cell_contribution (S : Season) (R : Rng) (holdover_time today : Int)
    (sims sim i : Nat) (st : Sim)
    (hw : 0 ≤ holdover holdover_time (S.dcgrid i (today - 121)) today) :
    CellContribution S R holdover_time today sims sim i st := by
  unfold CellContribution
  refine ⟨?_, ?_, ?_, ?_, ?_, ?_, ?_, ?_, ?_, ?_⟩
  · show cellVars S R holdover_time today i st.v = _
    unfold cellVars beforeToday
    exact dayLoop_last S R i today _ _ hw
  all_goals simp [cellStep, set2_apply]

/-- The hypothesis of the amended C7 holds for cell 1 of the one-cell season on
day 121, whose window is 0. -/
theorem cell_contribution_witness :
    0 ≤ holdover (-1) ((oneCellSeason 1 1 1).dcgrid 1 (121 - 121)) 121
      ∧ CellContribution (oneCellSeason 1 1 1) zeroRng (-1) 121 1 0 1 zeroSim :=
  ⟨le_of_eq holdover_auto_zero_121.symm,
    cell_contribution (oneCellSeason 1 1 1) zeroRng (-1) 121 1 0 1 zeroSim
      (le_of_eq holdover_auto_zero_121.symm)⟩

/-! ## Draws equal to `RAND_MAX` -/

/-- A draw is below 1 exactly when `rand()` did not return `RAND_MAX`. -/
theorem uniform_lt_one_iff (R : Rng) (pos : Nat) (hpos : 0 < R.RAND_MAX) :
    uniform R pos < 1 ↔ R.out pos < R.RAND_MAX := by
  unfold uniform
  have hq : (0 : ℚ) < (R.RAND_MAX : ℚ) := by exact_mod_cast hpos
  rw [div_lt_one hq]
  exact_mod_cast Iff.rfl

/-- With probability 1 every draw that is not `RAND_MAX` counts. -/
theorem countBelow_one (R : Rng) (n : Nat) (c : Int) (pos : Nat)
    (h : ∀ k, k < n → uniform R (pos + k) < 1) :
    countBelow R 1 n c pos = (c + (n : Int), pos + n) := by
  induction n generalizing c pos with
  | zero => simp [countBelow]
  | succ n ih =>
    have h0 : uniform R pos < 1 := by simpa using h 0 (by omega)
    have hn : ∀ k, k < n → uniform R (pos + 1 + k) < 1 := by
      intro k hk
      have := h (k + 1) (by omega)
      rwa [show pos + (k + 1) = pos + 1 + k by omega] at this
    rw [countBelow, if_pos h0, ih _ _ hn]
    refine Prod.ext ?_ ?_
    · show c + 1 + (n : Int) = c + ((n + 1 : Nat) : Int)
      push_cast; ring
    · show pos + 1 + n = pos + (n + 1)
      omega

/-- A draw is never below probability 0, so no arrival is counted when the
same-day arrival probability of the cell-day is 0. -/
theorem arrivals_parr0_zero (S : Season) (R : Rng) (i : Nat) (d : Int)
    (hp : S.parr0 i d = 0) (n : Nat) (a : Int × Nat) :
    arrivals S R i d n a = (a.1, a.2 + 2 * n) := by
  have hpa : ∀ r, pa S i d r = 0 := by
    intro r
    unfold pa
    rw [hp]
    split_ifs <;> simp
  have hu : ∀ k, ¬ uniform R k < 0 := by
    intro k
    have : (0 : ℚ) ≤ uniform R k := by unfold uniform; positivity
    exact not_lt.mpr this
  induction n generalizing a with
  | zero => simp [arrivals]
  | succ n ih =>
    rw [arrivals, ih]
    simp only [arrivalStep, hpa, if_neg (hu _)]
    refine Prod.ext rfl ?_
    show a.2 + 2 + 2 * n = a.2 + 2 * (n + 1)
    omega

/-- The intended behaviour for C8: as long as `rand()` never returns
`RAND_MAX`, the cell with 10 strikes, ignition probability 1 and arrival
probabilities 0 yields 10 ignitions, no arrival and 10 holdovers. -/
theorem ten_strikes_all_ignite (R : Rng) (v : Vars)
    (h : ∀ k, R.out k < R.RAND_MAX) :
    cellVars (oneCellSeason 10 1 0) R (-1) 121 1 v =
      { nhold := 10, narr1 := 0, nign := 10, narr2 := 0, pos := v.pos + 30 } := by
  have hd : windowDays 121 0 = [121] := by decide
  have hu : ∀ k, k < 10 → uniform R (v.pos + k) < 1 := by
    intro k _
    exact (uniform_lt_one_iff R _ (lt_of_le_of_lt (Nat.zero_le _) (h 0))).mpr (h _)
  have e1 : cellVars (oneCellSeason 10 1 0) R (-1) 121 1 v =
      dayStep (oneCellSeason 10 1 0) R 1 121 0 121 (cellStart v) := by
    unfold cellVars dayLoop
    simp only [oneCellSeason, holdover_auto_zero_121, hd, List.foldl_cons, List.foldl_nil]
  have hc : countBelow R 1 10 0 v.pos = (10, v.pos + 10) := by
    rw [countBelow_one R 10 0 v.pos hu]
    rfl
  have hp : (oneCellSeason 10 1 0).parr0 1 0 = 0 := by simp [oneCellSeason]
  have ha := arrivals_parr0_zero (oneCellSeason 10 1 0) R 1 0 hp 10 (0, v.pos + 10)
  rw [e1]
  have hpi : (oneCellSeason 10 1 0).pign 1 0 = 1 := by simp [oneCellSeason]
  have hl : (oneCellSeason 10 1 0).ltg 1 0 = 10 := by simp [oneCellSeason]
  simp only [dayStep, cellStart, sub_self, lt_irrefl, gt_iff_lt, sub_zero, if_false,
    hpi, hl]
  simp [hc, ha]

/-- Evaluation for C8: cell 1 has 10 strikes on day 121 with ignition
probability 1 and all arrival probabilities 0. The fourth `rand()` returns
`RAND_MAX`, so that draw is 1, not below the ignition probability 1, and the
trial has 9 ignitions and 9 holdovers instead of 10; with one cell and one
trial the province total, hence the mean of the day, is 9. -/
theorem ignition_lost_at_rand_max :
    cellVars (oneCellSeason 10 1 0) maxAtThreeRng (-1) 121 1 zeroSim.v =
        { nhold := 9, narr1 := 0, nign := 9, narr2 := 0, pos := 28 }
      ∧ (simLoop (oneCellSeason 10 1 0) maxAtThreeRng (-1) 121 1 1 zeroSim).a.nignsPROV 0 = 9
      ∧ (simLoop (oneCellSeason 10 1 0) maxAtThreeRng (-1) 121 1 1 zeroSim).a.nigntoday 1
          = 9 := by
  have hd : windowDays 121 0 = [121] := by decide
  have e : cellVars (oneCellSeason 10 1 0) maxAtThreeRng (-1) 121 1 zeroSim.v =
      { nhold := 9, narr1 := 0, nign := 9, narr2 := 0, pos := 28 } := by
    have e1 : cellVars (oneCellSeason 10 1 0) maxAtThreeRng (-1) 121 1 zeroSim.v =
        dayStep (oneCellSeason 10 1 0) maxAtThreeRng 1 121 0 121 (cellStart zeroSim.v) := by
      unfold cellVars dayLoop
      simp only [oneCellSeason, holdover_auto_zero_121, hd, List.foldl_cons, List.foldl_nil]
    rw [e1]
    simp [oneCellSeason, dayStep, countBelow, zeroSim, maxAtThreeRng,
      uniform, arrivals, arrivalStep, pa, rand1, totpltg, cellStart]
  have r1 : List.range 1 = [0] := by decide
  have r2 : List.range' 1 1 = [1] := by decide
  have e2 : (resetTrial 0 zeroSim.a) = zeroSim.a := by
    simp [resetTrial, zeroSim, set2, Function.update]
  refine ⟨e, ?_, ?_⟩
  · simp only [simLoop, trial, r1, r2, List.foldl_cons, List.foldl_nil, cellStep, e2, e,
      Function.update_same]
    simp [zeroSim]
  · simp only [simLoop, trial, r1, r2, List.foldl_cons, List.foldl_nil, cellStep, e2, e,
      Function.update_same]
    simp [zeroSim]

/-! ## Arrival probability by period -/

theorem cumLtg_values (S : Season) (i : Nat) (d : Int) :
    cumLtg S i d 0 = S.ltgp i d 0
      ∧ cumLtg S i d 1 = S.ltgp i d 1 + S.ltgp i d 0
      ∧ cumLtg S i d 2 = S.ltgp i d 2 + S.ltgp i d 1 + S.ltgp i d 0
      ∧ cumLtg S i d 3 = S.ltgp i d 3 + S.ltgp i d 2 + S.ltgp i d 1 + S.ltgp i d 0
      ∧ cumLtg S i d 4 = totpltg S i d := by
  refine ⟨?_, ?_, ?_, ?_, ?_⟩ <;>
    simp [cumLtg, totpltg, List.range_succ] <;> ring

/-- When the period draw `rand1` is below the total strike count of the
five periods, the arrival probability applied to a new ignition is
`w * arrival0_prob`, where the period `k` is the first of `0..4` whose
cumulative strike count is above the draw and `w` is 1 for periods 0, 1, 2,
0.8 for period 3 and 0.2 for period 4; `narr2` grows by one exactly when the
second draw is below that probability, and two draws are used. -/
theorem arrival_probability_by_period (S : Season) (R : Rng) (i : Nat) (d : Int)
    (a : Int × Nat)
    (hr : rand1 S R i d a.2 < ((totpltg S i d : Int) : ℚ)) :
    ∃ k, firstPeriod S i d (rand1 S R i d a.2) = some k
      ∧ k ≤ 4
      ∧ pa S i d (rand1 S R i d a.2) = periodWeight k * S.parr0 i d
      ∧ arrivalStep S R i d a =
          (if uniform R (a.2 + 1) < periodWeight k * S.parr0 i d then a.1 + 1 else a.1,
            a.2 + 2)
      ∧ periodWeight 0 = 1 ∧ periodWeight 1 = 1 ∧ periodWeight 2 = 1
      ∧ periodWeight 3 = 8 / 10 ∧ periodWeight 4 = 2 / 10 := by
  obtain ⟨c0, c1, c2, c3, c4⟩ := cumLtg_values S i d
  have hw : periodWeight 0 = 1 ∧ periodWeight 1 = 1 ∧ periodWeight 2 = 1
      ∧ periodWeight 3 = 8 / 10 ∧ periodWeight 4 = 2 / 10 := by
    refine ⟨?_, ?_, ?_, ?_, ?_⟩ <;> simp [periodWeight]
  have hrange : List.range 5 = [0, 1, 2, 3, 4] := by decide
  rw [← c4] at hr
  by_cases h0 : rand1 S R i d a.2 < ((cumLtg S i d 0 : Int) : ℚ)
  · refine ⟨0, ?_, by omega, ?_, ?_, hw⟩
    · simp [firstPeriod, hrange, List.find?, h0]
    · rw [c0] at h0; simp [pa, h0, hw.1]
    · rw [c0] at h0; simp [arrivalStep, pa, h0, hw.1]
  by_cases h1 : rand1 S R i d a.2 < ((cumLtg S i d 1 : Int) : ℚ)
  · refine ⟨1, ?_, by omega, ?_, ?_, hw⟩
    · simp [firstPeriod, hrange, List.find?, h0, h1]
    · rw [c0] at h0; rw [c1] at h1; simp only [pa, if_neg h0, if_pos h1, hw.2.1, one_mul]
    · rw [c0] at h0; rw [c1] at h1
      simp only [arrivalStep, pa, if_neg h0, if_pos h1, hw.2.1, one_mul]
  by_cases h2 : rand1 S R i d a.2 < ((cumLtg S i d 2 : Int) : ℚ)
  · refine ⟨2, ?_, by omega, ?_, ?_, hw⟩
    · simp [firstPeriod, hrange, List.find?, h0, h1, h2]
    · rw [c0] at h0; rw [c1] at h1; rw [c2] at h2
      simp only [pa, if_neg h0, if_neg h1, if_pos h2, hw.2.2.1]
    · rw [c0] at h0; rw [c1] at h1; rw [c2] at h2
      simp only [arrivalStep, pa, if_neg h0, if_neg h1, if_pos h2, hw.2.2.1]
  by_cases h3 : rand1 S R i d a.2 < ((cumLtg S i d 3 : Int) : ℚ)
  · refine ⟨3, ?_, by omega, ?_, ?_, hw⟩
    · simp [firstPeriod, hrange, List.find?, h0, h1, h2, h3]
    · rw [c0] at h0; rw [c1] at h1; rw [c2] at h2; rw [c3] at h3
      simp only [pa, if_neg h0, if_neg h1, if_neg h2, if_pos h3, hw.2.2.2.1]
    · rw [c0] at h0; rw [c1] at h1; rw [c2] at h2; rw [c3] at h3
      simp only [arrivalStep, pa, if_neg h0, if_neg h1, if_neg h2, if_pos h3, hw.2.2.2.1]
  · refine ⟨4, ?_, by omega, ?_, ?_, hw⟩
    · simp [firstPeriod, hrange, List.find?, h0, h1, h2, h3, hr]
    · rw [c0] at h0; rw [c1] at h1; rw [c2] at h2; rw [c3] at h3
      simp only [pa, if_neg h0, if_neg h1, if_neg h2, if_neg h3, hw.2.2.2.2]
    · rw [c0] at h0; rw [c1] at h1; rw [c2] at h2; rw [c3] at h3
      simp only [arrivalStep, pa, if_neg h0, if_neg h1, if_neg h2, if_neg h3, hw.2.2.2.2]

/-- The period draw of the one-cell season with every `rand()` equal to 0 is
0, below the one strike of the day. -/
theorem arrival_probability_by_period_witness :
    rand1 (oneCellSeason 1 1 1) zeroRng 1 0 ((0 : Int), (0 : Nat)).2
        < ((totpltg (oneCellSeason 1 1 1) 1 0 : Int) : ℚ)
      ∧ ∃ k, firstPeriod (oneCellSeason 1 1 1) 1 0
            (rand1 (oneCellSeason 1 1 1) zeroRng 1 0 ((0 : Int), (0 : Nat)).2) = some k
        ∧ k ≤ 4
        ∧ pa (oneCellSeason 1 1 1) 1 0
            (rand1 (oneCellSeason 1 1 1) zeroRng 1 0 ((0 : Int), (0 : Nat)).2)
            = periodWeight k * (oneCellSeason 1 1 1).parr0 1 0
        ∧ arrivalStep (oneCellSeason 1 1 1) zeroRng 1 0 ((0 : Int), (0 : Nat)) =
            (if uniform zeroRng (((0 : Int), (0 : Nat)).2 + 1)
                < periodWeight k * (oneCellSeason 1 1 1).parr0 1 0
              then ((0 : Int), (0 : Nat)).1 + 1 else ((0 : Int), (0 : Nat)).1,
              ((0 : Int), (0 : Nat)).2 + 2)
        ∧ periodWeight 0 = 1 ∧ periodWeight 1 = 1 ∧ periodWeight 2 = 1
        ∧ periodWeight 3 = 8 / 10 ∧ periodWeight 4 = 2 / 10 :=
  ⟨by simp [rand1, uniform, totpltg, oneCellSeason, zeroRng],
    arrival_probability_by_period (oneCellSeason 1 1 1) zeroRng 1 0 (0, 0)
      (by simp [rand1, uniform, totpltg, oneCellSeason, zeroRng])⟩

/-- Evaluation for C9: cell 1 has two strikes on day 121, both in period 0,
with ignition probability 1 and same-day arrival probability 1, and both
strikes ignite. For the first ignition the `rand()` of the period draw returns
`RAND_MAX`: `rand1` is 2, the total strike count, not a value of `[0, 2)`; no
period of `0..4` has a cumulative count above it and the `else` branch applies
weight 0.2. The arrival draw 16384/32767 is below `1 * arrival0_prob`, the
probability of period 0, but not below 0.2, and the ignition is not counted
as an arrival. For the second ignition the period draw is 0, the period is 0,
and the same arrival draw counts as an arrival. -/
theorem period_draw_reaches_total :
    ((oneCellSeason 2 1 1).ltgp 1 0 0 = 2 ∧ totpltg (oneCellSeason 2 1 1) 1 0 = 2
        ∧ (oneCellSeason 2 1 1).parr0 1 0 = 1)
      ∧ rand1 (oneCellSeason 2 1 1) maxAtTwoRng 1 0 2
          = ((totpltg (oneCellSeason 2 1 1) 1 0 : Int) : ℚ)
      ∧ firstPeriod (oneCellSeason 2 1 1) 1 0
          (rand1 (oneCellSeason 2 1 1) maxAtTwoRng 1 0 2) = none
      ∧ pa (oneCellSeason 2 1 1) 1 0 (rand1 (oneCellSeason 2 1 1) maxAtTwoRng 1 0 2)
          = 2 / 10 * (oneCellSeason 2 1 1).parr0 1 0
      ∧ uniform maxAtTwoRng 3 < periodWeight 0 * (oneCellSeason 2 1 1).parr0 1 0
      ∧ arrivalStep (oneCellSeason 2 1 1) maxAtTwoRng 1 0 (0, 2) = (0, 4)
      ∧ arrivalStep (oneCellSeason 2 1 1) maxAtTwoRng 1 0 (0, 4) = (1, 6)
      ∧ cellVars (oneCellSeason 2 1 1) maxAtTwoRng (-1) 121 1 zeroSim.v =
          { nhold := 1, narr1 := 0, nign := 2, narr2 := 1, pos := 6 } := by
  have hd : windowDays 121 0 = [121] := by decide
  have e1 : cellVars (oneCellSeason 2 1 1) maxAtTwoRng (-1) 121 1 zeroSim.v =
      dayStep (oneCellSeason 2 1 1) maxAtTwoRng 1 121 0 121 (cellStart zeroSim.v) := by
    unfold cellVars dayLoop
    simp only [oneCellSeason, holdover_auto_zero_121, hd, List.foldl_cons, List.foldl_nil]
  have hr : List.range 5 = [0, 1, 2, 3, 4] := by decide
  refine ⟨by simp [oneCellSeason, totpltg], ?_, ?_, ?_, ?_, ?_, ?_, ?_⟩
  · simp [rand1, uniform, totpltg, oneCellSeason, maxAtTwoRng]
  · simp [firstPeriod, cumLtg, rand1, uniform, totpltg, oneCellSeason, maxAtTwoRng, hr,
      List.range_succ]
  · simp [pa, rand1, uniform, totpltg, oneCellSeason, maxAtTwoRng]
  · simp [periodWeight, uniform, oneCellSeason, maxAtTwoRng]
    norm_num
  · simp [arrivalStep, pa, rand1, uniform, totpltg, oneCellSeason, maxAtTwoRng]
    norm_num
  · simp [arrivalStep, pa, rand1, uniform, totpltg, oneCellSeason, maxAtTwoRng]
    norm_num
  · rw [e1]
    simp [oneCellSeason, dayStep, countBelow, zeroSim, maxAtTwoRng,
      uniform, arrivals, arrivalStep, pa, rand1, totpltg, cellStart]
    norm_num

/-! ## Lemmas on binary floating point rounding -/

theorem roundHalfEven_intCast (n : Int) : roundHalfEven (n : ℚ) = n := by
  unfold roundHalfEven
  simp

theorem roundHalfEven_floor_le (q : ℚ) : ⌊q⌋ ≤ roundHalfEven q := by
  unfold roundHalfEven
  split_ifs <;> omega

theorem roundHalfEven_le_floor_succ (q : ℚ) : roundHalfEven q ≤ ⌊q⌋ + 1 := by
  unfold roundHalfEven
  split_ifs <;> omega

theorem roundHalfEven_mono {p q : ℚ} (h : p ≤ q) : roundHalfEven p ≤ roundHalfEven q := by
  have hf : ⌊p⌋ ≤ ⌊q⌋ := Int.floor_mono h
  rcases hf.lt_or_eq with hlt | heq
  · have h1 := roundHalfEven_le_floor_succ p
    have h2 := roundHalfEven_floor_le q
    omega
  · unfold roundHalfEven
    rw [heq]
    split_ifs <;> first | omega | (exfalso; linarith)

theorem roundHalfEven_le_of_le {q : ℚ} {n : Int} (h : q ≤ (n : ℚ)) : roundHalfEven q ≤ n := by
  have := roundHalfEven_mono h
  rwa [roundHalfEven_intCast] at this

theorem roundHalfEven_ge_of_ge {q : ℚ} {n : Int} (h : (n : ℚ) ≤ q) : n ≤ roundHalfEven q := by
  have := roundHalfEven_mono h
  rwa [roundHalfEven_intCast] at this

theorem roundHalfEven_eq_of_lt (t : ℚ) (m : Int) (h1 : (2 * (m : ℚ) - 1) < 2 * t)
    (h2 : 2 * t < 2 * (m : ℚ) + 1) : roundHalfEven t = m := by
  by_cases hm : (m : ℚ) ≤ t
  · have hfl : ⌊t⌋ = m := by
      rw [Int.floor_eq_iff]
      constructor
      · exact hm
      · linarith
    unfold roundHalfEven
    rw [hfl, if_pos (by linarith)]
  · have hfl : ⌊t⌋ = m - 1 := by
      rw [Int.floor_eq_iff]
      push_cast
      constructor
      · linarith
      · linarith [not_le.mp hm]
    unfold roundHalfEven
    rw [hfl]
    push_cast
    rw [if_neg (by linarith), if_pos (by linarith)]
    omega

theorem roundHalfEven_tie (t : ℚ) (m : Int) (h : 2 * t = 2 * (m : ℚ) + 1) :
    roundHalfEven t = if m % 2 = 0 then m else m + 1 := by
  have hfl : ⌊t⌋ = m := by
    rw [Int.floor_eq_iff]
    constructor <;> linarith
  unfold roundHalfEven
  rw [hfl, if_neg (by linarith), if_neg (by linarith)]

theorem two_zpow_pos (e : Int) : (0 : ℚ) < (2 : ℚ) ^ e := zpow_pos (by norm_num) e

theorem roundBin_zero (prec : Nat) (emin : Int) : roundBin prec emin 0 = 0 := by
  unfold roundBin
  have h : roundHalfEven ((0 : ℚ) / 2 ^ ulpExp prec emin 0) = 0 := by
    rw [zero_div]
    exact_mod_cast roundHalfEven_intCast 0
  rw [h]
  simp

theorem roundBin_nonneg (prec : Nat) (emin : Int) {q : ℚ} (h : 0 ≤ q) :
    0 ≤ roundBin prec emin q := by
  unfold roundBin
  have h1 : (0 : ℚ) ≤ q / 2 ^ ulpExp prec emin q := div_nonneg h (two_zpow_pos _).le
  have h2 : (0 : Int) ≤ roundHalfEven (q / 2 ^ ulpExp prec emin q) :=
    roundHalfEven_ge_of_ge (by exact_mod_cast h1)
  exact mul_nonneg (by exact_mod_cast h2) (two_zpow_pos _).le

theorem roundBin_nonpos (prec : Nat) (emin : Int) {q : ℚ} (h : q ≤ 0) :
    roundBin prec emin q ≤ 0 := by
  unfold roundBin
  have h1 : q / 2 ^ ulpExp prec emin q ≤ 0 := div_nonpos_of_nonpos_of_nonneg h (two_zpow_pos _).le
  have h2 : roundHalfEven (q / 2 ^ ulpExp prec emin q) ≤ (0 : Int) :=
    roundHalfEven_le_of_le (by exact_mod_cast h1)
  exact mul_nonpos_of_nonpos_of_nonneg (by exact_mod_cast h2) (two_zpow_pos _).le

theorem log_two_le {q : ℚ} (hq : 0 < q) : (2 : ℚ) ^ Int.log 2 q ≤ q := by
  have := Int.zpow_log_le_self (b := 2) (r := q) (by norm_num) hq
  simpa using this

theorem lt_log_two_succ (q : ℚ) : q < (2 : ℚ) ^ (Int.log 2 q + 1) := by
  have := Int.lt_zpow_succ_log_self (b := 2) (by norm_num) q
  simpa using this

theorem log_two_eq {q : ℚ} {k : Int} (h1 : (2 : ℚ) ^ k ≤ q) (h2 : q < (2 : ℚ) ^ (k + 1)) :
    Int.log 2 q = k := by
  have hq : 0 < q := lt_of_lt_of_le (two_zpow_pos k) h1
  have a : k ≤ Int.log 2 q := by
    rw [← Int.zpow_le_iff_le_log (by norm_num) hq]
    simpa using h1
  have b : Int.log 2 q < k + 1 := by
    rw [← Int.lt_zpow_iff_log_lt (by norm_num) hq]
    simpa using h2
  omega

theorem ulpExp_mono (prec : Nat) (emin : Int) {p q : ℚ} (hp : 0 < p) (h : p ≤ q) :
    ulpExp prec emin p ≤ ulpExp prec emin q := by
  unfold ulpExp
  have hq : 0 < q := lt_of_lt_of_le hp h
  rw [abs_of_pos hp, abs_of_pos hq]
  have := Int.log_mono_right (b := 2) hp h
  exact max_le_max (by omega) (le_refl _)

/-- A positive value divided by its unit in the last place is below `2 ^ prec`. -/
theorem div_ulp_lt (prec : Nat) (emin : Int) {q : ℚ} (hq : 0 < q) :
    q / 2 ^ ulpExp prec emin q < (2 : ℚ) ^ (prec : Int) := by
  rw [div_lt_iff₀ (two_zpow_pos _), ← zpow_add₀ (by norm_num : (2 : ℚ) ≠ 0)]
  refine lt_of_lt_of_le (lt_log_two_succ q) (zpow_le_zpow_right₀ (by norm_num) ?_)
  unfold ulpExp
  rw [abs_of_pos hq]
  have := le_max_left (Int.log 2 q - ((prec : Int) - 1)) emin
  omega

theorem roundBin_le_pow (prec : Nat) (emin : Int) {q : ℚ} (hq : 0 < q) :
    roundBin prec emin q ≤ (2 : ℚ) ^ ((prec : Int) + ulpExp prec emin q) := by
  unfold roundBin
  have h1 := (div_ulp_lt prec emin hq).le
  have e : (2 : ℚ) ^ (prec : Int) = (((2 ^ prec : Nat) : Int) : ℚ) := by
    push_cast
    rw [zpow_natCast]
  rw [e] at h1
  have h2 := roundHalfEven_le_of_le h1
  rw [zpow_add₀ (by norm_num : (2 : ℚ) ≠ 0), e]
  exact mul_le_mul_of_nonneg_right (by exact_mod_cast h2) (two_zpow_pos _).le

theorem roundBin_ge_pow (prec : Nat) (emin : Int) (hp : 1 ≤ prec) {q : ℚ} (hq : 0 < q)
    (he : emin < ulpExp prec emin q) :
    (2 : ℚ) ^ ((prec : Int) - 1 + ulpExp prec emin q) ≤ roundBin prec emin q := by
  have hu : ulpExp prec emin q = Int.log 2 q - ((prec : Int) - 1) := by
    unfold ulpExp at he ⊢
    rw [abs_of_pos hq] at he ⊢
    rcases max_cases (Int.log 2 q - ((prec : Int) - 1)) emin with ⟨h, _⟩ | ⟨h, _⟩
    · exact h
    · omega
  have h1 : (2 : ℚ) ^ ((prec : Int) - 1) ≤ q / 2 ^ ulpExp prec emin q := by
    rw [le_div_iff₀ (two_zpow_pos _), ← zpow_add₀ (by norm_num : (2 : ℚ) ≠ 0)]
    have e : (prec : Int) - 1 + ulpExp prec emin q = Int.log 2 q := by omega
    rw [e]
    exact log_two_le hq
  unfold roundBin
  rw [zpow_add₀ (by norm_num : (2 : ℚ) ≠ 0)]
  refine mul_le_mul_of_nonneg_right ?_ (two_zpow_pos _).le
  have e : (2 : ℚ) ^ ((prec : Int) - 1) = (((2 ^ (prec - 1) : Nat) : Int) : ℚ) := by
    push_cast
    rw [← zpow_natCast]
    congr 1
    omega
  rw [e] at h1 ⊢
  exact_mod_cast roundHalfEven_ge_of_ge h1

theorem roundBin_mono_pos (prec : Nat) (emin : Int) (hp : 1 ≤ prec) {x y : ℚ} (hx : 0 < x)
    (h : x ≤ y) : roundBin prec emin x ≤ roundBin prec emin y := by
  have hy : 0 < y := lt_of_lt_of_le hx h
  have hu := ulpExp_mono prec emin hx h
  rcases hu.lt_or_eq with hlt | heq
  · have a := roundBin_le_pow prec emin hx
    have hemin : emin ≤ ulpExp prec emin x := le_max_right _ _
    have b := roundBin_ge_pow prec emin hp hy (by omega)
    have c : (2 : ℚ) ^ ((prec : Int) + ulpExp prec emin x)
        ≤ (2 : ℚ) ^ ((prec : Int) - 1 + ulpExp prec emin y) :=
      zpow_le_zpow_right₀ (by norm_num) (by omega)
    linarith
  · unfold roundBin
    rw [heq]
    refine mul_le_mul_of_nonneg_right ?_ (two_zpow_pos _).le
    have := roundHalfEven_mono
      (div_le_div_of_nonneg_right h (two_zpow_pos (ulpExp prec emin y)).le)
    exact_mod_cast this

/-- Rounding keeps the order of two values of which the larger is not negative. -/
theorem roundBin_mono (prec : Nat) (emin : Int) (hp : 1 ≤ prec) {x y : ℚ} (h : x ≤ y)
    (hy : 0 ≤ y) : roundBin prec emin x ≤ roundBin prec emin y := by
  by_cases hx : 0 < x
  · exact roundBin_mono_pos prec emin hp hx h
  · exact le_trans (roundBin_nonpos prec emin (not_lt.mp hx)) (roundBin_nonneg prec emin hy)

/-- A value `m * 2 ^ e` with `|m| < 2 ^ prec` and `e` not below the smallest
exponent is a value of the format: rounding leaves it as it is. -/
theorem roundBin_exact (prec : Nat) (emin : Int) (m e : Int) (hm : |m| < 2 ^ prec)
    (he : emin ≤ e) : roundBin prec emin ((m : ℚ) * 2 ^ e) = (m : ℚ) * 2 ^ e := by
  by_cases hm0 : m = 0
  · subst hm0
    simp [roundBin_zero]
  have habs : |(m : ℚ) * 2 ^ e| = (|m| : ℚ) * 2 ^ e := by
    rw [abs_mul, abs_of_pos (two_zpow_pos e)]
  have hpos : (0 : ℚ) < (|m| : ℚ) * 2 ^ e :=
    mul_pos (by exact_mod_cast abs_pos.mpr hm0) (two_zpow_pos e)
  have hlt : (|m| : ℚ) * 2 ^ e < (2 : ℚ) ^ ((prec : Int) + e) := by
    rw [zpow_add₀ (by norm_num : (2 : ℚ) ≠ 0), zpow_natCast]
    refine mul_lt_mul_of_pos_right ?_ (two_zpow_pos e)
    exact_mod_cast hm
  have hlog : Int.log 2 ((|m| : ℚ) * 2 ^ e) < (prec : Int) + e := by
    rw [← Int.lt_zpow_iff_log_lt (by norm_num) hpos]
    simpa using hlt
  have hu : ulpExp prec emin ((m : ℚ) * 2 ^ e) ≤ e := by
    unfold ulpExp
    rw [habs]
    exact max_le (by omega) he
  obtain ⟨d, hd⟩ : ∃ d : Nat, e = ulpExp prec emin ((m : ℚ) * 2 ^ e) + (d : Int) :=
    ⟨(e - ulpExp prec emin ((m : ℚ) * 2 ^ e)).toNat, by omega⟩
  have hdiv : (m : ℚ) * 2 ^ e / 2 ^ ulpExp prec emin ((m : ℚ) * 2 ^ e)
      = ((m * 2 ^ d : Int) : ℚ) := by
    rw [div_eq_iff (two_zpow_pos _).ne']
    push_cast
    rw [mul_assoc, ← zpow_natCast, ← zpow_add₀ (by norm_num : (2 : ℚ) ≠ 0)]
    congr 2
    omega
  unfold roundBin
  rw [hdiv, roundHalfEven_intCast, ← hdiv,
    div_mul_cancel₀ _ (two_zpow_pos _).ne']

/-- Evaluation of the rounding of a positive value in the normal range: `u` is
the unit in the last place and `m * u` the value within half a unit of `q`. -/
theorem roundBin_eval (prec : Nat) (emin : Int) (q u : ℚ) (e m : Int)
    (hu : u = (2 : ℚ) ^ e) (he : emin ≤ e)
    (h1 : (2 : ℚ) ^ ((prec : Int) - 1) * u ≤ q) (h2 : q < (2 : ℚ) ^ (prec : Int) * u)
    (hm1 : (2 * (m : ℚ) - 1) * u < 2 * q) (hm2 : 2 * q < (2 * (m : ℚ) + 1) * u) :
    roundBin prec emin q = (m : ℚ) * u := by
  subst hu
  have hlog : Int.log 2 q = (prec : Int) - 1 + e := by
    apply log_two_eq
    · rw [zpow_add₀ (by norm_num : (2 : ℚ) ≠ 0)]
      exact h1
    · have e2 : (prec : Int) - 1 + e + 1 = (prec : Int) + e := by ring
      rw [e2, zpow_add₀ (by norm_num : (2 : ℚ) ≠ 0)]
      exact h2
  have hq : 0 < q := lt_of_lt_of_le (mul_pos (two_zpow_pos _) (two_zpow_pos _)) h1
  have hue : ulpExp prec emin q = e := by
    unfold ulpExp
    rw [abs_of_pos hq, hlog]
    have : (prec : Int) - 1 + e - ((prec : Int) - 1) = e := by ring
    rw [this]
    exact max_eq_left he
  unfold roundBin
  rw [hue]
  have hr : roundHalfEven (q / 2 ^ e) = m := by
    apply roundHalfEven_eq_of_lt
    · have : (2 * (m : ℚ) - 1) < 2 * q / 2 ^ e := by
        rw [lt_div_iff₀ (two_zpow_pos e)]
        exact hm1
      rw [mul_div_assoc] at this
      exact this
    · have : 2 * q / 2 ^ e < 2 * (m : ℚ) + 1 := by
        rw [div_lt_iff₀ (two_zpow_pos e)]
        exact hm2
      rw [mul_div_assoc] at this
      exact this
  rw [hr]

/-- Evaluation of the rounding of a positive value in the normal range that
lies half way between the two values `m * u` and `(m + 1) * u` of the format. -/
theorem roundBin_eval_tie (prec : Nat) (emin : Int) (q u : ℚ) (e m : Int)
    (hu : u = (2 : ℚ) ^ e) (he : emin ≤ e)
    (h1 : (2 : ℚ) ^ ((prec : Int) - 1) * u ≤ q) (h2 : q < (2 : ℚ) ^ (prec : Int) * u)
    (ht : 2 * q = (2 * (m : ℚ) + 1) * u) :
    roundBin prec emin q = ((if m % 2 = 0 then m else m + 1 : Int) : ℚ) * u := by
  subst hu
  have hlog : Int.log 2 q = (prec : Int) - 1 + e := by
    apply log_two_eq
    · rw [zpow_add₀ (by norm_num : (2 : ℚ) ≠ 0)]
      exact h1
    · have e2 : (prec : Int) - 1 + e + 1 = (prec : Int) + e := by ring
      rw [e2, zpow_add₀ (by norm_num : (2 : ℚ) ≠ 0)]
      exact h2
  have hq : 0 < q := lt_of_lt_of_le (mul_pos (two_zpow_pos _) (two_zpow_pos _)) h1
  have hue : ulpExp prec emin q = e := by
    unfold ulpExp
    rw [abs_of_pos hq, hlog]
    have : (prec : Int) - 1 + e - ((prec : Int) - 1) = e := by ring
    rw [this]
    exact max_eq_left he
  unfold roundBin
  rw [hue]
  have hr : roundHalfEven (q / 2 ^ e) = if m % 2 = 0 then m else m + 1 := by
    apply roundHalfEven_tie
    rw [← mul_div_assoc, div_eq_iff (two_zpow_pos e).ne']
    exact ht
  rw [hr]

/-! ### The two formats of the program -/

theorem f32_zero : f32 0 = 0 := roundBin_zero 24 (-149)

theorem f32_nonneg {q : ℚ} (h : 0 ≤ q) : 0 ≤ f32 q := roundBin_nonneg 24 (-149) h

theorem f32_nonpos {q : ℚ} (h : q ≤ 0) : f32 q ≤ 0 := roundBin_nonpos 24 (-149) h

theorem f32_mono {x y : ℚ} (h : x ≤ y) (hy : 0 ≤ y) : f32 x ≤ f32 y :=
  roundBin_mono 24 (-149) (by norm_num) h hy

theorem f32_dyadic (q : ℚ) (m e : Int) (hq : q = (m : ℚ) * 2 ^ e) (hm : |m| < 2 ^ 24)
    (he : -149 ≤ e) : f32 q = q := by
  rw [hq]
  exact roundBin_exact 24 (-149) m e hm he

theorem f32_eval (q u : ℚ) (e m : Int) (hu : u = (2 : ℚ) ^ e) (he : -149 ≤ e)
    (h1 : 8388608 * u ≤ q) (h2 : q < 16777216 * u)
    (hm1 : (2 * (m : ℚ) - 1) * u < 2 * q) (hm2 : 2 * q < (2 * (m : ℚ) + 1) * u) :
    f32 q = (m : ℚ) * u :=
  roundBin_eval 24 (-149) q u e m hu he (by norm_num; exact h1) (by norm_num; exact h2) hm1 hm2

theorem f64_dyadic (q : ℚ) (m e : Int) (hq : q = (m : ℚ) * 2 ^ e) (hm : |m| < 2 ^ 53)
    (he : -1074 ≤ e) : f64 q = q := by
  rw [hq]
  exact roundBin_exact 53 (-1074) m e hm he

theorem f64_eval (q u : ℚ) (e m : Int) (hu : u = (2 : ℚ) ^ e) (he : -1074 ≤ e)
    (h1 : 4503599627370496 * u ≤ q) (h2 : q < 9007199254740992 * u)
    (hm1 : (2 * (m : ℚ) - 1) * u < 2 * q) (hm2 : 2 * q < (2 * (m : ℚ) + 1) * u) :
    f64 q = (m : ℚ) * u :=
  roundBin_eval 53 (-1074) q u e m hu he (by norm_num; exact h1) (by norm_num; exact h2) hm1 hm2

theorem f32_eval_tie (q u : ℚ) (e m : Int) (hu : u = (2 : ℚ) ^ e) (he : -149 ≤ e)
    (h1 : 8388608 * u ≤ q) (h2 : q < 16777216 * u)
    (ht : 2 * q = (2 * (m : ℚ) + 1) * u) :
    f32 q = ((if m % 2 = 0 then m else m + 1 : Int) : ℚ) * u :=
  roundBin_eval_tie 24 (-149) q u e m hu he (by norm_num; exact h1) (by norm_num; exact h2) ht

theorem f64_eval_tie (q u : ℚ) (e m : Int) (hu : u = (2 : ℚ) ^ e) (he : -1074 ≤ e)
    (h1 : 4503599627370496 * u ≤ q) (h2 : q < 9007199254740992 * u)
    (ht : 2 * q = (2 * (m : ℚ) + 1) * u) :
    f64 q = ((if m % 2 = 0 then m else m + 1 : Int) : ℚ) * u :=
  roundBin_eval_tie 53 (-1074) q u e m hu he (by norm_num; exact h1) (by norm_num; exact h2) ht

/-! ## Percentile ranks -/

theorem ranks_1000_80 :
    ci_low 1000 80 = 99 ∧ ci_high 1000 80 = 900 := by
  have ha : f32 (80 / 100) = 13421773 / 16777216 := by
    rw [f32_eval (80 / 100) ((1 / 16777216)) (-24) 13421773 (by norm_num) (by norm_num) (by norm_num)
      (by norm_num) (by norm_num) (by norm_num)]
    norm_num
  have hb : f32 (1 - (13421773 / 16777216)) = 3355443 / 16777216 := by
    rw [f32_dyadic (1 - (13421773 / 16777216)) (3355443) (-24) (by norm_num) (by norm_num) (by norm_num)]
    norm_num
  have hc : f32 ((3355443 / 16777216) / 2) = 3355443 / 33554432 := by
    rw [f32_dyadic ((3355443 / 16777216) / 2) (3355443) (-25) (by norm_num) (by norm_num) (by norm_num)]
    norm_num
  have hs : f32 (((1000 : Int) : ℚ)) = 1000 := by
    rw [f32_dyadic (((1000 : Int) : ℚ)) (125) (3) (by norm_num) (by norm_num) (by norm_num)]
    norm_num
  have hy : f32 ((3355443 / 33554432) * 1000) = 13107199 / 131072 := by
    rw [f32_eval ((3355443 / 33554432) * 1000) ((1 / 131072)) (-17) 13107199 (by norm_num) (by norm_num) (by norm_num)
      (by norm_num) (by norm_num) (by norm_num)]
    norm_num
  have hl : f32 (0 + (13107199 / 131072)) = 13107199 / 131072 := by
    rw [f32_dyadic (0 + (13107199 / 131072)) (13107199) (-17) (by norm_num) (by norm_num) (by norm_num)]
    norm_num
  have hh : f32 (1000 - (13107199 / 131072)) = 900 := by
    rw [f32_eval (1000 - (13107199 / 131072)) ((1 / 16384)) (-14) 14745600 (by norm_num) (by norm_num) (by norm_num)
      (by norm_num) (by norm_num) (by norm_num)]
    norm_num
  constructor
  · unfold ci_low
    rw [ha, hb, hc, hs, hy, hl]
    have e : (13107199 / 131072 : ℚ) = ((13107199 : Int) : ℚ) / ((131072 : ℕ) : ℚ) := by norm_num
    rw [e, cTrunc_div (13107199) 131072 (by norm_num)]
    norm_num
  · unfold ci_high
    rw [ha, hb, hc, hs, hy, hh]
    have e : (900 : ℚ) = ((900 : Int) : ℚ) / ((1 : ℕ) : ℚ) := by norm_num
    rw [e, cTrunc_div (900) 1 (by norm_num)]
    norm_num

theorem ranks_10_80 :
    ci_low 10 80 = 0 ∧ ci_high 10 80 = 9 := by
  have ha : f32 (80 / 100) = 13421773 / 16777216 := by
    rw [f32_eval (80 / 100) ((1 / 16777216)) (-24) 13421773 (by norm_num) (by norm_num) (by norm_num)
      (by norm_num) (by norm_num) (by norm_num)]
    norm_num
  have hb : f32 (1 - (13421773 / 16777216)) = 3355443 / 16777216 := by
    rw [f32_dyadic (1 - (13421773 / 16777216)) (3355443) (-24) (by norm_num) (by norm_num) (by norm_num)]
    norm_num
  have hc : f32 ((3355443 / 16777216) / 2) = 3355443 / 33554432 := by
    rw [f32_dyadic ((3355443 / 16777216) / 2) (3355443) (-25) (by norm_num) (by norm_num) (by norm_num)]
    norm_num
  have hs : f32 (((10 : Int) : ℚ)) = 10 := by
    rw [f32_dyadic (((10 : Int) : ℚ)) (5) (1) (by norm_num) (by norm_num) (by norm_num)]
    norm_num
  have hy : f32 ((3355443 / 33554432) * 10) = 16777215 / 16777216 := by
    rw [f32_dyadic ((3355443 / 33554432) * 10) (16777215) (-24) (by norm_num) (by norm_num) (by norm_num)]
    norm_num
  have hl : f32 (0 + (16777215 / 16777216)) = 16777215 / 16777216 := by
    rw [f32_dyadic (0 + (16777215 / 16777216)) (16777215) (-24) (by norm_num) (by norm_num) (by norm_num)]
    norm_num
  have hh : f32 (10 - (16777215 / 16777216)) = 9 := by
    rw [f32_eval (10 - (16777215 / 16777216)) ((1 / 1048576)) (-20) 9437184 (by norm_num) (by norm_num) (by norm_num)
      (by norm_num) (by norm_num) (by norm_num)]
    norm_num
  constructor
  · unfold ci_low
    rw [ha, hb, hc, hs, hy, hl]
    have e : (16777215 / 16777216 : ℚ) = ((16777215 : Int) : ℚ) / ((16777216 : ℕ) : ℚ) := by norm_num
    rw [e, cTrunc_div (16777215) 16777216 (by norm_num)]
    norm_num
  · unfold ci_high
    rw [ha, hb, hc, hs, hy, hh]
    have e : (9 : ℚ) = ((9 : Int) : ℚ) / ((1 : ℕ) : ℚ) := by norm_num
    rw [e, cTrunc_div (9) 1 (by norm_num)]
    norm_num

theorem ranks_1000_100 :
    ci_low 1000 100 = 0 ∧ ci_high 1000 100 = 1000 := by
  have ha : f32 (100 / 100) = 1 := by
    rw [f32_dyadic (100 / 100) (1) (0) (by norm_num) (by norm_num) (by norm_num)]
    norm_num
  have hb : f32 (1 - 1) = 0 := by
    rw [f32_dyadic (1 - 1) (0) (0) (by norm_num) (by norm_num) (by norm_num)]
    norm_num
  have hc : f32 (0 / 2) = 0 := by
    rw [f32_dyadic (0 / 2) (0) (0) (by norm_num) (by norm_num) (by norm_num)]
    norm_num
  have hs : f32 (((1000 : Int) : ℚ)) = 1000 := by
    rw [f32_dyadic (((1000 : Int) : ℚ)) (125) (3) (by norm_num) (by norm_num) (by norm_num)]
    norm_num
  have hy : f32 (0 * 1000) = 0 := by
    rw [f32_dyadic (0 * 1000) (0) (0) (by norm_num) (by norm_num) (by norm_num)]
    norm_num
  have hl : f32 (0 + 0) = 0 := by
    rw [f32_dyadic (0 + 0) (0) (0) (by norm_num) (by norm_num) (by norm_num)]
    norm_num
  have hh : f32 (1000 - 0) = 1000 := by
    rw [f32_dyadic (1000 - 0) (125) (3) (by norm_num) (by norm_num) (by norm_num)]
    norm_num
  constructor
  · unfold ci_low
    rw [ha, hb, hc, hs, hy, hl]
    have e : (0 : ℚ) = ((0 : Int) : ℚ) / ((1 : ℕ) : ℚ) := by norm_num
    rw [e, cTrunc_div (0) 1 (by norm_num)]
    norm_num
  · unfold ci_high
    rw [ha, hb, hc, hs, hy, hh]
    have e : (1000 : ℚ) = ((1000 : Int) : ℚ) / ((1 : ℕ) : ℚ) := by norm_num
    rw [e, cTrunc_div (1000) 1 (by norm_num)]
    norm_num

theorem ranks_1000_0 :
    ci_low 1000 0 = 500 ∧ ci_high 1000 0 = 500 := by
  have ha : f32 (0 / 100) = 0 := by
    rw [f32_dyadic (0 / 100) (0) (0) (by norm_num) (by norm_num) (by norm_num)]
    norm_num
  have hb : f32 (1 - 0) = 1 := by
    rw [f32_dyadic (1 - 0) (1) (0) (by norm_num) (by norm_num) (by norm_num)]
    norm_num
  have hc : f32 (1 / 2) = 1 / 2 :=
    f32_dyadic (1 / 2) (1) (-1) (by norm_num) (by norm_num) (by norm_num)
  have hs : f32 (((1000 : Int) : ℚ)) = 1000 := by
    rw [f32_dyadic (((1000 : Int) : ℚ)) (125) (3) (by norm_num) (by norm_num) (by norm_num)]
    norm_num
  have hy : f32 ((1 / 2) * 1000) = 500 := by
    rw [f32_dyadic ((1 / 2) * 1000) (125) (2) (by norm_num) (by norm_num) (by norm_num)]
    norm_num
  have hl : f32 (0 + 500) = 500 := by
    rw [f32_dyadic (0 + 500) (125) (2) (by norm_num) (by norm_num) (by norm_num)]
    norm_num
  have hh : f32 (1000 - 500) = 500 := by
    rw [f32_dyadic (1000 - 500) (125) (2) (by norm_num) (by norm_num) (by norm_num)]
    norm_num
  constructor
  · unfold ci_low
    rw [ha, hb, hc, hs, hy, hl]
    have e : (500 : ℚ) = ((500 : Int) : ℚ) / ((1 : ℕ) : ℚ) := by norm_num
    rw [e, cTrunc_div (500) 1 (by norm_num)]
    norm_num
  · unfold ci_high
    rw [ha, hb, hc, hs, hy, hh]
    have e : (500 : ℚ) = ((500 : Int) : ℚ) / ((1 : ℕ) : ℚ) := by norm_num
    rw [e, cTrunc_div (500) 1 (by norm_num)]
    norm_num

theorem ranks_1000_below_998 :
    ci_low 1000 (13080985 / 131072) = 1 ∧ ci_high 1000 (13080985 / 131072) = 999 := by
  have ha : f32 (13080985 / 131072 / 100) = 16743661 / 16777216 := by
    rw [f32_eval (13080985 / 131072 / 100) ((1 / 16777216)) (-24) 16743661 (by norm_num) (by norm_num) (by norm_num)
      (by norm_num) (by norm_num) (by norm_num)]
    norm_num
  have hb : f32 (1 - (16743661 / 16777216)) = 33555 / 16777216 := by
    rw [f32_dyadic (1 - (16743661 / 16777216)) (33555) (-24) (by norm_num) (by norm_num) (by norm_num)]
    norm_num
  have hc : f32 ((33555 / 16777216) / 2) = 33555 / 33554432 := by
    rw [f32_dyadic ((33555 / 16777216) / 2) (33555) (-25) (by norm_num) (by norm_num) (by norm_num)]
    norm_num
  have hs : f32 (((1000 : Int) : ℚ)) = 1000 := by
    rw [f32_dyadic (((1000 : Int) : ℚ)) (125) (3) (by norm_num) (by norm_num) (by norm_num)]
    norm_num
  have hy : f32 ((33555 / 33554432) * 1000) = 4194375 / 4194304 := by
    rw [f32_dyadic ((33555 / 33554432) * 1000) (4194375) (-22) (by norm_num) (by norm_num) (by norm_num)]
    norm_num
  have hl : f32 (0 + (4194375 / 4194304)) = 4194375 / 4194304 := by
    rw [f32_dyadic (0 + (4194375 / 4194304)) (4194375) (-22) (by norm_num) (by norm_num) (by norm_num)]
    norm_num
  have hh : f32 (1000 - (4194375 / 4194304)) = 999 := by
    rw [f32_eval (1000 - (4194375 / 4194304)) ((1 / 16384)) (-14) 16367616 (by norm_num) (by norm_num) (by norm_num)
      (by norm_num) (by norm_num) (by norm_num)]
    norm_num
  constructor
  · unfold ci_low
    rw [ha, hb, hc, hs, hy, hl]
    have e : (4194375 / 4194304 : ℚ) = ((4194375 : Int) : ℚ) / ((4194304 : ℕ) : ℚ) := by norm_num
    rw [e, cTrunc_div (4194375) 4194304 (by norm_num)]
    norm_num
  · unfold ci_high
    rw [ha, hb, hc, hs, hy, hh]
    have e : (999 : ℚ) = ((999 : Int) : ℚ) / ((1 : ℕ) : ℚ) := by norm_num
    rw [e, cTrunc_div (999) 1 (by norm_num)]
    norm_num

theorem ranks_1000_float_998 :
    ci_low 1000 (6540493 / 65536) = 0 ∧ ci_high 1000 (6540493 / 65536) = 999 := by
  have ha : f32 (6540493 / 65536 / 100) = 8371831 / 8388608 := by
    rw [f32_eval (6540493 / 65536 / 100) ((1 / 16777216)) (-24) 16743662 (by norm_num) (by norm_num) (by norm_num)
      (by norm_num) (by norm_num) (by norm_num)]
    norm_num
  have hb : f32 (1 - (8371831 / 8388608)) = 16777 / 8388608 := by
    rw [f32_dyadic (1 - (8371831 / 8388608)) (16777) (-23) (by norm_num) (by norm_num) (by norm_num)]
    norm_num
  have hc : f32 ((16777 / 8388608) / 2) = 16777 / 16777216 := by
    rw [f32_dyadic ((16777 / 8388608) / 2) (16777) (-24) (by norm_num) (by norm_num) (by norm_num)]
    norm_num
  have hs : f32 (((1000 : Int) : ℚ)) = 1000 := by
    rw [f32_dyadic (((1000 : Int) : ℚ)) (125) (3) (by norm_num) (by norm_num) (by norm_num)]
    norm_num
  have hy : f32 ((16777 / 16777216) * 1000) = 2097125 / 2097152 := by
    rw [f32_dyadic ((16777 / 16777216) * 1000) (2097125) (-21) (by norm_num) (by norm_num) (by norm_num)]
    norm_num
  have hl : f32 (0 + (2097125 / 2097152)) = 2097125 / 2097152 := by
    rw [f32_dyadic (0 + (2097125 / 2097152)) (2097125) (-21) (by norm_num) (by norm_num) (by norm_num)]
    norm_num
  have hh : f32 (1000 - (2097125 / 2097152)) = 999 := by
    rw [f32_eval (1000 - (2097125 / 2097152)) ((1 / 16384)) (-14) 16367616 (by norm_num) (by norm_num) (by norm_num)
      (by norm_num) (by norm_num) (by norm_num)]
    norm_num
  constructor
  · unfold ci_low
    rw [ha, hb, hc, hs, hy, hl]
    have e : (2097125 / 2097152 : ℚ) = ((2097125 : Int) : ℚ) / ((2097152 : ℕ) : ℚ) := by norm_num
    rw [e, cTrunc_div (2097125) 2097152 (by norm_num)]
    norm_num
  · unfold ci_high
    rw [ha, hb, hc, hs, hy, hh]
    have e : (999 : ℚ) = ((999 : Int) : ℚ) / ((1 : ℕ) : ℚ) := by norm_num
    rw [e, cTrunc_div (999) 1 (by norm_num)]
    norm_num

theorem ranks_200_95 :
    ci_low 200 95 = 5 ∧ ci_high 200 95 = 195 := by
  have ha : f32 (95 / 100) = 15938355 / 16777216 := by
    rw [f32_eval (95 / 100) ((1 / 16777216)) (-24) 15938355 (by norm_num) (by norm_num) (by norm_num)
      (by norm_num) (by norm_num) (by norm_num)]
    norm_num
  have hb : f32 (1 - (15938355 / 16777216)) = 838861 / 16777216 := by
    rw [f32_dyadic (1 - (15938355 / 16777216)) (838861) (-24) (by norm_num) (by norm_num) (by norm_num)]
    norm_num
  have hc : f32 ((838861 / 16777216) / 2) = 838861 / 33554432 := by
    rw [f32_dyadic ((838861 / 16777216) / 2) (838861) (-25) (by norm_num) (by norm_num) (by norm_num)]
    norm_num
  have hs : f32 (((200 : Int) : ℚ)) = 200 := by
    rw [f32_dyadic (((200 : Int) : ℚ)) (25) (3) (by norm_num) (by norm_num) (by norm_num)]
    norm_num
  have hy : f32 ((838861 / 33554432) * 200) = 5242881 / 1048576 := by
    rw [f32_eval_tie ((838861 / 33554432) * 200) ((1 / 2097152)) (-21) 10485762 (by norm_num) (by norm_num) (by norm_num)
      (by norm_num) (by norm_num)]
    norm_num
  have hl : f32 (0 + (5242881 / 1048576)) = 5242881 / 1048576 := by
    rw [f32_dyadic (0 + (5242881 / 1048576)) (5242881) (-20) (by norm_num) (by norm_num) (by norm_num)]
    norm_num
  have hh : f32 (200 - (5242881 / 1048576)) = 195 := by
    rw [f32_eval (200 - (5242881 / 1048576)) ((1 / 65536)) (-16) 12779520 (by norm_num) (by norm_num) (by norm_num)
      (by norm_num) (by norm_num) (by norm_num)]
    norm_num
  constructor
  · unfold ci_low
    rw [ha, hb, hc, hs, hy, hl]
    have e : (5242881 / 1048576 : ℚ) = ((5242881 : Int) : ℚ) / ((1048576 : ℕ) : ℚ) := by norm_num
    rw [e, cTrunc_div (5242881) 1048576 (by norm_num)]
    norm_num
  · unfold ci_high
    rw [ha, hb, hc, hs, hy, hh]
    have e : (195 : ℚ) = ((195 : Int) : ℚ) / ((1 : ℕ) : ℚ) := by norm_num
    rw [e, cTrunc_div (195) 1 (by norm_num)]
    norm_num

theorem ranks_1000_95 :
    ci_low 1000 95 = 25 ∧ ci_high 1000 95 = 975 := by
  have ha : f32 (95 / 100) = 15938355 / 16777216 := by
    rw [f32_eval (95 / 100) ((1 / 16777216)) (-24) 15938355 (by norm_num) (by norm_num) (by norm_num)
      (by norm_num) (by norm_num) (by norm_num)]
    norm_num
  have hb : f32 (1 - (15938355 / 16777216)) = 838861 / 16777216 := by
    rw [f32_dyadic (1 - (15938355 / 16777216)) (838861) (-24) (by norm_num) (by norm_num) (by norm_num)]
    norm_num
  have hc : f32 ((838861 / 16777216) / 2) = 838861 / 33554432 := by
    rw [f32_dyadic ((838861 / 16777216) / 2) (838861) (-25) (by norm_num) (by norm_num) (by norm_num)]
    norm_num
  have hs : f32 (((1000 : Int) : ℚ)) = 1000 := by
    rw [f32_dyadic (((1000 : Int) : ℚ)) (125) (3) (by norm_num) (by norm_num) (by norm_num)]
    norm_num
  have hy : f32 ((838861 / 33554432) * 1000) = 13107203 / 524288 := by
    rw [f32_eval ((838861 / 33554432) * 1000) ((1 / 524288)) (-19) 13107203 (by norm_num) (by norm_num) (by norm_num)
      (by norm_num) (by norm_num) (by norm_num)]
    norm_num
  have hl : f32 (0 + (13107203 / 524288)) = 13107203 / 524288 := by
    rw [f32_dyadic (0 + (13107203 / 524288)) (13107203) (-19) (by norm_num) (by norm_num) (by norm_num)]
    norm_num
  have hh : f32 (1000 - (13107203 / 524288)) = 975 := by
    rw [f32_eval (1000 - (13107203 / 524288)) ((1 / 16384)) (-14) 15974400 (by norm_num) (by norm_num) (by norm_num)
      (by norm_num) (by norm_num) (by norm_num)]
    norm_num
  constructor
  · unfold ci_low
    rw [ha, hb, hc, hs, hy, hl]
    have e : (13107203 / 524288 : ℚ) = ((13107203 : Int) : ℚ) / ((524288 : ℕ) : ℚ) := by norm_num
    rw [e, cTrunc_div (13107203) 524288 (by norm_num)]
    norm_num
  · unfold ci_high
    rw [ha, hb, hc, hs, hy, hh]
    have e : (975 : ℚ) = ((975 : Int) : ℚ) / ((1 : ℕ) : ℚ) := by norm_num
    rw [e, cTrunc_div (975) 1 (by norm_num)]
    norm_num

theorem ranks_1000_neg50 :
    ci_low 1000 (-50) = 750 ∧ ci_high 1000 (-50) = 250 := by
  have ha : f32 ((-50) / 100) = (-1 / 2) := by
    rw [f32_dyadic ((-50) / 100) (-1) (-1) (by norm_num) (by norm_num) (by norm_num)]
    norm_num
  have hb : f32 (1 - (-1 / 2)) = 3 / 2 := by
    rw [f32_dyadic (1 - (-1 / 2)) (3) (-1) (by norm_num) (by norm_num) (by norm_num)]
    norm_num
  have hc : f32 ((3 / 2) / 2) = 3 / 4 := by
    rw [f32_dyadic ((3 / 2) / 2) (3) (-2) (by norm_num) (by norm_num) (by norm_num)]
    norm_num
  have hs : f32 (((1000 : Int) : ℚ)) = 1000 := by
    rw [f32_dyadic (((1000 : Int) : ℚ)) (125) (3) (by norm_num) (by norm_num) (by norm_num)]
    norm_num
  have hy : f32 ((3 / 4) * 1000) = 750 := by
    rw [f32_dyadic ((3 / 4) * 1000) (375) (1) (by norm_num) (by norm_num) (by norm_num)]
    norm_num
  have hl : f32 (0 + 750) = 750 := by
    rw [f32_dyadic (0 + 750) (375) (1) (by norm_num) (by norm_num) (by norm_num)]
    norm_num
  have hh : f32 (1000 - 750) = 250 := by
    rw [f32_dyadic (1000 - 750) (125) (1) (by norm_num) (by norm_num) (by norm_num)]
    norm_num
  constructor
  · unfold ci_low
    rw [ha, hb, hc, hs, hy, hl]
    have e : (750 : ℚ) = ((750 : Int) : ℚ) / ((1 : ℕ) : ℚ) := by norm_num
    rw [e, cTrunc_div (750) 1 (by norm_num)]
    norm_num
  · unfold ci_high
    rw [ha, hb, hc, hs, hy, hh]
    have e : (250 : ℚ) = ((250 : Int) : ℚ) / ((1 : ℕ) : ℚ) := by norm_num
    rw [e, cTrunc_div (250) 1 (by norm_num)]
    norm_num

theorem ranks_4_neg50 :
    ci_low 4 (-50) = 3 ∧ ci_high 4 (-50) = 1 := by
  have ha : f32 ((-50) / 100) = (-1 / 2) := by
    rw [f32_dyadic ((-50) / 100) (-1) (-1) (by norm_num) (by norm_num) (by norm_num)]
    norm_num
  have hb : f32 (1 - (-1 / 2)) = 3 / 2 := by
    rw [f32_dyadic (1 - (-1 / 2)) (3) (-1) (by norm_num) (by norm_num) (by norm_num)]
    norm_num
  have hc : f32 ((3 / 2) / 2) = 3 / 4 := by
    rw [f32_dyadic ((3 / 2) / 2) (3) (-2) (by norm_num) (by norm_num) (by norm_num)]
    norm_num
  have hs : f32 (((4 : Int) : ℚ)) = 4 := by
    rw [f32_dyadic (((4 : Int) : ℚ)) (1) (2) (by norm_num) (by norm_num) (by norm_num)]
    norm_num
  have hy : f32 ((3 / 4) * 4) = 3 := by
    rw [f32_dyadic ((3 / 4) * 4) (3) (0) (by norm_num) (by norm_num) (by norm_num)]
    norm_num
  have hl : f32 (0 + 3) = 3 := by
    rw [f32_dyadic (0 + 3) (3) (0) (by norm_num) (by norm_num) (by norm_num)]
    norm_num
  have hh : f32 (4 - 3) = 1 := by
    rw [f32_dyadic (4 - 3) (1) (0) (by norm_num) (by norm_num) (by norm_num)]
    norm_num
  constructor
  · unfold ci_low
    rw [ha, hb, hc, hs, hy, hl]
    have e : (3 : ℚ) = ((3 : Int) : ℚ) / ((1 : ℕ) : ℚ) := by norm_num
    rw [e, cTrunc_div (3) 1 (by norm_num)]
    norm_num
  · unfold ci_high
    rw [ha, hb, hc, hs, hy, hh]
    have e : (1 : ℚ) = ((1 : Int) : ℚ) / ((1 : ℕ) : ℚ) := by norm_num
    rw [e, cTrunc_div (1) 1 (by norm_num)]
    norm_num

theorem ranks_1000_875 :
    ci_low 1000 (175 / 2) = 62 ∧ ci_high 1000 (175 / 2) = 937 := by
  have ha : f32 (175 / 2 / 100) = 7 / 8 := by
    rw [f32_dyadic (175 / 2 / 100) (7) (-3) (by norm_num) (by norm_num) (by norm_num)]
    norm_num
  have hb : f32 (1 - (7 / 8)) = 1 / 8 := by
    rw [f32_dyadic (1 - (7 / 8)) (1) (-3) (by norm_num) (by norm_num) (by norm_num)]
    norm_num
  have hc : f32 ((1 / 8) / 2) = 1 / 16 := by
    rw [f32_dyadic ((1 / 8) / 2) (1) (-4) (by norm_num) (by norm_num) (by norm_num)]
    norm_num
  have hs : f32 (((1000 : Int) : ℚ)) = 1000 := by
    rw [f32_dyadic (((1000 : Int) : ℚ)) (125) (3) (by norm_num) (by norm_num) (by norm_num)]
    norm_num
  have hy : f32 ((1 / 16) * 1000) = 125 / 2 := by
    rw [f32_dyadic ((1 / 16) * 1000) (125) (-1) (by norm_num) (by norm_num) (by norm_num)]
    norm_num
  have hl : f32 (0 + (125 / 2)) = 125 / 2 := by
    rw [f32_dyadic (0 + (125 / 2)) (125) (-1) (by norm_num) (by norm_num) (by norm_num)]
    norm_num
  have hh : f32 (1000 - (125 / 2)) = 1875 / 2 := by
    rw [f32_dyadic (1000 - (125 / 2)) (1875) (-1) (by norm_num) (by norm_num) (by norm_num)]
    norm_num
  constructor
  · unfold ci_low
    rw [ha, hb, hc, hs, hy, hl]
    have e : (125 / 2 : ℚ) = ((125 : Int) : ℚ) / ((2 : ℕ) : ℚ) := by norm_num
    rw [e, cTrunc_div (125) 2 (by norm_num)]
    norm_num
  · unfold ci_high
    rw [ha, hb, hc, hs, hy, hh]
    have e : (1875 / 2 : ℚ) = ((1875 : Int) : ℚ) / ((2 : ℕ) : ℚ) := by norm_num
    rw [e, cTrunc_div (1875) 2 (by norm_num)]
    norm_num

theorem atofFloat_998 : atofFloat (998 / 10) = 6540493 / 65536 := by
  have hd : f64 (998 / 10) = 7022800668930867 / 70368744177664 := by
    rw [f64_eval (998 / 10) ((1 / 70368744177664)) (-46) 7022800668930867 (by norm_num) (by norm_num) (by norm_num)
      (by norm_num) (by norm_num) (by norm_num)]
    norm_num
  have hf : f32 ((7022800668930867 / 70368744177664)) = 6540493 / 65536 := by
    rw [f32_eval ((7022800668930867 / 70368744177664)) ((1 / 131072)) (-17) 13080986 (by norm_num) (by norm_num) (by norm_num)
      (by norm_num) (by norm_num) (by norm_num)]
    norm_num
  unfold atofFloat
  rw [hd, hf]

theorem atofFloat_80 : atofFloat 80 = 80 := by
  have hd : f64 80 = 80 := f64_dyadic 80 5 4 (by norm_num) (by norm_num) (by norm_num)
  have hf : f32 80 = 80 := f32_dyadic 80 5 4 (by norm_num) (by norm_num) (by norm_num)
  unfold atofFloat
  rw [hd, hf]

/-- Evaluation for C10: with 1000 trials and the confidence level 80 (the
argument `80` is the `float` 80) the formula of the claim gives
`floor(1000 * 0.2 / 2) = 100`, but the program computes in `float`: `80/100`
rounds to `13421773 / 2^24`, above 0.8, the product with 1000 rounds to
`13107199 / 2^17`, below 100, and the truncation gives `ci_low = 99`;
`ci_high` is 900. With 10 trials the same level gives 0 and 9, where the claim
says 1 and 9. -/
theorem ranks_level_80 :
    atofFloat 80 = 80
      ∧ (ci_low 1000 80 = 99 ∧ ci_high 1000 80 = 900)
      ∧ ⌊((1000 : Int) : ℚ) * (1 - (80 : ℚ) / 100) / 2⌋ = 100
      ∧ (ci_low 10 80 = 0 ∧ ci_high 10 80 = 9)
      ∧ ⌊((10 : Int) : ℚ) * (1 - (80 : ℚ) / 100) / 2⌋ = 1 := by
  refine ⟨atofFloat_80, ranks_1000_80, ?_, ranks_10_80, ?_⟩
  · have e : ((1000 : Int) : ℚ) * (1 - (80 : ℚ) / 100) / 2 = ((100 : Int) : ℚ) := by norm_num
    rw [e, Int.floor_intCast]
  · have e : ((10 : Int) : ℚ) * (1 - (80 : ℚ) / 100) / 2 = ((1 : Int) : ℚ) := by norm_num
    rw [e, Int.floor_intCast]

/-! ## Continuity and monotonicity of the automatic window -/

/-- C19: in automatic mode the windows of `dc = 199` and `dc = 200` differ by
at most one day, and for every `dc ≥ 0` the windows of `dc` and `dc + 1` on the
same query day differ by at most one day. -/
theorem holdover_auto_step_le_one (holdover_time dc today : Int) (hauto : holdover_time < 0)
    (hdc : 0 ≤ dc) :
    |holdover holdover_time (dc + 1) today - holdover holdover_time dc today| ≤ 1
      ∧ |holdover holdover_time 200 today - holdover holdover_time 199 today| ≤ 1 := by
  unfold holdover
  rw [holdoverRaw_int, holdoverRaw_int, holdoverRaw_int, holdoverRaw_int]
  simp only [if_pos hauto]
  constructor
  · rw [abs_le]
    by_cases h1 : dc + 1 < 200
    · have h2 : dc < 200 := by omega
      have h3 : 0 ≤ 3 * dc + 900 := by omega
      have h4 : 0 ≤ 3 * (dc + 1) + 900 := by omega
      simp only [if_pos h1, if_pos h2, if_pos h3, if_pos h4]
      omega
    · by_cases h2 : dc < 200
      · have h3 : 0 ≤ 3 * dc + 900 := by omega
        simp only [if_neg h1, if_pos h2, if_pos h3]
        omega
      · simp only [if_neg h1, if_neg h2]
        omega
  · rw [abs_le]
    norm_num

/-- The hypotheses of C19 hold in automatic mode at `dc = 199`. -/
theorem holdover_auto_step_le_one_witness :
    (-1 : Int) < 0 ∧ (0 : Int) ≤ 199 ∧
      (|holdover (-1) (199 + 1) 273 - holdover (-1) 199 273| ≤ 1
        ∧ |holdover (-1) 200 273 - holdover (-1) 199 273| ≤ 1) :=
  ⟨by decide, by decide, holdover_auto_step_le_one (-1) 199 273 (by decide) (by decide)⟩

theorem cTrunc_mono {p q : ℚ} (h : p ≤ q) : cTrunc p ≤ cTrunc q := by
  unfold cTrunc
  by_cases hp : 0 ≤ p
  · have hq : 0 ≤ q := le_trans hp h
    rw [if_pos hp, if_pos hq]
    exact Int.floor_mono h
  · by_cases hq : 0 ≤ q
    · rw [if_neg hp, if_pos hq]
      have h1 : ⌈p⌉ ≤ 0 := by
        rw [Int.ceil_le]; push_cast; exact le_of_lt (not_le.mp hp)
      have h2 : 0 ≤ ⌊q⌋ := by
        rw [Int.le_floor]; push_cast; exact hq
      exact le_trans h1 h2
    · rw [if_neg hp, if_neg hq]
      exact Int.ceil_mono h

theorem holdoverRaw_auto_mono (ht dc1 dc2 : Int) (hauto : ht < 0) (h : dc1 ≤ dc2) :
    holdoverRaw ht dc1 ≤ holdoverRaw ht dc2 := by
  unfold holdoverRaw
  rw [if_pos hauto, if_pos hauto]
  apply min_le_min _ (le_refl _)
  have hq : (dc1 : ℚ) ≤ (dc2 : ℚ) := by exact_mod_cast h
  by_cases h1 : dc1 < 200
  · by_cases h2 : dc2 < 200
    · rw [if_pos h1, if_pos h2]
      apply cTrunc_mono
      linarith
    · rw [if_pos h1, if_neg h2]
      apply cTrunc_mono
      have h1q : (dc1 : ℚ) ≤ 199 := by exact_mod_cast (by omega : dc1 ≤ 199)
      have h2q : (200 : ℚ) ≤ (dc2 : ℚ) := by exact_mod_cast (not_lt.mp h2)
      linarith
  · have h2 : ¬ dc2 < 200 := by omega
    rw [if_neg h1, if_neg h2]
    apply cTrunc_mono
    linarith

/-- C20: in automatic mode the window is monotone non-decreasing in the drought
code: for all integers `dc1 ≤ dc2` and the same query day, the window of `dc1`
is at most the window of `dc2`, also across the change of formula at 200
(199 and 200 both give 7 before the clamp). -/
theorem holdover_auto_mono (holdover_time dc1 dc2 today : Int) (hauto : holdover_time < 0)
    (h : dc1 ≤ dc2) :
    holdover holdover_time dc1 today ≤ holdover holdover_time dc2 today
      ∧ holdoverRaw holdover_time 199 = 7 ∧ holdoverRaw holdover_time 200 = 7 := by
  refine ⟨?_, ?_, ?_⟩
  · unfold holdover
    exact min_le_min (holdoverRaw_auto_mono holdover_time dc1 dc2 hauto h) (le_refl _)
  · rw [holdoverRaw_int, if_pos hauto]; decide
  · rw [holdoverRaw_int, if_pos hauto]; decide

/-- The hypotheses of C20 hold in automatic mode for `dc1 = 150`, `dc2 = 450`. -/
theorem holdover_auto_mono_witness :
    (-1 : Int) < 0 ∧ (150 : Int) ≤ 450 ∧
      (holdover (-1) 150 273 ≤ holdover (-1) 450 273
        ∧ holdoverRaw (-1) 199 = 7 ∧ holdoverRaw (-1) 200 = 7) :=
  ⟨by decide, by decide, holdover_auto_mono (-1) 150 450 273 (by decide) (by decide)⟩

/-! ## The exchange sort -/

theorem exchange_other (a : Nat → Int) (i j k : Nat) (hi : k ≠ i) (hj : k ≠ j) :
    exchange a i j k = a k := by
  unfold exchange
  split_ifs
  · rw [Function.update_noteq hj, Function.update_noteq hi]
  · rfl

theorem exchange_left (a : Nat → Int) (i j : Nat) :
    exchange a i j i = min (a i) (a j) := by
  unfold exchange
  by_cases h : a j < a i
  · rw [if_pos h, min_eq_right (le_of_lt h)]
    by_cases hij : i = j
    · subst hij; exact absurd h (lt_irrefl _)
    · rw [Function.update_noteq hij, Function.update_same]
  · rw [if_neg h, min_eq_left (not_lt.mp h)]

theorem exchange_right (a : Nat → Int) (i j : Nat) :
    exchange a i j j = max (a i) (a j) := by
  unfold exchange
  by_cases h : a j < a i
  · rw [if_pos h, max_eq_left (le_of_lt h), Function.update_same]
  · rw [if_neg h, max_eq_right (not_lt.mp h)]

/-- Every value of the exchanged array at `i`, `j` or elsewhere is a value of
the array before, at `i`, at `j` or at the same place. -/
theorem exchange_value (a : Nat → Int) (i j k : Nat) :
    exchange a i j k = a k ∨ (k = i ∧ exchange a i j k = a j)
      ∨ (k = j ∧ exchange a i j k = a i) := by
  by_cases hi : k = i
  · subst hi
    rw [exchange_left]
    rcases min_choice (a k) (a j) with h | h
    · left; exact h
    · right; left; exact ⟨rfl, h⟩
  · by_cases hj : k = j
    · subst hj
      rw [exchange_right]
      rcases max_choice (a i) (a k) with h | h
      · right; right; exact ⟨rfl, h⟩
      · left; exact h
    · left; exact exchange_other a i j k hi hj

theorem exchange_eq_comp_swap (a : Nat → Int) (i j : Nat) (h : a j < a i) :
    exchange a i j = a ∘ (Equiv.swap i j) := by
  funext k
  unfold exchange
  rw [if_pos h]
  simp only [Function.comp]
  by_cases hj : k = j
  · subst hj; simp
  · by_cases hi : k = i
    · subst hi; simp [Function.update_noteq hj]
    · rw [Function.update_noteq hj, Function.update_noteq hi, Equiv.swap_apply_of_ne_of_ne hi hj]

theorem firstN_comp_perm (n : Nat) (a : Nat → Int) (σ : Equiv.Perm Nat)
    (hσ : ∀ y, σ y < n ↔ y < n) :
    List.Perm (firstN n (a ∘ σ)) (firstN n a) := by
  unfold firstN
  rw [← List.map_map]
  apply List.Perm.map
  rw [List.perm_ext_iff_of_nodup ((List.nodup_range n).map σ.injective) (List.nodup_range n)]
  intro x
  simp only [List.mem_map, List.mem_range]
  constructor
  · rintro ⟨y, hy, rfl⟩
    exact (hσ y).mpr hy
  · intro hx
    refine ⟨σ.symm x, ?_, by simp⟩
    rw [← hσ]; simpa using hx

theorem exchange_perm (n : Nat) (a : Nat → Int) (i j : Nat) (hi : i < n) (hj : j < n) :
    List.Perm (firstN n (exchange a i j)) (firstN n a) := by
  by_cases h : a j < a i
  · rw [exchange_eq_comp_swap a i j h]
    apply firstN_comp_perm
    intro y
    by_cases hyi : y = i
    · subst hyi; simp [hj, hi]
    · by_cases hyj : y = j
      · subst hyj; simp [hj, hi]
      · rw [Equiv.swap_apply_of_ne_of_ne hyi hyj]
  · unfold exchange
    rw [if_neg h]

/-- The inner loop after `m` passes (`j = i, ..., i+m-1`), inside the first `n`
cells: cells before `i` and from `i+m` on are untouched, cell `i` holds a
minimum of the cells visited, and the values of the cells `i..n-1` are values
that were there before. -/
theorem inner_loop_inv (n i : Nat) (a : Nat → Int) (m : Nat) (hm : i + m ≤ n) :
    (∀ k, k < i → (List.range' i m).foldl (fun c j => exchange c i j) a k = a k)
      ∧ (∀ k, i + m ≤ k → (List.range' i m).foldl (fun c j => exchange c i j) a k = a k)
      ∧ (∀ k, i ≤ k → k < i + m →
          (List.range' i m).foldl (fun c j => exchange c i j) a i
            ≤ (List.range' i m).foldl (fun c j => exchange c i j) a k)
      ∧ (∀ k, i ≤ k → k < n → ∃ k2, i ≤ k2 ∧ k2 < n ∧
          (List.range' i m).foldl (fun c j => exchange c i j) a k = a k2)
      ∧ List.Perm (firstN n ((List.range' i m).foldl (fun c j => exchange c i j) a))
          (firstN n a) := by
  induction m with
  | zero =>
    simp only [List.range'_zero, List.foldl_nil]
    refine ⟨fun _ _ => trivial, fun _ _ => trivial, ?_, ?_, List.Perm.refl _⟩
    · intro k h1 h2; omega
    · intro k h1 h2; exact ⟨k, h1, h2, rfl⟩
  | succ m ih =>
    obtain ⟨i1, i2, i3, i4, i5⟩ := ih (by omega)
    rw [List.range'_concat, List.foldl_append]
    simp only [List.foldl_cons, List.foldl_nil, one_mul]
    generalize hb : (List.range' i m).foldl (fun c j => exchange c i j) a = b at *
    refine ⟨?_, ?_, ?_, ?_, ?_⟩
    · intro k hk
      rw [exchange_other b i (i + m) k (by omega) (by omega)]
      exact i1 k hk
    · intro k hk
      rw [exchange_other b i (i + m) k (by omega) (by omega)]
      exact i2 k (by omega)
    · intro k h1 h2
      rw [exchange_left]
      by_cases hki : k = i
      · subst hki; rw [exchange_left]
      · by_cases hkj : k = i + m
        · subst hkj
          rw [exchange_right]
          exact le_trans (min_le_left _ _) (le_max_left _ _)
        · rw [exchange_other b i (i + m) k hki hkj]
          exact le_trans (min_le_left _ _) (i3 k h1 (by omega))
    · intro k h1 h2
      rcases exchange_value b i (i + m) k with h | ⟨_, h⟩ | ⟨_, h⟩
      · rw [h]; exact i4 k h1 h2
      · rw [h]; exact i4 (i + m) (by omega) (by omega)
      · rw [h]; exact i4 i (le_refl _) (by omega)
    · exact (exchange_perm n b i (i + m) (by omega) (by omega)).trans i5

/-- The outer loop after `t` passes (`i = 0, ..., t-1`): the first `t` cells
are in ascending order and none of them exceeds a later cell. -/
theorem outer_loop_inv (n : Nat) (a : Nat → Int) (t : Nat) (ht : t ≤ n) :
    (∀ p q, p ≤ q → q < t →
        (List.range t).foldl
            (fun b i => (List.range' i (n - i)).foldl (fun c j => exchange c i j) b) a p
          ≤ (List.range t).foldl
            (fun b i => (List.range' i (n - i)).foldl (fun c j => exchange c i j) b) a q)
      ∧ (∀ p q, p < t → t ≤ q → q < n →
        (List.range t).foldl
            (fun b i => (List.range' i (n - i)).foldl (fun c j => exchange c i j) b) a p
          ≤ (List.range t).foldl
            (fun b i => (List.range' i (n - i)).foldl (fun c j => exchange c i j) b) a q)
      ∧ (∀ k, n ≤ k →
        (List.range t).foldl
            (fun b i => (List.range' i (n - i)).foldl (fun c j => exchange c i j) b) a k
          = a k)
      ∧ List.Perm
          (firstN n ((List.range t).foldl
            (fun b i => (List.range' i (n - i)).foldl (fun c j => exchange c i j) b) a))
          (firstN n a) := by
  induction t with
  | zero =>
    simp only [List.range_zero, List.foldl_nil]
    refine ⟨?_, ?_, fun _ _ => trivial, List.Perm.refl _⟩
    · intro p q _ h; omega
    · intro p q h; omega
  | succ t ih =>
    obtain ⟨o1, o2, o3, o4⟩ := ih (by omega)
    rw [List.range_succ, List.foldl_append]
    simp only [List.foldl_cons, List.foldl_nil]
    generalize hb : (List.range t).foldl
      (fun b i => (List.range' i (n - i)).foldl (fun c j => exchange c i j) b) a = b at *
    obtain ⟨i1, i2, i3, i4, i5⟩ := inner_loop_inv n t b (n - t) (by omega)
    have hnt : t + (n - t) = n := by omega
    rw [hnt] at i2 i3
    refine ⟨?_, ?_, ?_, i5.trans o4⟩
    · intro p q hpq hq
      by_cases hqt : q < t
      · rw [i1 p (by omega), i1 q hqt]
        exact o1 p q hpq hqt
      · have hqe : q = t := by omega
        subst hqe
        by_cases hpt : p < q
        · obtain ⟨k2, hk1, hk2, hk3⟩ := i4 q (le_refl _) (by omega)
          rw [i1 p hpt, hk3]
          exact o2 p k2 hpt hk1 hk2
        · have : p = q := by omega
          subst this
          exact le_refl _
    · intro p q hp hq hqn
      by_cases hpt : p < t
      · obtain ⟨k2, hk1, hk2, hk3⟩ := i4 q (by omega) hqn
        rw [i1 p hpt, hk3]
        exact o2 p k2 hpt hk1 hk2
      · have hpe : p = t := by omega
        subst hpe
        exact i3 q (by omega) hqn
    · intro k hk
      rw [i2 k hk]
      exact o3 k hk

/-- The exchange sort leaves the first `sims` cells in ascending order, as a
permutation of what they held, and the other cells as they were. -/
theorem exchangeSort_spec (sims : Nat) (a : Nat → Int) :
    Ascending sims (exchangeSort sims a)
      ∧ List.Perm (firstN sims (exchangeSort sims a)) (firstN sims a)
      ∧ ∀ k, sims ≤ k → exchangeSort sims a k = a k := by
  obtain ⟨o1, _, o3, o4⟩ := outer_loop_inv sims a sims (le_refl _)
  exact ⟨o1, o4, o3⟩

/-! ## The sorting pass sorts every array on its own -/

theorem foldl_proj {σ τ ι : Type} (π : σ → τ) (step : σ → ι → σ) (f : τ → ι → τ)
    (h : ∀ s x, π (step s x) = f (π s) x) (l : List ι) (s : σ) :
    π (l.foldl step s) = l.foldl f (π s) := by
  induction l generalizing s with
  | nil => rfl
  | cons x l ih => rw [List.foldl_cons, List.foldl_cons, ih, h]

theorem foldl_keep {τ ι : Type} (l : List ι) (t : τ) : l.foldl (fun r _ => r) t = t := by
  induction l with
  | nil => rfl
  | cons x l ih => rw [List.foldl_cons, ih]

/-- Two nested loops whose body acts on the component `π` as one conditional
exchange act on that component as the exchange sort. -/
theorem nested_proj_sort {σ : Type} (π : σ → Nat → Int) (step : σ → Nat → Nat → σ)
    (h : ∀ s i j, π (step s i j) = exchange (π s) i j) (n : Nat) (s : σ) :
    π ((List.range n).foldl
        (fun c i => (List.range' i (n - i)).foldl (fun e j => step e i j) c) s)
      = exchangeSort n (π s) := by
  unfold exchangeSort
  apply foldl_proj π _ _ _ (List.range n) s
  intro c i
  exact foldl_proj π (fun e j => step e i j) (fun r j => exchange r i j)
    (fun e j => h e i j) _ c

/-- Two nested loops whose body leaves the component `π` alone leave it alone. -/
theorem nested_proj_keep {σ τ : Type} (π : σ → τ) (step : σ → Nat → Nat → σ)
    (h : ∀ s i j, π (step s i j) = π s) (n : Nat) (s : σ) :
    π ((List.range n).foldl
        (fun c i => (List.range' i (n - i)).foldl (fun e j => step e i j) c) s)
      = π s := by
  have hin : ∀ c i, π ((List.range' i (n - i)).foldl (fun e j => step e i j) c) = π c := by
    intro c i
    rw [foldl_proj π (fun e j => step e i j) (fun r _ => r) (fun e j => h e i j) _ c,
      foldl_keep]
  rw [foldl_proj π _ (fun r _ => r) hin (List.range n) s, foldl_keep]

theorem exchange2_row (a : Nat → Nat → Int) (k i j : Nat) :
    exchange2 a k i j k = exchange (a k) i j := by
  funext s
  unfold exchange2 exchange
  by_cases h : a k j < a k i
  · rw [if_pos h, if_pos h, set2_apply]
    by_cases hj : s = j
    · subst hj; simp
    · rw [Function.update_noteq hj, set2_apply]
      by_cases hi : s = i
      · subst hi; simp [hj]
      · rw [Function.update_noteq hi]; simp [hj, hi]
  · rw [if_neg h, if_neg h]

theorem exchange2_other_row (a : Nat → Nat → Int) (k i j k2 : Nat) (hk : k2 ≠ k) :
    exchange2 a k i j k2 = a k2 := by
  funext s
  unfold exchange2
  split_ifs
  · rw [set2_apply, set2_apply]; simp [hk]
  · rfl

theorem sortPROV_arrays (sims : Nat) (a : Acc) :
    (sortPROV sims a).totarrPROV = exchangeSort sims a.totarrPROV
      ∧ (sortPROV sims a).totholdPROV = exchangeSort sims a.totholdPROV
      ∧ (sortPROV sims a).nignsPROV = exchangeSort sims a.nignsPROV
      ∧ (sortPROV sims a).totarr = a.totarr
      ∧ (sortPROV sims a).tothold = a.tothold
      ∧ (sortPROV sims a).nigns = a.nigns := by
  unfold sortPROV
  refine ⟨?_, ?_, ?_, ?_, ?_, ?_⟩
  · exact nested_proj_sort (fun s : Acc => s.totarrPROV) sortStepPROV (fun _ _ _ => rfl) sims a
  · exact nested_proj_sort (fun s : Acc => s.totholdPROV) sortStepPROV (fun _ _ _ => rfl) sims a
  · exact nested_proj_sort (fun s : Acc => s.nignsPROV) sortStepPROV (fun _ _ _ => rfl) sims a
  · exact nested_proj_keep (fun s : Acc => s.totarr) sortStepPROV (fun _ _ _ => rfl) sims a
  · exact nested_proj_keep (fun s : Acc => s.tothold) sortStepPROV (fun _ _ _ => rfl) sims a
  · exact nested_proj_keep (fun s : Acc => s.nigns) sortStepPROV (fun _ _ _ => rfl) sims a

/-- The pass of subregion `k` sorts row `k` of the three arrays and leaves the
other rows alone. -/
theorem sortSub_pass (sims k : Nat) (a : Acc) :
    (((List.range sims).foldl
        (fun c i => (List.range' i (sims - i)).foldl (fun e j => sortStepSub e k i j) c)
        a).totarr k = exchangeSort sims (a.totarr k)
      ∧ ((List.range sims).foldl
        (fun c i => (List.range' i (sims - i)).foldl (fun e j => sortStepSub e k i j) c)
        a).tothold k = exchangeSort sims (a.tothold k)
      ∧ ((List.range sims).foldl
        (fun c i => (List.range' i (sims - i)).foldl (fun e j => sortStepSub e k i j) c)
        a).nigns k = exchangeSort sims (a.nigns k))
      ∧ ∀ k2, k2 ≠ k →
        ((List.range sims).foldl
          (fun c i => (List.range' i (sims - i)).foldl (fun e j => sortStepSub e k i j) c)
          a).totarr k2 = a.totarr k2
        ∧ ((List.range sims).foldl
          (fun c i => (List.range' i (sims - i)).foldl (fun e j => sortStepSub e k i j) c)
          a).tothold k2 = a.tothold k2
        ∧ ((List.range sims).foldl
          (fun c i => (List.range' i (sims - i)).foldl (fun e j => sortStepSub e k i j) c)
          a).nigns k2 = a.nigns k2 := by
  refine ⟨⟨?_, ?_, ?_⟩, fun k2 hk => ⟨?_, ?_, ?_⟩⟩
  · exact nested_proj_sort (fun s : Acc => s.totarr k) (fun e i j => sortStepSub e k i j)
      (fun s i j => exchange2_row s.totarr k i j) sims a
  · exact nested_proj_sort (fun s : Acc => s.tothold k) (fun e i j => sortStepSub e k i j)
      (fun s i j => exchange2_row s.tothold k i j) sims a
  · exact nested_proj_sort (fun s : Acc => s.nigns k) (fun e i j => sortStepSub e k i j)
      (fun s i j => exchange2_row s.nigns k i j) sims a
  · exact nested_proj_keep (fun s : Acc => s.totarr k2) (fun e i j => sortStepSub e k i j)
      (fun s i j => exchange2_other_row s.totarr k i j k2 hk) sims a
  · exact nested_proj_keep (fun s : Acc => s.tothold k2) (fun e i j => sortStepSub e k i j)
      (fun s i j => exchange2_other_row s.tothold k i j k2 hk) sims a
  · exact nested_proj_keep (fun s : Acc => s.nigns k2) (fun e i j => sortStepSub e k i j)
      (fun s i j => exchange2_other_row s.nigns k i j k2 hk) sims a

theorem sortSub_PROV (sims : Nat) (a : Acc) :
    (sortSub sims a).totarrPROV = a.totarrPROV
      ∧ (sortSub sims a).totholdPROV = a.totholdPROV
      ∧ (sortSub sims a).nignsPROV = a.nignsPROV := by
  have h : ∀ (π : Acc → Nat → Int), (∀ s k i j, π (sortStepSub s k i j) = π s) →
      π (sortSub sims a) = π a := by
    intro π hπ
    unfold sortSub
    rw [foldl_proj π _ (fun r _ => r)
      (fun c k => nested_proj_keep π (fun e i j => sortStepSub e k i j)
        (fun s i j => hπ s k i j) sims c) (List.range 3) a, foldl_keep]
  exact ⟨h (fun s : Acc => s.totarrPROV) (fun _ _ _ _ => rfl),
    h (fun s : Acc => s.totholdPROV) (fun _ _ _ _ => rfl),
    h (fun s : Acc => s.nignsPROV) (fun _ _ _ _ => rfl)⟩

theorem sortSub_rows (sims : Nat) (a : Acc) (k : Nat) (hk : k < 3) :
    (sortSub sims a).totarr k = exchangeSort sims (a.totarr k)
      ∧ (sortSub sims a).tothold k = exchangeSort sims (a.tothold k)
      ∧ (sortSub sims a).nigns k = exchangeSort sims (a.nigns k) := by
  have hr : List.range 3 = [0, 1, 2] := by decide
  unfold sortSub
  rw [hr]
  simp only [List.foldl_cons, List.foldl_nil]
  generalize h0 : (List.range sims).foldl
    (fun c i => (List.range' i (sims - i)).foldl (fun e j => sortStepSub e 0 i j) c) a = a0
  generalize h1 : (List.range sims).foldl
    (fun c i => (List.range' i (sims - i)).foldl (fun e j => sortStepSub e 1 i j) c) a0 = a1
  generalize h2 : (List.range sims).foldl
    (fun c i => (List.range' i (sims - i)).foldl (fun e j => sortStepSub e 2 i j) c) a1 = a2
  obtain ⟨⟨p0, q0, r0⟩, f0⟩ := sortSub_pass sims 0 a
  obtain ⟨⟨p1, q1, r1⟩, f1⟩ := sortSub_pass sims 1 a0
  obtain ⟨⟨p2, q2, r2⟩, f2⟩ := sortSub_pass sims 2 a1
  rw [h0] at p0 q0 r0 f0
  rw [h1] at p1 q1 r1 f1
  rw [h2] at p2 q2 r2 f2
  have hk3 : k = 0 ∨ k = 1 ∨ k = 2 := by omega
  rcases hk3 with h | h | h <;> subst h
  · obtain ⟨x2, y2, z2⟩ := f2 0 (by decide)
    obtain ⟨x1, y1, z1⟩ := f1 0 (by decide)
    exact ⟨by rw [x2, x1, p0], by rw [y2, y1, q0], by rw [z2, z1, r0]⟩
  · obtain ⟨x2, y2, z2⟩ := f2 1 (by decide)
    obtain ⟨x0, y0, z0⟩ := f0 1 (by decide)
    exact ⟨by rw [x2, p1, x0], by rw [y2, q1, y0], by rw [z2, r1, z0]⟩
  · obtain ⟨x1, y1, z1⟩ := f1 2 (by decide)
    obtain ⟨x0, y0, z0⟩ := f0 2 (by decide)
    exact ⟨by rw [p2, x1, x0], by rw [q2, y1, y0], by rw [r2, z1, z0]⟩

theorem exchangeSort_sortedPermOf (sims : Nat) (a : Nat → Int) :
    SortedPermOf sims (exchangeSort sims a) a :=
  ⟨(exchangeSort_spec sims a).1, (exchangeSort_spec sims a).2.1⟩

/-- C12: after the sorting pass of a query day each of the twelve arrays of
trial values (arrivals, holdovers, ignitions for the province and for each of
the three subregions) holds in its first `sims` cells, in ascending order, a
permutation of the values it held before the pass; each array is sorted as if
it were alone in the loop (the result is the exchange sort of that array). -/
theorem sortPass_sorted (sims : Nat) (a : Acc) :
    (SortedPermOf sims (sortPass sims a).totarrPROV a.totarrPROV
      ∧ SortedPermOf sims (sortPass sims a).totholdPROV a.totholdPROV
      ∧ SortedPermOf sims (sortPass sims a).nignsPROV a.nignsPROV)
      ∧ (∀ k, k < 3 →
        SortedPermOf sims ((sortPass sims a).totarr k) (a.totarr k)
          ∧ SortedPermOf sims ((sortPass sims a).tothold k) (a.tothold k)
          ∧ SortedPermOf sims ((sortPass sims a).nigns k) (a.nigns k))
      ∧ ((sortPass sims a).totarrPROV = exchangeSort sims a.totarrPROV
        ∧ (sortPass sims a).totholdPROV = exchangeSort sims a.totholdPROV
        ∧ (sortPass sims a).nignsPROV = exchangeSort sims a.nignsPROV)
      ∧ (∀ k, k < 3 →
        (sortPass sims a).totarr k = exchangeSort sims (a.totarr k)
          ∧ (sortPass sims a).tothold k = exchangeSort sims (a.tothold k)
          ∧ (sortPass sims a).nigns k = exchangeSort sims (a.nigns k)) := by
  obtain ⟨p1, p2, p3, p4, p5, p6⟩ := sortPROV_arrays sims (sortSub sims a)
  obtain ⟨s1, s2, s3⟩ := sortSub_PROV sims a
  have hP : (sortPass sims a).totarrPROV = exchangeSort sims a.totarrPROV
      ∧ (sortPass sims a).totholdPROV = exchangeSort sims a.totholdPROV
      ∧ (sortPass sims a).nignsPROV = exchangeSort sims a.nignsPROV := by
    unfold sortPass
    exact ⟨by rw [p1, s1], by rw [p2, s2], by rw [p3, s3]⟩
  have hS : ∀ k, k < 3 →
      (sortPass sims a).totarr k = exchangeSort sims (a.totarr k)
        ∧ (sortPass sims a).tothold k = exchangeSort sims (a.tothold k)
        ∧ (sortPass sims a).nigns k = exchangeSort sims (a.nigns k) := by
    intro k hk
    obtain ⟨r1, r2, r3⟩ := sortSub_rows sims a k hk
    unfold sortPass
    exact ⟨by rw [p4, r1], by rw [p5, r2], by rw [p6, r3]⟩
  refine ⟨?_, ?_, hP, hS⟩
  · rw [hP.1, hP.2.1, hP.2.2]
    exact ⟨exchangeSort_sortedPermOf _ _, exchangeSort_sortedPermOf _ _,
      exchangeSort_sortedPermOf _ _⟩
  · intro k hk
    obtain ⟨r1, r2, r3⟩ := hS k hk
    rw [r1, r2, r3]
    exact ⟨exchangeSort_sortedPermOf _ _, exchangeSort_sortedPermOf _ _,
      exchangeSort_sortedPermOf _ _⟩

/-! ## Ranks and the bounds of the sorted arrays -/

theorem f32_one : f32 1 = 1 := f32_dyadic 1 1 0 (by norm_num) (by norm_num) (by norm_num)

theorem f32_half : f32 (1 / 2) = 1 / 2 :=
  f32_dyadic (1 / 2) 1 (-1) (by norm_num) (by norm_num) (by norm_num)

theorem f32_sims (sims : Int) (h0 : 0 ≤ sims) (h : sims < 16777216) :
    f32 (sims : ℚ) = (sims : ℚ) :=
  f32_dyadic _ sims 0 (by simp) (by rw [abs_of_nonneg h0]; norm_num; exact h) (by norm_num)

theorem f32_half_sims (sims : Int) (h0 : 0 ≤ sims) (h : sims < 16777216) :
    f32 ((sims : ℚ) / 2) = (sims : ℚ) / 2 :=
  f32_dyadic _ sims (-1) (by rw [zpow_neg_one]; ring)
    (by rw [abs_of_nonneg h0]; norm_num; exact h) (by norm_num)

/-- The product `y` of lines 96-97 for a confidence level that is not negative:
at most half the number of trials. -/
theorem ranks_product_le (sims : Int) (h0 : 0 ≤ sims) (h : sims < 16777216) (C : ℚ)
    (hC : 0 ≤ C) :
    f32 (f32 (f32 (1 - f32 (C / 100)) / 2) * f32 (sims : ℚ)) ≤ (sims : ℚ) / 2 := by
  have hs : (0 : ℚ) ≤ (sims : ℚ) := by exact_mod_cast h0
  have ha : 0 ≤ f32 (C / 100) := f32_nonneg (by positivity)
  have hb : f32 (1 - f32 (C / 100)) ≤ 1 := by
    have := f32_mono (x := 1 - f32 (C / 100)) (y := 1) (by linarith) (by norm_num)
    rwa [f32_one] at this
  have hc : f32 (f32 (1 - f32 (C / 100)) / 2) ≤ 1 / 2 := by
    have := f32_mono (x := f32 (1 - f32 (C / 100)) / 2) (y := 1 / 2) (by linarith)
      (by norm_num)
    rwa [f32_half] at this
  rw [f32_sims sims h0 h]
  have hp : f32 (f32 (1 - f32 (C / 100)) / 2) * (sims : ℚ) ≤ (sims : ℚ) / 2 := by
    have := mul_le_mul_of_nonneg_right hc hs
    linarith
  have := f32_mono hp (by positivity)
  rwa [f32_half_sims sims h0 h] at this

theorem ci_low_le_ci_high (sims : Int) (h0 : 0 ≤ sims) (h : sims < 16777216) (C : ℚ)
    (hC : 0 ≤ C) : ci_low sims C ≤ ci_high sims C := by
  have hy := ranks_product_le sims h0 h C hC
  have hs : (0 : ℚ) ≤ (sims : ℚ) := by exact_mod_cast h0
  unfold ci_low ci_high
  apply cTrunc_mono
  apply f32_mono
  · rw [f32_sims sims h0 h] at hy ⊢
    linarith
  · rw [f32_sims sims h0 h] at hy ⊢
    linarith

/-- For levels in `[0, 100]` the low rank does not grow and the high rank does
not shrink when the level grows. -/
theorem ranks_mono (sims : Int) (h0 : 0 ≤ sims) (h : sims < 16777216) {C D : ℚ}
    (hC : 0 ≤ C) (hCD : C ≤ D) (hD : D ≤ 100) :
    ci_low sims D ≤ ci_low sims C ∧ ci_high sims C ≤ ci_high sims D := by
  have hs : (0 : ℚ) ≤ (sims : ℚ) := by exact_mod_cast h0
  have ha : f32 (C / 100) ≤ f32 (D / 100) :=
    f32_mono (by linarith) (by linarith)
  have ha1 : f32 (C / 100) ≤ 1 := by
    have := f32_mono (x := C / 100) (y := 1) (by linarith) (by norm_num)
    rwa [f32_one] at this
  have hb : f32 (1 - f32 (D / 100)) ≤ f32 (1 - f32 (C / 100)) :=
    f32_mono (by linarith) (by linarith)
  have hb0 : 0 ≤ f32 (1 - f32 (C / 100)) := f32_nonneg (by linarith)
  have hc : f32 (f32 (1 - f32 (D / 100)) / 2) ≤ f32 (f32 (1 - f32 (C / 100)) / 2) :=
    f32_mono (by linarith) (by linarith)
  have hc0 : 0 ≤ f32 (f32 (1 - f32 (C / 100)) / 2) := f32_nonneg (by linarith)
  have hy : f32 (f32 (f32 (1 - f32 (D / 100)) / 2) * f32 (sims : ℚ))
      ≤ f32 (f32 (f32 (1 - f32 (C / 100)) / 2) * f32 (sims : ℚ)) := by
    rw [f32_sims sims h0 h]
    exact f32_mono (mul_le_mul_of_nonneg_right hc hs) (mul_nonneg hc0 hs)
  have hy0 : 0 ≤ f32 (f32 (f32 (1 - f32 (C / 100)) / 2) * f32 (sims : ℚ)) := by
    rw [f32_sims sims h0 h]
    exact f32_nonneg (mul_nonneg hc0 hs)
  have hyD := ranks_product_le sims h0 h D (le_trans hC hCD)
  constructor
  · unfold ci_low
    apply cTrunc_mono
    exact f32_mono (by linarith) (by linarith)
  · unfold ci_high
    apply cTrunc_mono
    apply f32_mono
    · linarith
    · rw [f32_sims sims h0 h] at hyD ⊢
      linarith

/-- A `float` between 64 and 128 is a multiple of `2 ^ (-17)`. -/
theorem f32_grid_64 (C : ℚ) (hf : f32 C = C) (h1 : 64 ≤ C) (h2 : C < 128) :
    ∃ n : Int, C = (n : ℚ) / 131072 := by
  have hlog : Int.log 2 C = 6 := log_two_eq (by norm_num; exact h1) (by norm_num; exact h2)
  have hu : ulpExp 24 (-149) C = -17 := by
    unfold ulpExp
    rw [abs_of_pos (by linarith), hlog]
    norm_num
  refine ⟨roundHalfEven (C / 2 ^ (-17 : Int)), ?_⟩
  have e := hf
  unfold f32 roundBin at e
  rw [hu] at e
  have e2 : (2 : ℚ) ^ (-17 : Int) = 1 / 131072 := by norm_num
  rw [e2] at e ⊢
  linarith

/-- C11 as stated fails: with 9 arguments and confidence level 100 nothing is
rejected, the simulation is entered with `ci_low = 0`, outside `[1, 1000]`, and
the lookup index `ci_low - 1` is -1. -/
theorem startup_accepts_level_100 :
    startup 9 1000 100 = some (0, 1000) ∧ ¬ ((1 : Int) ≤ 0) ∧ ((0 : Int) - 1 < 0) := by
  refine ⟨?_, by decide, by decide⟩
  unfold startup
  rw [ranks_1000_100.1, ranks_1000_100.2]
  rfl

/-- C11, amended: no confidence level is rejected (with 9 arguments the
simulation is entered with the computed ranks for every level and every
number of trials). With the 1000 trials of the program and a level `C` in
`[0, 100]` held in the `float` variable, both ranks lie in `[1, 1000]`, i.e.
the lookups at `rank - 1` are in `[0, 1000)`, exactly when
`C ≤ 13080985 / 2^17 = 99.79999542...`, the `float` just below the `float`
nearest to 99.8. The argument `99.8` is read as `6540493 / 2^16`, above that
bound, and gives `ci_low = 0`. -/
theorem ranks_in_bounds_iff (C : ℚ) (hf : f32 C = C) (h0 : 0 ≤ C) (h100 : C ≤ 100) :
    (∀ (sims : Int) (D : ℚ), startup 9 sims D = some (ci_low sims D, ci_high sims D))
      ∧ ((1 ≤ ci_low 1000 C ∧ ci_low 1000 C ≤ 1000 ∧ 1 ≤ ci_high 1000 C
            ∧ ci_high 1000 C ≤ 1000)
          ↔ C ≤ 13080985 / 131072)
      ∧ ((0 ≤ ci_low 1000 C - 1 ∧ ci_low 1000 C - 1 < 1000 ∧ 0 ≤ ci_high 1000 C - 1
            ∧ ci_high 1000 C - 1 < 1000)
          ↔ C ≤ 13080985 / 131072)
      ∧ (atofFloat (998 / 10) = 6540493 / 65536
          ∧ ¬ ((6540493 / 65536 : ℚ) ≤ 13080985 / 131072)
          ∧ ci_low 1000 (6540493 / 65536) = 0) := by
  have key1 : C ≤ 13080985 / 131072 →
      1 ≤ ci_low 1000 C ∧ ci_low 1000 C ≤ 1000 ∧ 1 ≤ ci_high 1000 C
        ∧ ci_high 1000 C ≤ 1000 := by
    intro hC
    obtain ⟨a1, a2⟩ := ranks_mono 1000 (by norm_num) (by norm_num) (C := 0) (D := C)
      (le_refl _) h0 h100
    obtain ⟨b1, b2⟩ := ranks_mono 1000 (by norm_num) (by norm_num) (C := C)
      (D := 13080985 / 131072) h0 hC (by norm_num)
    rw [ranks_1000_0.1] at a1
    rw [ranks_1000_0.2] at a2
    rw [ranks_1000_below_998.1] at b1
    rw [ranks_1000_below_998.2] at b2
    omega
  have key2 : ¬ C ≤ 13080985 / 131072 → ci_low 1000 C ≤ 0 := by
    intro hC
    have hlt : (13080985 / 131072 : ℚ) < C := not_le.mp hC
    obtain ⟨n, hn⟩ := f32_grid_64 C hf (by linarith) (by linarith)
    have hn1 : (13080985 : ℚ) < (n : ℚ) := by
      rw [hn] at hlt
      by_contra hcon
      have : (n : ℚ) / 131072 ≤ 13080985 / 131072 :=
        div_le_div_of_nonneg_right (not_lt.mp hcon) (by norm_num)
      linarith
    have hn2 : (13080986 : Int) ≤ n := by
      have : (13080985 : Int) < n := by exact_mod_cast hn1
      omega
    have hge : (6540493 / 65536 : ℚ) ≤ C := by
      rw [hn]
      have : ((13080986 : Int) : ℚ) ≤ (n : ℚ) := by exact_mod_cast hn2
      rw [le_div_iff₀ (by norm_num : (0 : ℚ) < 131072)]
      push_cast at this
      linarith
    obtain ⟨c1, _⟩ := ranks_mono 1000 (by norm_num) (by norm_num) (C := 6540493 / 65536)
      (D := C) (by norm_num) hge h100
    rw [ranks_1000_float_998.1] at c1
    exact c1
  refine ⟨fun sims D => by simp [startup], ?_, ?_,
    ⟨atofFloat_998, by norm_num, ranks_1000_float_998.1⟩⟩
  · constructor
    · intro hb
      by_contra hC
      have := key2 hC
      omega
    · exact key1
  · constructor
    · intro hb
      by_contra hC
      have := key2 hC
      omega
    · intro hC
      have := key1 hC
      omega

theorem f32_95 : f32 95 = 95 :=
  f32_dyadic 95 95 0 (by norm_num) (by norm_num) (by norm_num)

/-- The hypotheses of the amended C11 hold for the confidence level 95, with
ranks 25 and 975. -/
theorem ranks_in_bounds_iff_witness :
    (f32 95 = 95 ∧ (0 : ℚ) ≤ 95 ∧ (95 : ℚ) ≤ 100)
      ∧ ((1 ≤ ci_low 1000 95 ∧ ci_low 1000 95 ≤ 1000 ∧ 1 ≤ ci_high 1000 95
            ∧ ci_high 1000 95 ≤ 1000)
          ↔ (95 : ℚ) ≤ 13080985 / 131072) :=
  ⟨⟨f32_95, by norm_num, by norm_num⟩,
    (ranks_in_bounds_iff 95 f32_95 (by norm_num) (by norm_num)).2.1⟩

/-! ## The loader -/

theorem setCell_apply {α : Type} (a : Nat → Int → α) (i : Nat) (d : Int) (x : α)
    (i2 : Nat) (d2 : Int) :
    setCell a i d x i2 d2 = if i2 = i ∧ d2 = d then x else a i2 d2 := by
  unfold setCell
  by_cases hi : i2 = i
  · subst hi
    by_cases hd : d2 = d
    · subst hd; simp
    · simp [Function.update_noteq hd, hd]
  · simp [Function.update_noteq hi, hi]

/-- The read loop on a block of well-formed rows of the year `oldyear` that is
followed by the end of the input or by a row of another year: it ends, the
table is the start table overwritten in input order by the rows of the block
whose day is in the season, and the variables hold the row of the other year
(or the last row of the block at the end of the input). More tests than the
length of the block plus two do not change the result. -/
theorem loadLoop_block (oldyear : Int) (block : List Row) (tail : List Item) (k : Nat)
    (T : Season) (cur : Row) (e : Int) (he : 0 ≤ e) (hcur : cur.year = oldyear)
    (hblock : ∀ r, r ∈ block → r.year = oldyear)
    (htail : tail = [] ∨ ∃ r rest, tail = Item.row r :: rest ∧ r.year ≠ oldyear) :
    loadLoop oldyear (block.length + 2 + k) T
        { err := e, cur := cur, inp := block.map Item.row ++ tail }
      = some ((cur :: block).foldl recordIf T,
          fscanf { err := 18, cur := (cur :: block).getLast (List.cons_ne_nil _ _),
                   inp := tail }) := by
  induction block generalizing T cur e with
  | nil =>
    have h1 : e ≥ 0 ∧ oldyear = cur.year := ⟨he, hcur.symm⟩
    have hlen : ([] : List Row).length + 2 + k = (k + 1) + 1 := by
      simp only [List.length_nil]; omega
    rw [hlen, loadLoop, if_pos h1]
    simp only [List.map_nil, List.nil_append, List.foldl_cons, List.foldl_nil,
      List.getLast_singleton]
    rcases htail with ht | ⟨r, rest, ht, hr⟩
    · subst ht
      have hf : fscanf { err := e, cur := cur, inp := [] }
          = { err := -1, cur := cur, inp := [] } := rfl
      have hg : fscanf { err := 18, cur := cur, inp := [] }
          = { err := -1, cur := cur, inp := [] } := rfl
      rw [hf, hg, loadLoop]
      have h2 : ¬ ((-1 : Int) ≥ 0 ∧ oldyear = cur.year) := by
        intro h; exact absurd h.1 (by decide)
      rw [if_neg h2]
    · subst ht
      have hf : fscanf { err := e, cur := cur, inp := Item.row r :: rest }
          = { err := 18, cur := r, inp := rest } := rfl
      have hg : fscanf { err := 18, cur := cur, inp := Item.row r :: rest }
          = { err := 18, cur := r, inp := rest } := rfl
      rw [hf, hg, loadLoop]
      have h2 : ¬ ((18 : Int) ≥ 0 ∧ oldyear = r.year) := by
        intro h; exact hr h.2.symm
      rw [if_neg h2]
  | cons b bs ih =>
    have h1 : e ≥ 0 ∧ oldyear = cur.year := ⟨he, hcur.symm⟩
    have hb : b.year = oldyear := hblock b (List.mem_cons_self _ _)
    have hbs : ∀ r, r ∈ bs → r.year = oldyear :=
      fun r hr => hblock r (List.mem_cons_of_mem _ hr)
    have hlen : (b :: bs).length + 2 + k = (bs.length + 2 + k) + 1 := by
      simp only [List.length_cons]; omega
    rw [hlen, loadLoop, if_pos h1]
    have hf : fscanf { err := e, cur := cur, inp := (b :: bs).map Item.row ++ tail }
        = { err := 18, cur := b, inp := bs.map Item.row ++ tail } := by
      simp [fscanf]
    rw [hf, ih (recordIf T cur) b 18 (by decide) hb hbs]
    simp [List.getLast_cons]

/-- C15 at the level of the read loop: once the read position holds a token
that is not a number, the loop condition is true at every test (the result of
`fscanf` is 0, not negative, and the year is the old one), so the loop does not
end within any number of tests. -/
theorem loadLoop_junk (oldyear : Int) (rest : List Item) (fuel : Nat) (T : Season)
    (rd : Reader) (he : 0 ≤ rd.err) (hy : rd.cur.year = oldyear)
    (hi : rd.inp = Item.junk :: rest) :
    loadLoop oldyear fuel T rd = none := by
  induction fuel generalizing T rd with
  | zero => rfl
  | succ fuel ih =>
    have h1 : rd.err ≥ 0 ∧ oldyear = rd.cur.year := ⟨he, hy.symm⟩
    rw [loadLoop, if_pos h1]
    apply ih
    · simp [fscanf, hi]
    · simp [fscanf, hi, hy]
    · simp [fscanf, hi]

/-- Evaluation for C13: two seasons. The only row of 2000 is cell 5, day 130
with 2 observed fires; the only row of 2001 is cell 6, day 130. Both loads end;
after the load of 2001 the table still holds the 2 fires of 2000 at cell 5,
day offset 9, where the default table overwritten by the rows of 2001 holds 0. -/
theorem second_season_keeps_fire_count :
    seasonLoad 9999 2000 2 defaultSeason
        { err := 18, cur := sampleRow 5 2000 130 55 (1 / 10) 3 2,
          inp := [Item.row (sampleRow 6 2001 130 55 (1 / 10) 3 0)] }
      = some (recordIf (zeroOut 9999 defaultSeason) (sampleRow 5 2000 130 55 (1 / 10) 3 2),
          { err := 18, cur := sampleRow 6 2001 130 55 (1 / 10) 3 0, inp := [] })
    ∧ seasonLoad 9999 2001 2
        (recordIf (zeroOut 9999 defaultSeason) (sampleRow 5 2000 130 55 (1 / 10) 3 2))
        { err := 18, cur := sampleRow 6 2001 130 55 (1 / 10) 3 0, inp := [] }
      = some (recordIf (zeroOut 9999
            (recordIf (zeroOut 9999 defaultSeason) (sampleRow 5 2000 130 55 (1 / 10) 3 2)))
            (sampleRow 6 2001 130 55 (1 / 10) 3 0),
          { err := -1, cur := sampleRow 6 2001 130 55 (1 / 10) 3 0, inp := [] })
    ∧ (recordIf (zeroOut 9999
          (recordIf (zeroOut 9999 defaultSeason) (sampleRow 5 2000 130 55 (1 / 10) 3 2)))
          (sampleRow 6 2001 130 55 (1 / 10) 3 0)).firegrid 5 9 = 2
    ∧ (recordIf defaultSeason (sampleRow 6 2001 130 55 (1 / 10) 3 0)).firegrid 5 9 = 0 := by
  refine ⟨?_, ?_, ?_, ?_⟩
  · unfold seasonLoad
    have h := loadLoop_block 2000 [] [Item.row (sampleRow 6 2001 130 55 (1 / 10) 3 0)] 0
      (zeroOut 9999 defaultSeason) (sampleRow 5 2000 130 55 (1 / 10) 3 2) 18 (by decide) rfl
      (by intro r hr; cases hr)
      (Or.inr ⟨_, _, rfl, by simp [sampleRow]⟩)
    simpa [fscanf] using h
  · unfold seasonLoad
    have h := loadLoop_block 2001 [] [] 0
      (zeroOut 9999
        (recordIf (zeroOut 9999 defaultSeason) (sampleRow 5 2000 130 55 (1 / 10) 3 2)))
      (sampleRow 6 2001 130 55 (1 / 10) 3 0) 18 (by decide) rfl
      (by intro r hr; cases hr) (Or.inl rfl)
    simpa [fscanf] using h
  · simp [recordIf, inSeason, record, zeroOut, setCell_apply, sampleRow, defaultSeason]
  · simp [recordIf, inSeason, record, setCell_apply, sampleRow, defaultSeason]

/-- Evaluation for C14: the reset with `cells = 9999` leaves `firegrid` as it
is at every cell and leaves every array as it is at cell 9999, the last cell
of the cell loop `i = 1..cells`. A row of cell 9999 of an earlier season with
10 strikes and 3 observed fires is still in the table after the reset, where
the default value is 0. -/
theorem zeroOut_keeps_firegrid_and_last_cell :
    (∀ T : Season, (zeroOut 9999 T).firegrid = T.firegrid)
      ∧ (∀ (T : Season) (d : Int),
          (zeroOut 9999 T).ltg 9999 d = T.ltg 9999 d
            ∧ (zeroOut 9999 T).pign 9999 d = T.pign 9999 d
            ∧ (zeroOut 9999 T).eco 9999 d = T.eco 9999 d
            ∧ (zeroOut 9999 T).dcgrid 9999 d = T.dcgrid 9999 d
            ∧ (zeroOut 9999 T).longi 9999 = T.longi 9999)
      ∧ 9999 ∈ List.range' 1 9999
      ∧ (zeroOut 9999 (record defaultSeason (sampleRow 9999 2000 121 55 1 10 3))).ltg 9999 0
          = 10
      ∧ (zeroOut 9999 (record defaultSeason (sampleRow 9999 2000 121 55 1 10 3))).firegrid
          9999 0 = 3
      ∧ (zeroOut 9999 (record defaultSeason (sampleRow 5 2000 130 55 1 10 3))).firegrid 5 9
          = 3
      ∧ defaultSeason.ltg 9999 0 = 0 ∧ defaultSeason.firegrid 9999 0 = 0 := by
  refine ⟨fun _ => rfl, ?_, ?_, ?_, ?_, ?_, rfl, rfl⟩
  · intro T d
    simp [zeroOut]
  · rw [List.mem_range'_1]; omega
  · simp [zeroOut, record, setCell_apply, sampleRow, defaultSeason]
  · simp [zeroOut, record, setCell_apply, sampleRow, defaultSeason]
  · simp [zeroOut, record, setCell_apply, sampleRow, defaultSeason]

/-! ## Data quality of the loaded records -/

theorem rng_ext (R1 R2 : Rng) (hmax : R1.RAND_MAX = R2.RAND_MAX)
    (hout : ∀ k, R1.out k = R2.out k) : R1 = R2 := by
  cases R1 with
  | mk m1 o1 =>
    cases R2 with
    | mk m2 o2 =>
      simp only at hmax hout
      have ho : o1 = o2 := funext hout
      rw [hmax, ho]

/-- The values the 18 variables hold before the first read do not reach the
output: on an empty input no season is run, on a first token that is not a
number the first read loop does not end, and a well-formed first row
overwrites all 18 variables. -/
theorem program_init_irrelevant (R : Rng) (init1 init2 : Row) (input : List Item)
    (start_date end_date holdover_time : Int) (confidence_interval : ℚ)
    (cells sims fuel : Nat) :
    program R init1 input start_date end_date holdover_time confidence_interval cells sims
        fuel
      = program R init2 input start_date end_date holdover_time confidence_interval cells
        sims fuel := by
  unfold program
  cases input with
  | nil =>
    cases fuel with
    | zero => rfl
    | succ fuel =>
      have h : ∀ init : Row, ¬ ((fscanf { err := 0, cur := init, inp := [] }).err ≥ 0) := by
        intro init; simp [fscanf]
      rw [seasonLoop, seasonLoop, if_neg (h init1), if_neg (h init2)]
  | cons x rest =>
    cases x with
    | row r => rfl
    | junk =>
      cases fuel with
      | zero => rfl
      | succ fuel =>
        have h : ∀ init : Row,
            (fscanf { err := 0, cur := init, inp := Item.junk :: rest }).err ≥ 0 := by
          intro init; simp [fscanf]
        have hl : ∀ init : Row,
            seasonLoad cells
              (fscanf { err := 0, cur := init, inp := Item.junk :: rest }).cur.year
              (fuel + 1) defaultSeason
              (fscanf { err := 0, cur := init, inp := Item.junk :: rest }) = none := by
          intro init
          unfold seasonLoad
          exact loadLoop_junk _ rest _ _ _ (by simp [fscanf]) rfl (by simp [fscanf])
        rw [seasonLoop, seasonLoop, if_pos (h init1), if_pos (h init2), hl init1, hl init2]

/-- C18: two runs whose generators yield the same sequence of `rand()` results
(same seed, same `RAND_MAX`), with the same input rows, start day, end day,
lookback and confidence level, write the same summary lines and the same
per-cell lines, whatever the 18 read variables held before the first read and
for every bound on the number of loop tests (both runs end with the same
output or neither has ended). -/
theorem program_deterministic (R1 R2 : Rng) (init1 init2 : Row) (input : List Item)
    (start_date end_date holdover_time : Int) (confidence_interval : ℚ)
    (cells sims fuel : Nat)
    (hmax : R1.RAND_MAX = R2.RAND_MAX) (hout : ∀ k, R1.out k = R2.out k) :
    program R1 init1 input start_date end_date holdover_time confidence_interval cells sims
        fuel
      = program R2 init2 input start_date end_date holdover_time confidence_interval cells
        sims fuel := by
  rw [rng_ext R1 R2 hmax hout]
  exact program_init_irrelevant R2 init1 init2 input start_date end_date holdover_time
    confidence_interval cells sims fuel

/-- The hypotheses of C18 hold for two generators that always return 0 and for
two different contents of the read variables. -/
theorem program_deterministic_witness :
    zeroRng.RAND_MAX = ({ RAND_MAX := 32767, out := fun _ => 0 } : Rng).RAND_MAX
      ∧ (∀ k, zeroRng.out k = ({ RAND_MAX := 32767, out := fun _ => 0 } : Rng).out k)
      ∧ program zeroRng (sampleRow 0 0 0 0 0 0 0) [Item.row (sampleRow 5 2000 130 55 1 3 2)]
          130 131 (-1) 95 9999 1000 5
        = program { RAND_MAX := 32767, out := fun _ => 0 } badRow
          [Item.row (sampleRow 5 2000 130 55 1 3 2)] 130 131 (-1) 95 9999 1000 5 :=
  ⟨rfl, fun _ => rfl,
    program_deterministic zeroRng { RAND_MAX := 32767, out := fun _ => 0 }
      (sampleRow 0 0 0 0 0 0 0) badRow [Item.row (sampleRow 5 2000 130 55 1 3 2)]
      130 131 (-1) 95 9999 1000 5 rfl (fun _ => rfl)⟩

/-! ## A run on well-formed input ends -/

theorem split_block (y : Int) (rs : List Row) :
    ∃ block tl, rs = block ++ tl ∧ (∀ r, r ∈ block → r.year = y)
      ∧ (tl = [] ∨ ∃ r rest, tl = r :: rest ∧ r.year ≠ y) := by
  induction rs with
  | nil => exact ⟨[], [], rfl, (by intro r hr; cases hr), Or.inl rfl⟩
  | cons a rs ih =>
    by_cases ha : a.year = y
    · obtain ⟨block, tl, h1, h2, h3⟩ := ih
      refine ⟨a :: block, tl, by rw [h1]; rfl, ?_, h3⟩
      intro r hr
      rcases List.mem_cons.mp hr with rfl | hr2
      · exact ha
      · exact h2 r hr2
    · exact ⟨[], a :: rs, rfl, (by intro r hr; cases hr), Or.inr ⟨a, rs, rfl, ha⟩⟩

/-- On an input of well-formed rows the loop over the seasons ends, with a
result that no longer depends on the bounds once they exceed the number of
unread rows by two. -/
theorem seasonLoop_ends (R : Rng) (holdover_time : Int) (cells sims : Nat)
    (ci_lo ci_hi start_date end_date : Int) (n : Nat) :
    ∀ (rs : List Row), rs.length ≤ n → ∀ (T : Season) (cur : Row) (e : Int), 0 ≤ e →
      ∀ (st : Sim) (out : List DayOutput),
      ∃ res, ∀ bound fuel, rs.length + 2 ≤ bound → rs.length + 2 ≤ fuel →
        seasonLoop R holdover_time cells sims ci_lo ci_hi start_date end_date bound fuel T
          { err := e, cur := cur, inp := rs.map Item.row } cur.year st out = some res := by
  induction n with
  | zero =>
    intro rs hrs T cur e he st out
    have hnil : rs = [] := List.length_eq_zero.mp (Nat.le_zero.mp hrs)
    subst hnil
    refine ⟨out ++ (seasonDays ([cur].foldl recordIf (zeroOut cells T)) R holdover_time
      cells sims ci_lo ci_hi cur.year (if cur.year % 4 = 0 then 1 else 0) start_date
      end_date st).2, ?_⟩
    intro bound fuel hb hf
    obtain ⟨f, rfl⟩ : ∃ f, fuel = f + 2 := ⟨fuel - 2, by simp at hf; omega⟩
    obtain ⟨k, rfl⟩ : ∃ k, bound = ([] : List Row).length + 2 + k :=
      ⟨bound - 2, by simp at hb ⊢; omega⟩
    have hl := loadLoop_block cur.year [] [] k (zeroOut cells T) cur e he rfl
      (by intro r hr; cases hr) (Or.inl rfl)
    rw [seasonLoop, if_pos (show e ≥ 0 from he)]
    simp only [seasonLoad]
    simp only [List.map_nil, List.append_nil] at hl ⊢
    rw [hl]
    simp only [List.getLast_singleton, fscanf]
    rw [seasonLoop, if_neg (by simp)]
  | succ n ih =>
    intro rs hrs T cur e he st out
    obtain ⟨block, tl, hsplit, hblock, htail⟩ := split_block cur.year rs
    rcases htail with ht | ⟨r, rest, ht, hr⟩
    · subst ht
      rw [List.append_nil] at hsplit
      subst hsplit
      refine ⟨out ++ (seasonDays ((cur :: rs).foldl recordIf (zeroOut cells T)) R
        holdover_time cells sims ci_lo ci_hi cur.year (if cur.year % 4 = 0 then 1 else 0)
        start_date end_date st).2, ?_⟩
      intro bound fuel hb hf
      obtain ⟨f, rfl⟩ : ∃ f, fuel = f + 2 := ⟨fuel - 2, by omega⟩
      obtain ⟨k, rfl⟩ : ∃ k, bound = rs.length + 2 + k := ⟨bound - (rs.length + 2), by omega⟩
      have hl := loadLoop_block cur.year rs [] k (zeroOut cells T) cur e he rfl hblock
        (Or.inl rfl)
      rw [seasonLoop, if_pos (show e ≥ 0 from he)]
      simp only [seasonLoad]
      simp only [List.append_nil] at hl
      rw [hl]
      simp only [fscanf]
      rw [seasonLoop, if_neg (by simp)]
    · subst ht
      subst hsplit
      have hlen : rest.length ≤ n := by
        simp only [List.length_append, List.length_cons] at hrs
        omega
      obtain ⟨res, hres⟩ := ih rest hlen
        ((cur :: block).foldl recordIf (zeroOut cells T)) r 18 (by decide)
        (seasonDays ((cur :: block).foldl recordIf (zeroOut cells T)) R holdover_time cells
          sims ci_lo ci_hi cur.year (if cur.year % 4 = 0 then 1 else 0) start_date end_date
          st).1
        (out ++ (seasonDays ((cur :: block).foldl recordIf (zeroOut cells T)) R holdover_time
          cells sims ci_lo ci_hi cur.year (if cur.year % 4 = 0 then 1 else 0) start_date
          end_date st).2)
      refine ⟨res, ?_⟩
      intro bound fuel hb hf
      simp only [List.length_append, List.length_cons] at hb hf
      obtain ⟨f, rfl⟩ : ∃ f, fuel = f + 1 := ⟨fuel - 1, by omega⟩
      obtain ⟨k, hk⟩ : ∃ k, bound = block.length + 2 + k :=
        ⟨bound - (block.length + 2), by omega⟩
      have hl := loadLoop_block cur.year block (Item.row r :: rest.map Item.row) k
        (zeroOut cells T) cur e he rfl hblock (Or.inr ⟨r, _, rfl, hr⟩)
      rw [seasonLoop, if_pos (show e ≥ 0 from he)]
      simp only [seasonLoad]
      have hmap : (block ++ r :: rest).map Item.row
          = block.map Item.row ++ Item.row r :: rest.map Item.row := by
        simp
      rw [hmap]
      rw [← hk] at hl
      rw [hl]
      simp only [fscanf]
      exact hres bound f (by omega) (by omega)

/-- On every input of well-formed rows the run ends: there is one output that
the run returns for every bound of at least the number of rows plus two. -/
theorem program_ends (R : Rng) (init : Row) (rows : List Row)
    (start_date end_date holdover_time : Int) (confidence_interval : ℚ) (cells sims : Nat) :
    ∃ out, ∀ fuel, rows.length + 2 ≤ fuel →
      program R init (rows.map Item.row) start_date end_date holdover_time
        confidence_interval cells sims fuel = some out := by
  cases rows with
  | nil =>
    refine ⟨[], ?_⟩
    intro fuel hf
    obtain ⟨f, rfl⟩ : ∃ f, fuel = f + 1 := ⟨fuel - 1, by simp at hf; omega⟩
    unfold program
    rw [seasonLoop, if_neg (by simp [fscanf])]
  | cons r rest =>
    obtain ⟨res, hres⟩ := seasonLoop_ends R holdover_time cells sims
      (ci_low (sims : Int) confidence_interval) (ci_high (sims : Int) confidence_interval)
      start_date end_date rest.length rest (le_refl _) defaultSeason r 18 (by decide)
      zeroSim []
    refine ⟨res, ?_⟩
    intro fuel hf
    simp only [List.length_cons] at hf
    unfold program
    simp only [List.map_cons, fscanf]
    exact hres fuel fuel (by omega) (by omega)

/-! ## A token that is not a number -/

theorem seasonLoop_junk (R : Rng) (holdover_time : Int) (cells sims : Nat)
    (ci_lo ci_hi start_date end_date : Int) (bound fuel : Nat) (T : Season) (rd : Reader)
    (rest : List Item) (st : Sim) (out : List DayOutput) (he : 0 ≤ rd.err)
    (hi : rd.inp = Item.junk :: rest) :
    seasonLoop R holdover_time cells sims ci_lo ci_hi start_date end_date bound fuel T rd
      rd.cur.year st out = none := by
  cases fuel with
  | zero => rfl
  | succ fuel =>
    rw [seasonLoop, if_pos (show rd.err ≥ 0 from he)]
    have hl : seasonLoad cells rd.cur.year bound T rd = none := by
      unfold seasonLoad
      exact loadLoop_junk _ rest _ _ _ he rfl hi
    rw [hl]

/-- Evaluation for C15: the input holds one row of 2000 and then a token that
is not a number. The `fscanf` at that token returns 0, not a negative value,
so however many times the loop condition is tested the read loop of the season
has not ended, and the run has not ended either; at the end of the input
instead `fscanf` returns -1, the read loop ends at its second test and the run
ends. -/
theorem load_does_not_end_on_junk (fuel : Nat) :
    seasonLoad 9999 2000 fuel defaultSeason
        { err := 18, cur := sampleRow 5 2000 130 55 (1 / 10) 3 2, inp := [Item.junk] }
      = none
    ∧ program zeroRng badRow [Item.row (sampleRow 5 2000 130 55 (1 / 10) 3 2), Item.junk]
        130 130 (-1) 95 9999 1000 fuel = none
    ∧ (fscanf { err := 18, cur := sampleRow 5 2000 130 55 (1 / 10) 3 2,
                inp := [Item.junk] }).err = 0
    ∧ (fscanf { err := 18, cur := sampleRow 5 2000 130 55 (1 / 10) 3 2, inp := [] }).err
        = -1
    ∧ (seasonLoad 9999 2000 2 defaultSeason
        { err := 18, cur := sampleRow 5 2000 130 55 (1 / 10) 3 2, inp := [] }).isSome
        = true
    ∧ (program zeroRng badRow [Item.row (sampleRow 5 2000 130 55 (1 / 10) 3 2)]
        130 130 (-1) 95 9999 1000 3).isSome = true := by
  refine ⟨?_, ?_, rfl, rfl, ?_, ?_⟩
  · unfold seasonLoad
    exact loadLoop_junk 2000 [] fuel _ _ (by decide) rfl rfl
  · unfold program
    exact seasonLoop_junk zeroRng (-1) 9999 1000 _ _ 130 130 fuel fuel defaultSeason
      { err := 18, cur := sampleRow 5 2000 130 55 (1 / 10) 3 2, inp := [Item.junk] } []
      zeroSim [] (by decide) rfl
  · unfold seasonLoad
    have h := loadLoop_block 2000 [] [] 0 (zeroOut 9999 defaultSeason)
      (sampleRow 5 2000 130 55 (1 / 10) 3 2) 18 (by decide) rfl
      (by intro r hr; cases hr) (Or.inl rfl)
    simp only [List.length_nil, List.map_nil, List.nil_append] at h
    rw [h]
    rfl
  · obtain ⟨out, h⟩ := program_ends zeroRng badRow [sampleRow 5 2000 130 55 (1 / 10) 3 2]
      130 130 (-1) 95 9999 1000
    have h3 := h 3 (by decide)
    simp only [List.map_cons, List.map_nil] at h3
    rw [h3]
    rfl

/-! ## Dates of the query days -/

/-- For the years 1901 to 2099 the flag of line 164 is the leap year rule. -/
theorem leapFlag_eq (year : Int) (h1 : 1901 ≤ year) (h2 : year ≤ 2099) :
    leapFlag year = if isLeapYear year = true then 1 else 0 := by
  unfold leapFlag isLeapYear
  by_cases h : year % 4 = 0
  · have h3 : year % 100 ≠ 0 ∨ year % 400 = 0 := by omega
    rw [if_pos h, if_pos (decide_eq_true ⟨h, h3⟩)]
  · have h3 : ¬ (year % 4 = 0 ∧ (year % 100 ≠ 0 ∨ year % 400 = 0)) := fun c => h c.1
    rw [if_neg h, if_neg (by rw [decide_eq_true_eq]; exact h3)]

theorem nailuj_date_common (jd : Int) (h1 : 121 ≤ jd) (h2 : jd ≤ 273) :
    ∃ p : Int × Int, nailuj jd 0 = some p ∧ IsCalendarDate false jd p.1 p.2 := by
  interval_cases jd <;> exact ⟨_, rfl, by decide⟩

theorem nailuj_date_leap (jd : Int) (h1 : 121 ≤ jd) (h2 : jd ≤ 273) :
    ∃ p : Int × Int, nailuj jd 1 = some p ∧ IsCalendarDate true jd p.1 p.2 := by
  interval_cases jd <;> exact ⟨_, rfl, by decide⟩

/-- C21: for a season year in 1901..2099 and a query day `today` in
`[121, 273]`, the date written on the summary line and on every cell line,
computed by `nailuj` with the flag `leap = (year % 4 == 0)`, is a pair
`(mon, day)` that is the calendar date of day `today` of that year (leap years
by the Gregorian rule); without the leap flag day 121 is May 1 and day 273 is
September 30. -/
theorem nailuj_calendar_date (S : Season) (year today : Int) (cells sims : Nat)
    (lo hi : Int) (a : Acc)
    (hy1 : 1901 ≤ year) (hy2 : year ≤ 2099) (hj1 : 121 ≤ today) (hj2 : today ≤ 273) :
    (∃ mon day : Int,
        (summaryLine year today (leapFlag year) sims lo hi a).date = some (mon, day)
        ∧ (∀ r, r ∈ cellLines S year today (leapFlag year) cells a → r.date = some (mon, day))
        ∧ IsCalendarDate (isLeapYear year) today mon day)
      ∧ nailuj 121 0 = some (5, 1) ∧ nailuj 273 0 = some (9, 30) := by
  refine ⟨?_, by decide, by decide⟩
  have hd : ∃ p : Int × Int, nailuj today (leapFlag year) = some p
      ∧ IsCalendarDate (isLeapYear year) today p.1 p.2 := by
    rw [leapFlag_eq year hy1 hy2]
    cases isLeapYear year
    · exact nailuj_date_common today hj1 hj2
    · exact nailuj_date_leap today hj1 hj2
  obtain ⟨p, hp, hc⟩ := hd
  refine ⟨p.1, p.2, hp, ?_, hc⟩
  intro r hr
  simp only [cellLines, List.mem_map] at hr
  obtain ⟨i, _, rfl⟩ := hr
  exact hp

/-- The hypotheses of C21 hold for day 121 of the leap year 2000, which is
April 30. -/
theorem nailuj_calendar_date_witness :
    ((1901 : Int) ≤ 2000 ∧ (2000 : Int) ≤ 2099 ∧ (121 : Int) ≤ 121 ∧ (121 : Int) ≤ 273)
      ∧ ((∃ mon day : Int,
          (summaryLine 2000 121 (leapFlag 2000) 1 1 1 zeroSim.a).date = some (mon, day)
          ∧ (∀ r, r ∈ cellLines (oneCellSeason 1 1 1) 2000 121 (leapFlag 2000) 2 zeroSim.a →
              r.date = some (mon, day))
          ∧ IsCalendarDate (isLeapYear 2000) 121 mon day)
        ∧ nailuj 121 0 = some (5, 1) ∧ nailuj 273 0 = some (9, 30)) :=
  ⟨by decide,
    nailuj_calendar_date (oneCellSeason 1 1 1) 2000 121 2 1 1 1 zeroSim.a
      (by decide) (by decide) (by decide) (by decide)⟩

theorem nailuj_leap_day_121 : nailuj 121 (leapFlag 2000) = some (4, 30) := by decide

/-! ## The window stays inside the season -/

theorem holdoverRaw_nonneg (ht dc : Int) (hdc : 0 ≤ dc) : 0 ≤ holdoverRaw ht dc := by
  rw [holdoverRaw_int]
  split_ifs <;> omega

theorem windowDays_length (today h : Int) : (windowDays today h).length = (h + 1).toNat := by
  simp [windowDays]

theorem windowDays_getElem (today h : Int) (k : Nat) (hk : k < (h + 1).toNat) :
    (windowDays today h)[k]? = some (today - h + (k : Int)) := by
  simp [windowDays, List.getElem?_map, List.getElem?_range hk]

theorem windowDays_mem (today h day : Int) (hm : day ∈ windowDays today h) :
    today - h ≤ day ∧ day ≤ today := by
  simp only [windowDays, List.mem_map, List.mem_range] at hm
  obtain ⟨k, hk, rfl⟩ := hm
  omega

/-- C22: for a cell with `DC >= 0`, any value of the lookback argument and a
query day `today` in `[121, 273]`, the window `w` used by the day loop
satisfies `0 <= w <= today - 121`; the loop visits the `w + 1` days
`today - w, ..., today` in this order, every visited day has its offset
`day - 121` in `[0, 153]`, and what the cell adds to the totals are the values
`narr1`, `nign`, `narr2` (and `nhold`) of the query day, the last run of the
body of the loop. -/
theorem window_stays_in_season (S : Season) (R : Rng) (holdover_time today : Int)
    (sims sim i : Nat) (st : Sim) (w : Int)
    (hw : w = holdover holdover_time (S.dcgrid i (today - 121)) today)
    (hdc : 0 ≤ S.dcgrid i (today - 121)) (h1 : 121 ≤ today) (h2 : today ≤ 273) :
    (0 ≤ w ∧ w ≤ today - 121)
      ∧ ((windowDays today w).length = w.toNat + 1
        ∧ ∀ k : Nat, k ≤ w.toNat → (windowDays today w)[k]? = some (today - w + (k : Int)))
      ∧ (∀ day, day ∈ windowDays today w →
          (today - w ≤ day ∧ day ≤ today) ∧ 0 ≤ day - 121 ∧ day - 121 ≤ 153)
      ∧ CellContribution S R holdover_time today sims sim i st := by
  have hr := holdoverRaw_nonneg holdover_time (S.dcgrid i (today - 121)) hdc
  have hw0 : 0 ≤ w ∧ w ≤ today - 121 := by
    rw [hw]
    unfold holdover
    constructor
    · exact le_min hr (by omega)
    · exact min_le_right _ _
  refine ⟨hw0, ⟨?_, ?_⟩, ?_, ?_⟩
  · rw [windowDays_length]
    omega
  · intro k hk
    exact windowDays_getElem today w k (by omega)
  · intro day hm
    have := windowDays_mem today w day hm
    omega
  · unfold CellContribution
    refine ⟨?_, ?_, ?_, ?_, ?_, ?_, ?_, ?_, ?_, ?_⟩
    · show cellVars S R holdover_time today i st.v = _
      unfold cellVars beforeToday
      exact dayLoop_last S R i today _ _ (hw ▸ hw0.1)
    all_goals simp [cellStep, set2_apply]

/-- The hypotheses of C22 hold for cell 1 of the one-cell season (`DC = 0`) on
day 121 with the automatic window, which is 0. -/
theorem window_stays_in_season_witness :
    ((0 : Int) = holdover (-1) ((oneCellSeason 1 1 1).dcgrid 1 (121 - 121)) 121
        ∧ 0 ≤ (oneCellSeason 1 1 1).dcgrid 1 (121 - 121)
        ∧ (121 : Int) ≤ 121 ∧ (121 : Int) ≤ 273)
      ∧ ((0 : Int) ≤ 0 ∧ (0 : Int) ≤ 121 - 121)
      ∧ CellContribution (oneCellSeason 1 1 1) zeroRng (-1) 121 1 0 1 zeroSim :=
  ⟨⟨holdover_auto_zero_121.symm, le_refl (0 : Int), by decide, by decide⟩,
    (window_stays_in_season (oneCellSeason 1 1 1) zeroRng (-1) 121 1 0 1 zeroSim 0
      holdover_auto_zero_121.symm (le_refl (0 : Int)) (by decide) (by decide)).1,
    (window_stays_in_season (oneCellSeason 1 1 1) zeroRng (-1) 121 1 0 1 zeroSim 0
      holdover_auto_zero_121.symm (le_refl (0 : Int)) (by decide) (by decide)).2.2.2⟩

/-! ## The ranks of the earlier version -/

/-- C23: with the 200 trials of the earlier version and confidence level 95
the rank computation of lines 95-97 gives `ci_low = 5` and `ci_high = 195`, the
2.5th and 97.5th percentiles of 200 trials, and the four province band values
of the summary line are then read at the cells `5-1` and `195-1` of the sorted
arrays, as the earlier version reads its band values. -/
theorem ranks_agree_with_old_v01 :
    ci_low (sims_old_v01 : Int) 95 = 5 ∧ ci_high (sims_old_v01 : Int) 95 = 195
      ∧ ((5 : ℚ) / (sims_old_v01 : ℚ) * 100 = 25 / 10
        ∧ (195 : ℚ) / (sims_old_v01 : ℚ) * 100 = 975 / 10)
      ∧ ∀ (oldyear today leap : Int) (a : Acc),
          (summaryLine oldyear today leap sims_old_v01 (ci_low (sims_old_v01 : Int) 95)
              (ci_high (sims_old_v01 : Int) 95) a).bands.take 4
            = bands_old_v01 a.totholdPROV a.totarrPROV := by
  have e0 : ((sims_old_v01 : Nat) : Int) = 200 := rfl
  have e1 : ci_low (sims_old_v01 : Int) 95 = 5 := by
    rw [e0]
    exact ranks_200_95.1
  have e2 : ci_high (sims_old_v01 : Int) 95 = 195 := by
    rw [e0]
    exact ranks_200_95.2
  refine ⟨e1, e2, ⟨by simp only [sims_old_v01]; norm_num,
    by simp only [sims_old_v01]; norm_num⟩, ?_⟩
  intro oldyear today leap a
  rw [e1, e2]
  rfl

/-! ## Bounds on the counts of a window day -/

theorem countBelow_bounds (R : Rng) (p : ℚ) (n : Nat) (c : Int) (pos : Nat) :
    c ≤ (countBelow R p n c pos).1 ∧ (countBelow R p n c pos).1 ≤ c + (n : Int) := by
  induction n generalizing c pos with
  | zero => simp [countBelow]
  | succ n ih =>
    rw [countBelow]
    obtain ⟨h1, h2⟩ := ih (if uniform R pos < p then c + 1 else c) (pos + 1)
    by_cases hu : uniform R pos < p
    · rw [if_pos hu] at h1 h2 ⊢
      constructor
      · omega
      · push_cast; omega
    · rw [if_neg hu] at h1 h2 ⊢
      constructor
      · omega
      · push_cast; omega

theorem arrivals_bounds (S : Season) (R : Rng) (i : Nat) (d : Int) (n : Nat) (a : Int × Nat) :
    a.1 ≤ (arrivals S R i d n a).1 ∧ (arrivals S R i d n a).1 ≤ a.1 + (n : Int) := by
  induction n generalizing a with
  | zero => simp [arrivals]
  | succ n ih =>
    rw [arrivals]
    obtain ⟨h1, h2⟩ := ih (arrivalStep S R i d a)
    have hs : a.1 ≤ (arrivalStep S R i d a).1 ∧ (arrivalStep S R i d a).1 ≤ a.1 + 1 := by
      unfold arrivalStep
      by_cases hu : uniform R (a.2 + 1) < pa S i d (rand1 S R i d a.2)
      · simp [hu]
      · simp [hu]
    constructor
    · omega
    · push_cast; omega

/-- The counts of one run of the body of the day loop, entered with a holdover
count that is not negative. -/
theorem dayStep_bounds (S : Season) (R : Rng) (i : Nat) (today h day : Int) (v : Vars)
    (hv : 0 ≤ v.nhold) :
    (0 ≤ (dayStep S R i today h day v).narr1
        ∧ (dayStep S R i today h day v).narr1 ≤ v.nhold)
      ∧ (0 ≤ (dayStep S R i today h day v).narr2
        ∧ (dayStep S R i today h day v).narr2 ≤ (dayStep S R i today h day v).nign)
      ∧ (0 ≤ (dayStep S R i today h day v).nign
        ∧ (dayStep S R i today h day v).nign ≤ max 0 (S.ltg i (day - 121)))
      ∧ (0 ≤ (dayStep S R i today h day v).nhold
        ∧ (dayStep S R i today h day v).nhold ≤ v.nhold + max 0 (S.ltg i (day - 121))) := by
  have hn1 : 0 ≤ (dayStep S R i today h day v).narr1
      ∧ (dayStep S R i today h day v).narr1 ≤ v.nhold := by
    simp only [dayStep]
    by_cases hd : day > today - h
    · rw [if_pos hd]
      have hb := countBelow_bounds R (S.parr1 i (day - 121)) v.nhold.toNat 0 v.pos
      have ht : ((v.nhold.toNat : Nat) : Int) = v.nhold := Int.toNat_of_nonneg hv
      constructor
      · exact hb.1
      · have := hb.2
        rw [ht] at this
        omega
    · rw [if_neg hd]
      exact ⟨le_refl _, hv⟩
  have hig : 0 ≤ (dayStep S R i today h day v).nign
      ∧ (dayStep S R i today h day v).nign ≤ max 0 (S.ltg i (day - 121)) := by
    simp only [dayStep]
    have hb := countBelow_bounds R (S.pign i (day - 121)) (S.ltg i (day - 121)).toNat 0
      (if day > today - h then
          countBelow R (S.parr1 i (day - 121)) v.nhold.toNat 0 v.pos
        else (0, v.pos)).2
    have ht : (((S.ltg i (day - 121)).toNat : Nat) : Int) = max 0 (S.ltg i (day - 121)) := by
      rw [Int.toNat_eq_max, max_comm]
    constructor
    · exact hb.1
    · have := hb.2
      rw [ht] at this
      omega
  have hn2 : 0 ≤ (dayStep S R i today h day v).narr2
      ∧ (dayStep S R i today h day v).narr2 ≤ (dayStep S R i today h day v).nign := by
    have hb := arrivals_bounds S R i (day - 121) (dayStep S R i today h day v).nign.toNat
      (0, (countBelow R (S.pign i (day - 121)) (S.ltg i (day - 121)).toNat 0
        (if day > today - h then
            countBelow R (S.parr1 i (day - 121)) v.nhold.toNat 0 v.pos
          else (0, v.pos)).2).2)
    have ht : (((dayStep S R i today h day v).nign.toNat : Nat) : Int)
        = (dayStep S R i today h day v).nign := Int.toNat_of_nonneg hig.1
    rw [ht] at hb
    have e : (dayStep S R i today h day v).narr2 =
        (arrivals S R i (day - 121) (dayStep S R i today h day v).nign.toNat
          (0, (countBelow R (S.pign i (day - 121)) (S.ltg i (day - 121)).toNat 0
            (if day > today - h then
                countBelow R (S.parr1 i (day - 121)) v.nhold.toNat 0 v.pos
              else (0, v.pos)).2).2)).1 := rfl
    rw [e]
    constructor
    · have := hb.1; simpa using this
    · have := hb.2; simpa using this
  refine ⟨hn1, hn2, hig, ?_⟩
  rw [dayStep_nhold]
  constructor <;> omega

/-- The holdover count after any days of the day loop is not negative and is
bounded by the count at the start and the strikes of the days. -/
theorem foldl_nhold_bounds (S : Season) (R : Rng) (i : Nat) (today h : Int)
    (l : List Int) (v : Vars) (hv : 0 ≤ v.nhold) :
    0 ≤ (l.foldl (fun w day => dayStep S R i today h day w) v).nhold
      ∧ (l.foldl (fun w day => dayStep S R i today h day w) v).nhold
          ≤ v.nhold + (l.map (fun day => max 0 (S.ltg i (day - 121)))).sum := by
  induction l generalizing v with
  | nil => simp [hv]
  | cons d l ih =>
    obtain ⟨_, _, _, hb1, hb2⟩ := dayStep_bounds S R i today h d v hv
    obtain ⟨h1, h2⟩ := ih (dayStep S R i today h d v) hb1
    simp only [List.foldl_cons, List.map_cons, List.sum_cons]
    constructor
    · exact h1
    · omega

theorem cellVars_nhold_nonneg (S : Season) (R : Rng) (ht today : Int) (i : Nat) (v : Vars) :
    0 ≤ (cellVars S R ht today i v).nhold := by
  unfold cellVars dayLoop
  exact (foldl_nhold_bounds S R i today _ _ (cellStart v) (le_refl _)).1

/-- C24: for any season table (counts may be negative, probabilities may lie
outside `[0, 1]`), any random sequence, any cell and any state `v` in which a
trial reaches the cell, at every day `day` of the window, reached after the
days `l` from the holdover count `pre.nhold` (0 at the first day):
`0 <= narr1 <= pre.nhold`, `0 <= narr2 <= nign` and
`0 <= nign <= max(0, lightning_total of the day)`; the holdover count is never
negative and never above the strikes of the window days replayed so far, a day
with a negative total counting as a day without strikes (with totals that are
not negative this is the sum of the totals). -/
theorem replay_counts_bounded (S : Season) (R : Rng) (holdover_time today : Int) (i : Nat)
    (v : Vars) (l rest : List Int) (day : Int)
    (hw : windowDays today (holdover holdover_time (S.dcgrid i (today - 121)) today)
      = l ++ day :: rest) :
    cellVars S R holdover_time today i v =
        rest.foldl
          (fun u d =>
            dayStep S R i today (holdover holdover_time (S.dcgrid i (today - 121)) today) d u)
          (dayStep S R i today (holdover holdover_time (S.dcgrid i (today - 121)) today) day
            (l.foldl
              (fun u d =>
                dayStep S R i today
                  (holdover holdover_time (S.dcgrid i (today - 121)) today) d u)
              (cellStart v)))
      ∧ ∀ pre s : Vars,
          pre = l.foldl
              (fun u d =>
                dayStep S R i today
                  (holdover holdover_time (S.dcgrid i (today - 121)) today) d u)
              (cellStart v) →
          s = dayStep S R i today (holdover holdover_time (S.dcgrid i (today - 121)) today)
              day pre →
          0 ≤ pre.nhold
            ∧ (0 ≤ s.narr1 ∧ s.narr1 ≤ pre.nhold)
            ∧ (0 ≤ s.narr2 ∧ s.narr2 ≤ s.nign)
            ∧ (0 ≤ s.nign ∧ s.nign ≤ max 0 (S.ltg i (day - 121)))
            ∧ 0 ≤ s.nhold
            ∧ s.nhold ≤ ((l ++ [day]).map (fun d => max 0 (S.ltg i (d - 121)))).sum
            ∧ ((∀ d, d ∈ l ++ [day] → 0 ≤ S.ltg i (d - 121)) →
                s.nhold ≤ ((l ++ [day]).map (fun d => S.ltg i (d - 121))).sum) := by
  constructor
  · unfold cellVars dayLoop
    rw [hw, List.foldl_append, List.foldl_cons]
  · intro pre s hpre hs
    have hp := foldl_nhold_bounds S R i today
      (holdover holdover_time (S.dcgrid i (today - 121)) today) l (cellStart v) (le_refl _)
    rw [← hpre] at hp
    have hb := dayStep_bounds S R i today
      (holdover holdover_time (S.dcgrid i (today - 121)) today) day pre hp.1
    rw [← hs] at hb
    obtain ⟨b1, b2, b3, b4, b5⟩ := hb
    have hsum : s.nhold ≤ ((l ++ [day]).map (fun d => max 0 (S.ltg i (d - 121)))).sum := by
      have h0 : (cellStart v).nhold = 0 := rfl
      rw [List.map_append, List.sum_append]
      simp only [List.map_cons, List.map_nil, List.sum_cons, List.sum_nil]
      have := hp.2
      omega
    refine ⟨hp.1, b1, b2, b3, b4, hsum, ?_⟩
    intro hnn
    have e : (l ++ [day]).map (fun d => max 0 (S.ltg i (d - 121)))
        = (l ++ [day]).map (fun d => S.ltg i (d - 121)) := by
      apply List.map_congr_left
      intro d hd
      exact max_eq_right (hnn d hd)
    rw [← e]
    exact hsum

/-- The hypothesis of C24 holds for cell 1 of the one-cell season on day 121,
whose window is the single day 121. -/
theorem replay_counts_bounded_witness :
    windowDays 121 (holdover (-1) ((oneCellSeason 1 1 1).dcgrid 1 (121 - 121)) 121)
        = [] ++ 121 :: []
      ∧ cellVars (oneCellSeason 1 1 1) zeroRng (-1) 121 1 zeroSim.v =
        dayStep (oneCellSeason 1 1 1) zeroRng 1 121
          (holdover (-1) ((oneCellSeason 1 1 1).dcgrid 1 (121 - 121)) 121) 121
          (cellStart zeroSim.v) :=
  have hw : windowDays 121 (holdover (-1) ((oneCellSeason 1 1 1).dcgrid 1 (121 - 121)) 121)
      = [] ++ 121 :: [] := by
    show windowDays 121 (holdover (-1) 0 121) = [121]
    rw [holdover_auto_zero_121]
    decide
  ⟨hw, (replay_counts_bounded (oneCellSeason 1 1 1) zeroRng (-1) 121 1 zeroSim.v [] [] 121
    hw).1⟩

/-! ## Sorting two arrays keeps a pointwise order between them -/

theorem countP_range_lt (n r : Nat) :
    (List.range n).countP (fun j => decide (j < r)) = min r n := by
  induction n with
  | zero => simp
  | succ n ih =>
    rw [List.range_succ, List.countP_append, ih]
    by_cases h : n < r
    · simp [List.countP_cons, h]
      omega
    · simp [List.countP_cons, h]
      omega

theorem countP_firstN (n : Nat) (a : Nat → Int) (p : Int → Bool) :
    (firstN n a).countP p = (List.range n).countP (fun j => p (a j)) := by
  unfold firstN
  rw [List.countP_map]
  rfl

/-- Rank by rank, the sorted values of an array that is pointwise below
another one are below the sorted values of the other one. -/
theorem sorted_dominates (n : Nat) (a b A B : Nat → Int)
    (hab : ∀ i, i < n → a i ≤ b i)
    (hA : SortedPermOf n A a) (hB : SortedPermOf n B b) (r : Nat) (hr : r < n) :
    A r ≤ B r := by
  by_contra hc
  have hlt : B r < A r := not_le.mp hc
  have c1 : min (r + 1) n ≤ (List.range n).countP (fun j => decide (B j ≤ B r)) := by
    rw [← countP_range_lt n (r + 1)]
    apply List.countP_mono_left
    intro j hj hjr
    have hjr2 : j < r + 1 := by simpa using hjr
    have : B j ≤ B r := hB.1 j r (by omega) hr
    simpa using this
  have c2 : (List.range n).countP (fun j => decide (B j ≤ B r))
      = (List.range n).countP (fun j => decide (b j ≤ B r)) := by
    rw [← countP_firstN n B (fun x => decide (x ≤ B r)),
      ← countP_firstN n b (fun x => decide (x ≤ B r))]
    exact hB.2.countP_eq _
  have c3 : (List.range n).countP (fun j => decide (b j ≤ B r))
      ≤ (List.range n).countP (fun j => decide (a j ≤ B r)) := by
    apply List.countP_mono_left
    intro j hj hjb
    have hjn : j < n := List.mem_range.mp hj
    have h1 : b j ≤ B r := by simpa using hjb
    have h2 := hab j hjn
    have : a j ≤ B r := le_trans h2 h1
    simpa using this
  have c4 : (List.range n).countP (fun j => decide (a j ≤ B r))
      = (List.range n).countP (fun j => decide (A j ≤ B r)) := by
    rw [← countP_firstN n A (fun x => decide (x ≤ B r)),
      ← countP_firstN n a (fun x => decide (x ≤ B r))]
    exact (hA.2.countP_eq _).symm
  have c5 : (List.range n).countP (fun j => decide (A j ≤ B r)) ≤ min r n := by
    rw [← countP_range_lt n r]
    apply List.countP_mono_left
    intro j hj hjA
    have hjn : j < n := List.mem_range.mp hj
    have h1 : A j ≤ B r := by simpa using hjA
    have : j < r := by
      by_contra hge
      have h3 : A r ≤ A j := hA.1 r j (by omega) hjn
      omega
    simpa using this
  have e1 : min (r + 1) n = r + 1 := by omega
  have e2 : min r n = r := by omega
  omega

theorem exchangeSort_dominates (n : Nat) (a b : Nat → Int)
    (hab : ∀ i, i < n → a i ≤ b i) (r : Nat) (hr : r < n) :
    exchangeSort n a r ≤ exchangeSort n b r :=
  sorted_dominates n a b _ _ hab (exchangeSort_sortedPermOf n a)
    (exchangeSort_sortedPermOf n b) r hr

/-! ## Holdover totals and arrival totals, trial by trial -/

theorem resetTrial_dominates (sim : Nat) (a : Acc) : Dominates sim (resetTrial sim a) := by
  obtain ⟨_, h2, h3, h4⟩ := resetTrial_zero sim a
  refine ⟨by rw [h2, h3], ?_⟩
  intro k hk
  obtain ⟨_, h5, h6⟩ := h4 k hk
  rw [h5, h6]

theorem resetTrial_dominates_frame (sim t : Nat) (a : Acc) (h : t ≠ sim)
    (h0 : Dominates t a) : Dominates t (resetTrial sim a) := by
  obtain ⟨h1, h2⟩ := h0
  refine ⟨?_, ?_⟩
  · simpa [resetTrial, Function.update_noteq h] using h1
  · intro k hk
    simpa [resetTrial, set2_apply, h] using h2 k hk

theorem cellStep_dominates (S : Season) (R : Rng) (ht today : Int) (sims sim i t : Nat)
    (st : Sim) (h0 : Dominates t st.a) :
    Dominates t (cellStep S R ht today sims sim i st).a := by
  obtain ⟨h1, h2⟩ := h0
  have hn := cellVars_nhold_nonneg S R ht today i st.v
  by_cases h : t = sim
  · subst h
    refine ⟨?_, ?_⟩
    · simp only [cellStep, Function.update_same]
      omega
    · intro k hk
      have h3 := h2 k hk
      simp only [cellStep, set2_apply]
      by_cases hk2 : k = subreg (S.eco i (today - 121)) (S.longi i)
      · rw [if_pos ⟨hk2, trivial⟩, if_pos ⟨hk2, trivial⟩]
        rw [hk2] at h3
        omega
      · rw [if_neg (fun c => hk2 c.1), if_neg (fun c => hk2 c.1)]
        exact h3
  · refine ⟨?_, ?_⟩
    · simpa [cellStep, Function.update_noteq h] using h1
    · intro k hk
      simpa [cellStep, set2_apply, h] using h2 k hk

theorem cells_foldl_dominates (S : Season) (R : Rng) (ht today : Int) (sims sim t : Nat)
    (l : List Nat) (st : Sim) (h0 : Dominates t st.a) :
    Dominates t (l.foldl (fun s i => cellStep S R ht today sims sim i s) st).a := by
  induction l generalizing st with
  | nil => exact h0
  | cons i l ih => exact ih _ (cellStep_dominates S R ht today sims sim i t st h0)

theorem trials_foldl_dominates (S : Season) (R : Rng) (ht today : Int) (cells sims : Nat)
    (n t : Nat) (st : Sim) (h : t < n) :
    Dominates t ((List.range n).foldl
      (fun s sim => trial S R ht today cells sims sim s) st).a := by
  induction n with
  | zero => omega
  | succ n ih =>
    rw [List.range_succ, List.foldl_append]
    simp only [List.foldl_cons, List.foldl_nil]
    by_cases hn : t = n
    · subst hn
      unfold trial
      exact cells_foldl_dominates S R ht today sims t t _ _ (resetTrial_dominates t _)
    · unfold trial
      exact cells_foldl_dominates S R ht today sims n t _ _
        (resetTrial_dominates_frame n t _ hn (ih (by omega)))

/-- Each array of trial totals is, after the sorting pass, the exchange sort of
the array before the pass. -/
theorem sortPass_arrays (sims : Nat) (a : Acc) :
    ((sortPass sims a).totarrPROV = exchangeSort sims a.totarrPROV
        ∧ (sortPass sims a).totholdPROV = exchangeSort sims a.totholdPROV)
      ∧ ∀ k, k < 3 →
        (sortPass sims a).totarr k = exchangeSort sims (a.totarr k)
          ∧ (sortPass sims a).tothold k = exchangeSort sims (a.tothold k) := by
  obtain ⟨p1, p2, _, p4, p5, _⟩ := sortPROV_arrays sims (sortSub sims a)
  obtain ⟨s1, s2, _⟩ := sortSub_PROV sims a
  refine ⟨⟨?_, ?_⟩, ?_⟩
  · unfold sortPass; rw [p1, s1]
  · unfold sortPass; rw [p2, s2]
  · intro k hk
    obtain ⟨r1, r2, _⟩ := sortSub_rows sims a k hk
    unfold sortPass
    exact ⟨by rw [p4, r1], by rw [p5, r2]⟩

/-! ## A query day of four trials -/

theorem exchangeSort_of_ascending (n : Nat) (a : Nat → Int) (h : Ascending n a) :
    exchangeSort n a = a := by
  have inner : ∀ (i : Nat) (l : List Nat), (∀ j, j ∈ l → i ≤ j ∧ j < n) →
      l.foldl (fun c j => exchange c i j) a = a := by
    intro i l
    induction l with
    | nil => intro _; rfl
    | cons j l ih =>
      intro hl
      have hj := hl j (List.mem_cons_self _ _)
      have e : exchange a i j = a := by
        unfold exchange
        rw [if_neg (not_lt.mpr (h i j hj.1 hj.2))]
      rw [List.foldl_cons, e]
      exact ih (fun j2 hj2 => hl j2 (List.mem_cons_of_mem _ hj2))
  have outer : ∀ (l : List Nat),
      l.foldl (fun b i => (List.range' i (n - i)).foldl (fun c j => exchange c i j) b) a
        = a := by
    intro l
    induction l with
    | nil => rfl
    | cons i l ih =>
      rw [List.foldl_cons, inner i _ (fun j hj => by
        rw [List.mem_range'_1] at hj
        omega)]
      exact ih
  exact outer _

/-- One cell with one strike, ignition probability 1 and no arrival: the
strike ignites unless the draw is the first call of `rand()`. -/
theorem cellVars_first_draw_max (v : Vars) :
    cellVars (oneCellSeason 1 1 0) maxAtZeroRng (-1) 121 1 v =
      if v.pos = 0 then { nhold := 0, narr1 := 0, nign := 0, narr2 := 0, pos := 1 }
      else { nhold := 1, narr1 := 0, nign := 1, narr2 := 0, pos := v.pos + 3 } := by
  have hd : windowDays 121 0 = [121] := by decide
  have e1 : cellVars (oneCellSeason 1 1 0) maxAtZeroRng (-1) 121 1 v =
      dayStep (oneCellSeason 1 1 0) maxAtZeroRng 1 121 0 121 (cellStart v) := by
    unfold cellVars dayLoop
    simp only [oneCellSeason, holdover_auto_zero_121, hd, List.foldl_cons, List.foldl_nil]
  rw [e1]
  by_cases hp : v.pos = 0
  · simp [oneCellSeason, dayStep, countBelow, maxAtZeroRng, uniform, arrivals, arrivalStep,
      pa, rand1, totpltg, cellStart, hp]
  · simp [oneCellSeason, dayStep, countBelow, maxAtZeroRng, uniform, arrivals, arrivalStep,
      pa, rand1, totpltg, cellStart, hp]

theorem simLoop_first_draw_max :
    (simLoop (oneCellSeason 1 1 0) maxAtZeroRng (-1) 121 1 4
        { zeroSim with a := resetDay 1 zeroSim.a }).a.totholdPROV 0 = 0
      ∧ (simLoop (oneCellSeason 1 1 0) maxAtZeroRng (-1) 121 1 4
        { zeroSim with a := resetDay 1 zeroSim.a }).a.totholdPROV 1 = 1
      ∧ (simLoop (oneCellSeason 1 1 0) maxAtZeroRng (-1) 121 1 4
        { zeroSim with a := resetDay 1 zeroSim.a }).a.totholdPROV 2 = 1
      ∧ (simLoop (oneCellSeason 1 1 0) maxAtZeroRng (-1) 121 1 4
        { zeroSim with a := resetDay 1 zeroSim.a }).a.totholdPROV 3 = 1 := by
  have r1 : List.range 4 = [0, 1, 2, 3] := by decide
  have r2 : List.range' 1 1 = [1] := by decide
  refine ⟨?_, ?_, ?_, ?_⟩ <;>
    simp [simLoop, trial, r1, r2, cellStep, cellVars_first_draw_max, resetTrial, zeroSim, resetDay,
      Function.update]

/-- A query day of four trials in which the first trial has no holdover and
the other three have one: the sorted holdover totals of the province. -/
theorem queryDay_first_draw_max :
    (queryDay (oneCellSeason 1 1 0) maxAtZeroRng (-1) 121 1 4 zeroSim).a.totholdPROV 0 = 0
      ∧ (queryDay (oneCellSeason 1 1 0) maxAtZeroRng (-1) 121 1 4 zeroSim).a.totholdPROV 2
          = 1 := by
  obtain ⟨v0, v1, v2, v3⟩ := simLoop_first_draw_max
  have hasc : Ascending 4 (simLoop (oneCellSeason 1 1 0) maxAtZeroRng (-1) 121 1 4
      { zeroSim with a := resetDay 1 zeroSim.a }).a.totholdPROV := by
    intro p q hpq hq
    interval_cases q <;> interval_cases p <;> simp [v0, v1, v2, v3]
  have e : (queryDay (oneCellSeason 1 1 0) maxAtZeroRng (-1) 121 1 4 zeroSim).a.totholdPROV
      = (simLoop (oneCellSeason 1 1 0) maxAtZeroRng (-1) 121 1 4
          { zeroSim with a := resetDay 1 zeroSim.a }).a.totholdPROV := by
    show (sortPass 4 _).totholdPROV = _
    rw [(sortPass_arrays 4 _).1.2]
    exact exchangeSort_of_ascending 4 _ hasc
  rw [e]
  exact ⟨v0, v2⟩

/-! ## Band low and band high -/

/-- Two cells of an array in ascending order, read at ranks `lo <= hi`. -/
theorem ascending_lookup (n : Nat) (b : Nat → Int) (hb : Ascending n b) (lo hi : Int)
    (h1 : lo ≤ hi) (h2 : hi ≤ n) (h3 : 1 ≤ hi) :
    lookup b (lo - 1) ≤ lookup b (hi - 1) := by
  unfold lookup
  exact hb _ _ (by omega) (by omega)

/-- C25 as stated fails: with `sims = 1000` the confidence level -50 gives
ranks with `1 <= ci_low` and `ci_high <= sims`, yet `ci_low > ci_high` (750 and
250). With 4 trials and level -50 the ranks are 3 and 1, and on a query day
whose trials have the province holdover totals 0, 1, 1, 1 the summary line
reports the holdover band low 1 and the band high 0. -/
theorem ranks_cross_below_level_0 :
    (ci_low 1000 (-50) = 750 ∧ ci_high 1000 (-50) = 250)
      ∧ (1 ≤ ci_low 1000 (-50) ∧ ci_high 1000 (-50) ≤ 1000
        ∧ ¬ (ci_low 1000 (-50) ≤ ci_high 1000 (-50)))
      ∧ (ci_low 4 (-50) = 3 ∧ ci_high 4 (-50) = 1)
      ∧ (summaryLine 2000 121 1 4 (ci_low 4 (-50)) (ci_high 4 (-50))
          (queryDay (oneCellSeason 1 1 0) maxAtZeroRng (-1) 121 1 4 zeroSim).a).bands.getD 0 0
            = 1
      ∧ (summaryLine 2000 121 1 4 (ci_low 4 (-50)) (ci_high 4 (-50))
          (queryDay (oneCellSeason 1 1 0) maxAtZeroRng (-1) 121 1 4 zeroSim).a).bands.getD 1 0
            = 0 := by
  obtain ⟨e1, e2⟩ := ranks_1000_neg50
  obtain ⟨e5, e6⟩ := ranks_4_neg50
  refine ⟨⟨e1, e2⟩, ⟨?_, ?_, ?_⟩, ⟨e5, e6⟩, ?_, ?_⟩
  · rw [e1]; decide
  · rw [e2]; decide
  · rw [e1, e2]; decide
  · rw [e5, e6]
    exact queryDay_first_draw_max.2
  · rw [e5, e6]
    exact queryDay_first_draw_max.1

/-- C25, amended: for a number of trials below `2^24`, a confidence level
`C >= 0` held in the `float` variable, and ranks computed by lines 96-97 with
`1 <= ci_low` and `ci_high <= sims`, `ci_low <= ci_high` and on the summary
line of every query day each of the eight band low values (holdovers and
arrivals, province and three subregions) is at most the band high value next
to it. -/
theorem band_low_le_band_high (S : Season) (R : Rng) (holdover_time today : Int)
    (cells sims : Nat) (st : Sim) (C : ℚ) (oldyear leap : Int)
    (hs : sims < 16777216)
    (hC : 0 ≤ C) (hlo : 1 ≤ ci_low (sims : Int) C) (hhi : ci_high (sims : Int) C ≤ sims) :
    ci_low (sims : Int) C ≤ ci_high (sims : Int) C
      ∧ ∀ k, k < 8 →
        (summaryLine oldyear today leap sims (ci_low (sims : Int) C) (ci_high (sims : Int) C)
            (queryDay S R holdover_time today cells sims st).a).bands.getD (2 * k) 0
          ≤ (summaryLine oldyear today leap sims (ci_low (sims : Int) C)
            (ci_high (sims : Int) C)
            (queryDay S R holdover_time today cells sims st).a).bands.getD (2 * k + 1) 0 := by
  have hle := ci_low_le_ci_high (sims : Int) (Int.natCast_nonneg sims)
    (by exact_mod_cast hs) C hC
  refine ⟨hle, ?_⟩
  obtain ⟨⟨e1, e2⟩, e3⟩ := sortPass_arrays sims
    (simLoop S R holdover_time today cells sims { st with a := resetDay cells st.a }).a
  have hP1 : Ascending sims (queryDay S R holdover_time today cells sims st).a.totholdPROV := by
    show Ascending sims (sortPass sims _).totholdPROV
    rw [e2]
    exact (exchangeSort_spec _ _).1
  have hP2 : Ascending sims (queryDay S R holdover_time today cells sims st).a.totarrPROV := by
    show Ascending sims (sortPass sims _).totarrPROV
    rw [e1]
    exact (exchangeSort_spec _ _).1
  have hS1 : ∀ j, j < 3 →
      Ascending sims ((queryDay S R holdover_time today cells sims st).a.tothold j) := by
    intro j hj
    show Ascending sims ((sortPass sims _).tothold j)
    rw [(e3 j hj).2]
    exact (exchangeSort_spec _ _).1
  have hS2 : ∀ j, j < 3 →
      Ascending sims ((queryDay S R holdover_time today cells sims st).a.totarr j) := by
    intro j hj
    show Ascending sims ((sortPass sims _).totarr j)
    rw [(e3 j hj).1]
    exact (exchangeSort_spec _ _).1
  have hhi1 : 1 ≤ ci_high (sims : Int) C := le_trans hlo hle
  intro k hk
  have hk8 : k = 0 ∨ k = 1 ∨ k = 2 ∨ k = 3 ∨ k = 4 ∨ k = 5 ∨ k = 6 ∨ k = 7 := by omega
  rcases hk8 with h | h | h | h | h | h | h | h <;> subst h
  · exact ascending_lookup sims _ hP1 _ _ hle hhi hhi1
  · exact ascending_lookup sims _ hP2 _ _ hle hhi hhi1
  · exact ascending_lookup sims _ (hS1 0 (by decide)) _ _ hle hhi hhi1
  · exact ascending_lookup sims _ (hS2 0 (by decide)) _ _ hle hhi hhi1
  · exact ascending_lookup sims _ (hS1 1 (by decide)) _ _ hle hhi hhi1
  · exact ascending_lookup sims _ (hS2 1 (by decide)) _ _ hle hhi hhi1
  · exact ascending_lookup sims _ (hS1 2 (by decide)) _ _ hle hhi hhi1
  · exact ascending_lookup sims _ (hS2 2 (by decide)) _ _ hle hhi hhi1

/-- The hypotheses of the amended C25 hold for 1000 trials and confidence
level 95, with ranks 25 and 975. -/
theorem band_low_le_band_high_witness :
    (1000 < 16777216 ∧ (0 : ℚ) ≤ 95 ∧ 1 ≤ ci_low ((1000 : Nat) : Int) 95
        ∧ ci_high ((1000 : Nat) : Int) 95 ≤ ((1000 : Nat) : Int))
      ∧ ci_low ((1000 : Nat) : Int) 95 ≤ ci_high ((1000 : Nat) : Int) 95 :=
  have h1 : 1 ≤ ci_low ((1000 : Nat) : Int) 95 := by
    show 1 ≤ ci_low 1000 95
    rw [ranks_1000_95.1]; decide
  have h2 : ci_high ((1000 : Nat) : Int) 95 ≤ ((1000 : Nat) : Int) := by
    show ci_high 1000 95 ≤ 1000
    rw [ranks_1000_95.2]; decide
  ⟨⟨by norm_num, by norm_num, h1, h2⟩,
    (band_low_le_band_high (oneCellSeason 1 1 1) zeroRng (-1) 121 1 1000 zeroSim 95 2000 1
      (by norm_num) (by norm_num) h1 h2).1⟩

/-- After a query day, rank by rank the sorted arrival totals are not above
the sorted holdover totals, for the province and for each subregion. -/
theorem queryDay_rank_order (S : Season) (R : Rng) (ht today : Int) (cells sims : Nat)
    (st : Sim) (idx : Nat) (hidx : idx < sims) :
    (queryDay S R ht today cells sims st).a.totarrPROV idx
        ≤ (queryDay S R ht today cells sims st).a.totholdPROV idx
      ∧ ∀ k, k < 3 →
        (queryDay S R ht today cells sims st).a.totarr k idx
          ≤ (queryDay S R ht today cells sims st).a.tothold k idx := by
  have hd : ∀ sim, sim < sims →
      Dominates sim (simLoop S R ht today cells sims { st with a := resetDay cells st.a }).a :=
    fun sim hs => trials_foldl_dominates S R ht today cells sims sims sim _ hs
  obtain ⟨⟨e1, e2⟩, e3⟩ :=
    sortPass_arrays sims (simLoop S R ht today cells sims { st with a := resetDay cells st.a }).a
  refine ⟨?_, ?_⟩
  · show (sortPass sims _).totarrPROV idx ≤ (sortPass sims _).totholdPROV idx
    rw [e1, e2]
    exact exchangeSort_dominates sims _ _ (fun i hi => (hd i hi).1) idx hidx
  · intro k hk
    show (sortPass sims _).totarr k idx ≤ (sortPass sims _).tothold k idx
    rw [(e3 k hk).1, (e3 k hk).2]
    exact exchangeSort_dominates sims _ _ (fun i hi => (hd i hi).2 k hk) idx hidx

/-- C26: after a query day, for every rank `r` in `[1, sims]` the `r`-th
smallest holdover total of the trials (cell `r - 1` of the sorted array) is at
least the `r`-th smallest arrival total, for the province and for each of the
three subregions. Trial by trial, before the sort, the holdover total is at
least the arrival total, and each sorted array holds in ascending order the
trial totals of the array before the sort. Hence, for ranks `lo` and `hi` in
`[1, sims]`, each holdover band value of the summary line is at least the
arrival band value of the same region and rank. -/
theorem holdover_rank_dominates (S : Season) (R : Rng) (holdover_time today : Int)
    (cells sims : Nat) (st : Sim) (r : Nat) (h1 : 1 ≤ r) (h2 : r ≤ sims) :
    ((queryDay S R holdover_time today cells sims st).a.totarrPROV (r - 1)
          ≤ (queryDay S R holdover_time today cells sims st).a.totholdPROV (r - 1)
        ∧ ∀ k, k < 3 →
          (queryDay S R holdover_time today cells sims st).a.totarr k (r - 1)
            ≤ (queryDay S R holdover_time today cells sims st).a.tothold k (r - 1))
      ∧ (∀ sim, sim < sims →
          Dominates sim
            (simLoop S R holdover_time today cells sims
              { st with a := resetDay cells st.a }).a)
      ∧ (SortedPermOf sims (queryDay S R holdover_time today cells sims st).a.totarrPROV
            (simLoop S R holdover_time today cells sims
              { st with a := resetDay cells st.a }).a.totarrPROV
          ∧ SortedPermOf sims (queryDay S R holdover_time today cells sims st).a.totholdPROV
            (simLoop S R holdover_time today cells sims
              { st with a := resetDay cells st.a }).a.totholdPROV
          ∧ ∀ k, k < 3 →
            SortedPermOf sims ((queryDay S R holdover_time today cells sims st).a.totarr k)
                ((simLoop S R holdover_time today cells sims
                  { st with a := resetDay cells st.a }).a.totarr k)
              ∧ SortedPermOf sims ((queryDay S R holdover_time today cells sims st).a.tothold k)
                ((simLoop S R holdover_time today cells sims
                  { st with a := resetDay cells st.a }).a.tothold k))
      ∧ ∀ (oldyear leap lo hi : Int), 1 ≤ lo → lo ≤ sims → 1 ≤ hi → hi ≤ sims →
          ∀ k, k < 4 →
            (summaryLine oldyear today leap sims lo hi
                (queryDay S R holdover_time today cells sims st).a).bands.getD (4 * k + 2) 0
              ≤ (summaryLine oldyear today leap sims lo hi
                (queryDay S R holdover_time today cells sims st).a).bands.getD (4 * k) 0
            ∧ (summaryLine oldyear today leap sims lo hi
                (queryDay S R holdover_time today cells sims st).a).bands.getD (4 * k + 3) 0
              ≤ (summaryLine oldyear today leap sims lo hi
                (queryDay S R holdover_time today cells sims st).a).bands.getD (4 * k + 1) 0 := by
  obtain ⟨⟨e1, e2⟩, e3⟩ := sortPass_arrays sims
    (simLoop S R holdover_time today cells sims { st with a := resetDay cells st.a }).a
  refine ⟨queryDay_rank_order S R holdover_time today cells sims st (r - 1) (by omega),
    fun sim hs => trials_foldl_dominates S R holdover_time today cells sims sims sim _ hs,
    ⟨?_, ?_, ?_⟩, ?_⟩
  · show SortedPermOf sims (sortPass sims _).totarrPROV _
    rw [e1]
    exact exchangeSort_sortedPermOf _ _
  · show SortedPermOf sims (sortPass sims _).totholdPROV _
    rw [e2]
    exact exchangeSort_sortedPermOf _ _
  · intro k hk
    constructor
    · show SortedPermOf sims ((sortPass sims _).totarr k) _
      rw [(e3 k hk).1]
      exact exchangeSort_sortedPermOf _ _
    · show SortedPermOf sims ((sortPass sims _).tothold k) _
      rw [(e3 k hk).2]
      exact exchangeSort_sortedPermOf _ _
  · intro oldyear leap lo hi hl1 hl2 hh1 hh2 k hk
    obtain ⟨a1, a2⟩ := queryDay_rank_order S R holdover_time today cells sims st
      (lo - 1).toNat (by omega)
    obtain ⟨b1, b2⟩ := queryDay_rank_order S R holdover_time today cells sims st
      (hi - 1).toNat (by omega)
    have hk4 : k = 0 ∨ k = 1 ∨ k = 2 ∨ k = 3 := by omega
    rcases hk4 with h | h | h | h <;> subst h
    · exact ⟨a1, b1⟩
    · exact ⟨a2 0 (by decide), b2 0 (by decide)⟩
    · exact ⟨a2 1 (by decide), b2 1 (by decide)⟩
    · exact ⟨a2 2 (by decide), b2 2 (by decide)⟩

/-- The hypotheses of C26 hold for rank 1 of a query day with one trial. -/
theorem holdover_rank_dominates_witness :
    (1 ≤ 1 ∧ 1 ≤ 1)
      ∧ (queryDay (oneCellSeason 1 1 1) zeroRng (-1) 121 1 1 zeroSim).a.totarrPROV (1 - 1)
        ≤ (queryDay (oneCellSeason 1 1 1) zeroRng (-1) 121 1 1 zeroSim).a.totholdPROV (1 - 1) :=
  ⟨by decide,
    (holdover_rank_dominates (oneCellSeason 1 1 1) zeroRng (-1) 121 1 1 zeroSim 1
      (by decide) (by decide)).1.1⟩

/-! ## The period draw -/

/-- When the strikes of a cell-day all fall in the periods 0 to 2 and the
period draw is below 1, the arrival probability applied is `arrival0_prob`. -/
theorem pa_first_three_periods (S : Season) (R : Rng) (i : Nat) (d : Int) (pos : Nat)
    (h3 : S.ltgp i d 3 = 0) (h4 : S.ltgp i d 4 = 0)
    (hs : 0 < S.ltgp i d 0 + S.ltgp i d 1 + S.ltgp i d 2)
    (hu : uniform R pos < 1) :
    pa S i d (rand1 S R i d pos) = S.parr0 i d := by
  have ht : totpltg S i d = S.ltgp i d 2 + S.ltgp i d 1 + S.ltgp i d 0 := by
    unfold totpltg; omega
  have hpos : (0 : ℚ) < ((S.ltgp i d 2 + S.ltgp i d 1 + S.ltgp i d 0 : Int) : ℚ) := by
    exact_mod_cast (by omega : 0 < S.ltgp i d 2 + S.ltgp i d 1 + S.ltgp i d 0)
  have hr : rand1 S R i d pos < ((S.ltgp i d 2 + S.ltgp i d 1 + S.ltgp i d 0 : Int) : ℚ) := by
    unfold rand1
    rw [ht]
    calc uniform R pos * ((S.ltgp i d 2 + S.ltgp i d 1 + S.ltgp i d 0 : Int) : ℚ)
        < 1 * ((S.ltgp i d 2 + S.ltgp i d 1 + S.ltgp i d 0 : Int) : ℚ) :=
          mul_lt_mul_of_pos_right hu hpos
      _ = _ := one_mul _
  unfold pa
  split_ifs <;> simp

/-- Evaluation for C27: cell 1 has one strike on day 121, in period 0, with
ignition probability 1 and same-day arrival probability 1. The first `rand()`
is 0 and the strike ignites; the second `rand()`, the period draw, returns
`RAND_MAX`, so `rand1` is 1, not below any cumulative count, and the `else`
branch applies weight 0.2 although periods 3 and 4 hold no strike; the third
draw 16384/32767 is below `arrival0_prob = 1` but not below 0.2, and the
ignition is not counted as a same-day arrival. -/
theorem period_draw_at_rand_max :
    ((oneCellSeason 1 1 1).ltgp 1 0 0 = 1 ∧ (oneCellSeason 1 1 1).ltgp 1 0 3 = 0
        ∧ (oneCellSeason 1 1 1).ltgp 1 0 4 = 0 ∧ (oneCellSeason 1 1 1).parr0 1 0 = 1)
      ∧ uniform maxAtOneRng 1 = 1
      ∧ pa (oneCellSeason 1 1 1) 1 0 (rand1 (oneCellSeason 1 1 1) maxAtOneRng 1 0 1) = 2 / 10
      ∧ uniform maxAtOneRng 2 < (oneCellSeason 1 1 1).parr0 1 0
      ∧ cellVars (oneCellSeason 1 1 1) maxAtOneRng (-1) 121 1 zeroSim.v =
          { nhold := 1, narr1 := 0, nign := 1, narr2 := 0, pos := 3 } := by
  have hd : windowDays 121 0 = [121] := by decide
  have e1 : cellVars (oneCellSeason 1 1 1) maxAtOneRng (-1) 121 1 zeroSim.v =
      dayStep (oneCellSeason 1 1 1) maxAtOneRng 1 121 0 121 (cellStart zeroSim.v) := by
    unfold cellVars dayLoop
    simp only [oneCellSeason, holdover_auto_zero_121, hd, List.foldl_cons, List.foldl_nil]
  refine ⟨by simp [oneCellSeason], by simp [uniform, maxAtOneRng], ?_, ?_, ?_⟩
  · simp [oneCellSeason, pa, rand1, totpltg, uniform, maxAtOneRng]
  · simp [oneCellSeason, uniform, maxAtOneRng]
    norm_num
  · rw [e1]
    simp [oneCellSeason, dayStep, countBelow, zeroSim, maxAtOneRng,
      uniform, arrivals, arrivalStep, pa, rand1, totpltg, cellStart]
    norm_num

/-! ## Dates in the lightning binning program -/

/-- Outside September and December the date reported by the binning program
for a strike of a valid date of a year without leap day is that date. -/
theorem reportedDate_other_months (mon day : Int) (h1 : 1 ≤ mon) (h2 : mon ≤ 11)
    (h9 : mon ≠ 9) (hd1 : 1 ≤ day) (hd2 : day ≤ daysInMonth false mon.toNat) :
    reportedDate mon day = some (mon, day) := by
  interval_cases mon <;> first
    | exact absurd rfl h9
    | (have hd3 : day ≤ 31 := le_trans hd2 (by decide)
       interval_cases day <;> first | rfl | exact absurd hd2 (by decide))

/-- Evaluation for C28: the table of `julian` holds 242 for September where
the table of `nailuj` holds 243. September 1 gets day number 243, the number
of August 31; a strike of September 1 read after one of August 31 of the same
year passes the test of line 94 and is counted in the same group, and that
group is reported as August 31. September 30 is reported as September 29, and
for a December date `nailuj` reads past the end of its table. -/
theorem julian_september_collides :
    julian 9 1 = some 243 ∧ julian 8 31 = some 243
      ∧ nailuj 243 0 = some (8, 31)
      ∧ reportedDate 9 1 = some (8, 31)
      ∧ sameOutputDay 243 243 2010 2010 8 = true
      ∧ reportedDate 9 30 = some (9, 29)
      ∧ julian 12 1 = some 335 ∧ reportedDate 12 1 = none := by
  decide

end FireOccurrence
